import Mathlib

/-!
# A shallow embedding of the struct <-> bin-map converter

The two source files `marshal.go` and `unmarshal.go` are written against Go's
`reflect` package.  The embedding represents a `reflect.Value` as a pair of a
static type (`GoType`) and an untyped value tree (`GoValue`), a value of type
`any` as a `GoValue` that is either `GoValue.nil` or `GoValue.iface t v`, and a
Go map as an association list in iteration order.

Scope of the data model: Go `int`/`uint` are 64 bits wide; types are finite
trees (no recursive named types); composite types other than structs and
interfaces are unnamed; interface types have an empty method set; strings are
text; pointers are represented by their pointee (no aliasing); embedded and blank
struct fields are not represented. A function that can panic returns the panic
as a value (`Res.panics`, `Outcome.panics`); a function that mutates its argument
returns the state it leaves.

The file has two parts: the embedding (data model, the `reflect` primitives the
sources call, then `marshal.go` and `unmarshal.go` function by function), and the
theorems about it, grouped by property.
-/

namespace Aerospike

/-! ## Kinds and types -/

/-- The kinds of `reflect.Kind`. -/
inductive Kind
  | Invalid | Bool | Int | Int8 | Int16 | Int32 | Int64
  | Uint | Uint8 | Uint16 | Uint32 | Uint64 | Uintptr
  | Float32 | Float64 | Complex64 | Complex128
  | Array | Chan | Func | Interface | Map | Pointer | Slice | String | Struct
  | UnsafePointer
  deriving DecidableEq

/-- The text of `reflect.Kind.String()`. -/
def kindString : Kind → String
  | .Invalid => "invalid" | .Bool => "bool" | .Int => "int" | .Int8 => "int8"
  | .Int16 => "int16" | .Int32 => "int32" | .Int64 => "int64" | .Uint => "uint"
  | .Uint8 => "uint8" | .Uint16 => "uint16" | .Uint32 => "uint32" | .Uint64 => "uint64"
  | .Uintptr => "uintptr" | .Float32 => "float32" | .Float64 => "float64"
  | .Complex64 => "complex64" | .Complex128 => "complex128" | .Array => "array"
  | .Chan => "chan" | .Func => "func" | .Interface => "interface" | .Map => "map"
  | .Pointer => "ptr" | .Slice => "slice" | .String => "string" | .Struct => "struct"
  | .UnsafePointer => "unsafe.Pointer"

/-- The signed integer kinds `Int, Int8, Int16, Int32, Int64`. -/
def isSignedInt : Kind → Bool
  | .Int | .Int8 | .Int16 | .Int32 | .Int64 => true
  | _ => false

/-- The unsigned integer kinds `Uint, Uint8, Uint16, Uint32, Uint64` (without `Uintptr`). -/
def isUnsignedInt : Kind → Bool
  | .Uint | .Uint8 | .Uint16 | .Uint32 | .Uint64 => true
  | _ => false

/-- The float kinds. -/
def isFloatKind : Kind → Bool
  | .Float32 | .Float64 => true
  | _ => false

/-- Width in bits of an integer kind (`int`, `uint` and `uintptr` are 64 bits wide). -/
def kindBits : Kind → Nat
  | .Int8 | .Uint8 => 8
  | .Int16 | .Uint16 => 16
  | .Int32 | .Uint32 => 32
  | _ => 64

/-- The per-field data of `reflect.StructField` the converter reads: the field name,
whether the name is exported, and the value of `Tag.Get("as")`. -/
structure FieldInfo where
  name : String
  exported : Bool
  tag : String
  deriving DecidableEq

/-- Static Go types. `basic` covers the non-composite kinds; its `pkg`/`name` are
`PkgPath()` and `Name()` (`""`/`"int"` for the predeclared `int`,
`"time"`/`"Duration"` for `time.Duration`). -/
inductive GoType
  | basic (pkg name : String) (k : Kind)
  | array (len : Nat) (elem : GoType)
  | chan (elem : GoType)
  | func (sig : String)
  | iface (pkg name : String)
  | map (key elem : GoType)
  | ptr (elem : GoType)
  | slice (elem : GoType)
  | struct (pkg name : String) (fields : List (FieldInfo × GoType))

/-- Untyped value trees. `nil` is the nil pointer, map, slice, channel, function or
interface; `iface t v` is a non-nil interface value with dynamic type `t`; floats
are carried as the IEEE-754 bit pattern of the `float64` they widen to; a map is
the list of its entries in iteration order. -/
inductive GoValue
  | bool (b : Bool)
  | int (n : Int)
  | float (bits : Nat)
  | complex (re im : Nat)
  | str (s : String)
  | nil
  | ptr (pointee : GoValue)
  | slice (elems : List GoValue)
  | map (entries : List (GoValue × GoValue))
  | struct (fields : List GoValue)
  | array (elems : List GoValue)
  | chan (len cap : Nat)
  | func (id : Nat)
  | iface (t : GoType) (v : GoValue)

/-- A `reflect.Value`: `none` is the zero (invalid) Value. -/
abbrev RValue := Option (GoType × GoValue)

/-- `Type.Kind()`. -/
def GoType.kind : GoType → Kind
  | .basic _ _ k => k
  | .array _ _ => .Array
  | .chan _ => .Chan
  | .func _ => .Func
  | .iface _ _ => .Interface
  | .map _ _ => .Map
  | .ptr _ => .Pointer
  | .slice _ => .Slice
  | .struct _ _ _ => .Struct

/-- `Type.Elem()`: the element type of an array, channel, map, pointer or slice. -/
def GoType.elem : GoType → GoType
  | .array _ e => e
  | .chan e => e
  | .map _ e => e
  | .ptr e => e
  | .slice e => e
  | t => t

/-- `Type.Key()`: the key type of a map. -/
def GoType.key : GoType → GoType
  | .map k _ => k
  | t => t

/-- The fields of a struct type (`Type.Field(i)` for `i < Type.NumField()`). -/
def GoType.fields : GoType → List (FieldInfo × GoType)
  | .struct _ _ fs => fs
  | _ => []

/-- `Type.PkgPath()`. -/
def GoType.pkgPath : GoType → String
  | .basic p _ _ => p
  | .iface p _ => p
  | .struct p _ _ => p
  | _ => ""

/-- `Type.Name()`. -/
def GoType.typeName : GoType → String
  | .basic _ n _ => n
  | .iface _ n => n
  | .struct _ n _ => n
  | _ => ""

mutual
/-- Identity of types (`T == V` on `reflect.Type`). -/
def GoType.beq : GoType → GoType → Bool
  | .basic p n k, .basic p2 n2 k2 => p == p2 && n == n2 && decide (k = k2)
  | .array l e, .array l2 e2 => l == l2 && GoType.beq e e2
  | .chan e, .chan e2 => GoType.beq e e2
  | .func s, .func s2 => s == s2
  | .iface p n, .iface p2 n2 => p == p2 && n == n2
  | .map k e, .map k2 e2 => GoType.beq k k2 && GoType.beq e e2
  | .ptr e, .ptr e2 => GoType.beq e e2
  | .slice e, .slice e2 => GoType.beq e e2
  | .struct p n fs, .struct p2 n2 fs2 => p == p2 && n == n2 && GoType.beqFields fs fs2
  | _, _ => false
/-- Identity of field lists. -/
def GoType.beqFields : List (FieldInfo × GoType) → List (FieldInfo × GoType) → Bool
  | [], [] => true
  | (i, t) :: r, (i2, t2) :: r2 => decide (i = i2) && GoType.beq t t2 && GoType.beqFields r r2
  | _, _ => false
end

mutual
/-- Structural equality of value trees. -/
def GoValue.beq : GoValue → GoValue → Bool
  | .bool a, .bool b => a == b
  | .int a, .int b => decide (a = b)
  | .float a, .float b => a == b
  | .complex a b, .complex c d => a == c && b == d
  | .str a, .str b => a == b
  | .nil, .nil => true
  | .ptr a, .ptr b => GoValue.beq a b
  | .slice a, .slice b => GoValue.beqList a b
  | .map a, .map b => GoValue.beqEntries a b
  | .struct a, .struct b => GoValue.beqList a b
  | .array a, .array b => GoValue.beqList a b
  | .chan a b, .chan c d => a == c && b == d
  | .func a, .func b => a == b
  | .iface t a, .iface u b => GoType.beq t u && GoValue.beq a b
  | _, _ => false
/-- Structural equality of value lists. -/
def GoValue.beqList : List GoValue → List GoValue → Bool
  | [], [] => true
  | a :: r, b :: r2 => GoValue.beq a b && GoValue.beqList r r2
  | _, _ => false
/-- Structural equality of entry lists. -/
def GoValue.beqEntries : List (GoValue × GoValue) → List (GoValue × GoValue) → Bool
  | [], [] => true
  | (k, v) :: r, (k2, v2) :: r2 => GoValue.beq k k2 && GoValue.beq v v2 && GoValue.beqEntries r r2
  | _, _ => false
end


/-! ## Errors and outcomes -/

/-- An operand of `fmt.Errorf` other than the wrapped error. -/
inductive FmtArg
  | str (s : String)
  | int (n : Int)
  | val (v : GoValue)
  | typ (t : GoType)

/-- Errors built by the converter: the sentinel `errInputType`
(`errors.New("wrong variable provided")`) and `fmt.Errorf(format, args..., inner)`
whose last verb is `%w`. The format string is kept verbatim, unrendered. -/
inductive GoError
  | errInputType
  | wrapf (format : String) (args : List FmtArg) (inner : GoError)

/-- `errors.Is(err, errInputType)`. -/
def GoError.isInputType : GoError → Bool
  | .errInputType => true
  | .wrapf _ _ inner => inner.isInputType

/-- Result of a Go function returning `(T, error)` whose error paths return a nil `T`;
`panics` is a run-time panic raised by `reflect`. -/
inductive Res (α : Type)
  | ok (a : α)
  | err (e : GoError)
  | panics (msg : String)

/-- Result of a Go function that either returns (leaving state or value `s` and an
optional error) or panics. -/
inductive Outcome (σ : Type)
  | returns (s : σ) (err : Option GoError)
  | panics (msg : String)

/-- Conversion primitives of the Go runtime whose results the development does not
fix: narrowing of a `float64` to `float32` precision, and the value computed by the
conversions between integers and floats, between complex widths, and between
strings, byte/rune slices and arrays. -/
structure Runtime where
  float32Of : Nat → Nat
  convertOther : GoType → GoValue → GoType → GoValue

/-! ## Integers, predeclared types, time -/

/-- Go's integer conversion `T(n)` to the width and signedness of kind `k`. -/
def wrapInt (k : Kind) (n : Int) : Int :=
  if isSignedInt k then
    (n + 2 ^ (kindBits k - 1)) % 2 ^ kindBits k - 2 ^ (kindBits k - 1)
  else n % 2 ^ kindBits k

/-- The value `n` lies in the range of the integer kind `k`. -/
def inRange (k : Kind) (n : Int) : Prop :=
  if isSignedInt k then -(2 ^ (kindBits k - 1)) ≤ n ∧ n < 2 ^ (kindBits k - 1)
  else 0 ≤ n ∧ n < 2 ^ kindBits k

/-- The predeclared type of a non-composite kind (`int`, `int64`, `string`, ...). -/
def predeclared (k : Kind) : GoType := .basic "" (kindString k) k

/-- The empty interface type `any`. -/
def anyType : GoType := .iface "" ""

/-- The type `map[string]any` of a top-level or nested struct encoding. -/
def mapStringAny : GoType := .map (predeclared .String) anyType

/-- The type `map[any]any` of an encoded map. -/
def mapAnyAny : GoType := .map anyType anyType

/-- The type `[]any` of an encoded slice. -/
def sliceAny : GoType := .slice anyType

/-- `time.Location`, reduced to its name field. -/
def locationType : GoType :=
  .struct "time" "Location" [(⟨"name", false, ""⟩, predeclared .String)]

/-- `time.Time`: the struct `wall uint64; ext int64; loc *Location`. -/
def timeType : GoType :=
  .struct "time" "Time"
    [(⟨"wall", false, ""⟩, predeclared .Uint64),
     (⟨"ext", false, ""⟩, predeclared .Int64),
     (⟨"loc", false, ""⟩, .ptr locationType)]

/-- Seconds from January 1, year 1 to the Unix epoch (`unixToInternal`). -/
def unixToInternal : Int := 62135596800

/-- Seconds from January 1, year 1 to January 1, 1885 (`wallToInternal`). -/
def wallToInternal : Int := 59453308800

/-- `Time.sec()`: seconds since January 1, year 1; with the `hasMonotonic` bit set
the seconds are the 33-bit field of `wall`, else they are `ext`. -/
def timeSec (wall ext : Int) : Int :=
  if 2 ^ 63 ≤ wall then wallToInternal + (wall * 2 % 2 ^ 64) / 2 ^ 31 else ext

/-- `Time.Unix()` on a `time.Time` value. -/
def timeUnix : GoValue → Int
  | .struct [.int wall, .int ext, _] => wrapInt .Int64 (timeSec wall ext - unixToInternal)
  | _ => 0

/-- `time.Unix(sec, 0).UTC()`. -/
def timeOfUnix (sec : Int) : GoValue :=
  .struct [.int 0, .int (wrapInt .Int64 (sec + unixToInternal)), .nil]

/-! ## `reflect` primitives -/

mutual
/-- `reflect.Zero(t)`: the zero value of a type. -/
def zeroValue : GoType → GoValue
  | .basic _ _ k =>
    match k with
    | .Bool => .bool false
    | .String => .str ""
    | .Float32 | .Float64 => .float 0
    | .Complex64 | .Complex128 => .complex 0 0
    | _ => .int 0
  | .array n e => .array (List.replicate n (zeroValue e))
  | .struct _ _ fs => .struct (zeroFields fs)
  | _ => .nil
/-- The zero values of a field list. -/
def zeroFields : List (FieldInfo × GoType) → List GoValue
  | [] => []
  | (_, t) :: r => zeroValue t :: zeroFields r
end

mutual
/-- `reflect.Value.IsZero()`: comparison with the zero value (a float is zero when
it is `+0` or `-0`). -/
def GoValue.isZero : GoValue → Bool
  | .bool b => !b
  | .int n => decide (n = 0)
  | .float b => b % 2 ^ 63 == 0
  | .complex r i => r % 2 ^ 63 == 0 && i % 2 ^ 63 == 0
  | .str s => s == ""
  | .nil => true
  | .struct fs => GoValue.allZero fs
  | .array xs => GoValue.allZero xs
  | _ => false
/-- Every value of the list is zero. -/
def GoValue.allZero : List GoValue → Bool
  | [] => true
  | x :: r => GoValue.isZero x && GoValue.allZero r
end

/-- `reflect.Value.Interface()` on a valid Value: boxes the value with its type; a
Value of interface kind yields the interface it holds. -/
def interfaceOf (t : GoType) (v : GoValue) : GoValue :=
  if t.kind = .Interface then v else .iface t v

/-- `reflect.ValueOf(a)` for `a : any`. -/
def valueOf : GoValue → RValue
  | .iface t v => some (t, v)
  | _ => none

/-- `reflect.Value.Elem()`: the value an interface holds or a pointer points to;
outer `none` is the panic on any other kind, inner `none` the zero Value. -/
def reflectElem (t : GoType) (v : GoValue) : Option RValue :=
  match t, v with
  | .iface _ _, x => some (valueOf x)
  | .ptr e, .ptr p => some (some (e, p))
  | .ptr _, _ => some none
  | _, _ => none

/-- The entries of a map value (none for the nil map). -/
def entriesOf : GoValue → List (GoValue × GoValue)
  | .map es => es
  | _ => []

/-- The elements of a slice or array value (none for the nil slice). -/
def elemsOf : GoValue → List GoValue
  | .slice xs => xs
  | .array xs => xs
  | _ => []

/-- The field values of a struct value. -/
def fieldsOf : GoValue → List GoValue
  | .struct vs => vs
  | _ => []

/-- `reflect.Value.Len()`; `none` is the panic on a kind without length. -/
def reflectLen (t : GoType) (v : GoValue) : Option Nat :=
  match t, v with
  | .array n _, _ => some n
  | .chan _, .chan len _ => some len
  | .chan _, _ => some 0
  | .map _ _, x => some (entriesOf x).length
  | .slice _, x => some (elemsOf x).length
  | .basic _ _ .String, .str s => some s.utf8ByteSize
  | .ptr (.array n _), _ => some n
  | _, _ => none

/-- `reflect.Value.Cap()`; `none` is the panic on a kind without capacity. The
spare capacity of a slice is not tracked. -/
def reflectCap (t : GoType) (v : GoValue) : Option Nat :=
  match t, v with
  | .array n _, _ => some n
  | .chan _, .chan _ cap => some cap
  | .chan _, _ => some 0
  | .slice _, x => some (elemsOf x).length
  | .ptr (.array n _), _ => some n
  | _, _ => none

/-- The operand of `==` on NaN: exponent all ones and a non-zero mantissa. -/
def floatIsNaN (bits : Nat) : Bool :=
  bits / 2 ^ 52 % 2 ^ 11 == 2047 && bits % 2 ^ 52 != 0

/-- Go's `==` on map keys: IEEE equality on floats, structural otherwise. -/
def keyEq : GoValue → GoValue → Bool
  | .float a, .float b =>
    !floatIsNaN a && !floatIsNaN b && (a == b || (a % 2 ^ 63 == 0 && b % 2 ^ 63 == 0))
  | a, b => GoValue.beq a b

/-- Map read `m[key]`. -/
def mapLookup : List (GoValue × GoValue) → GoValue → Option GoValue
  | [], _ => none
  | (k, v) :: r, key => if keyEq k key then some v else mapLookup r key

/-- Map write `m[key] = val`: replaces the value of an equal key, else adds the entry. -/
def mapInsert : List (GoValue × GoValue) → GoValue → GoValue → List (GoValue × GoValue)
  | [], key, val => [(key, val)]
  | (k, v) :: r, key, val =>
    if keyEq k key then (k, val) :: r else (k, v) :: mapInsert r key val

/-- Map `delete(m, key)`. -/
def mapDelete : List (GoValue × GoValue) → GoValue → List (GoValue × GoValue)
  | [], _ => []
  | (k, v) :: r, key => if keyEq k key then r else (k, v) :: mapDelete r key


/-! ## Assignability and conversion (`reflect.Value.assignTo`, `Convert`) -/

/-- `Type.HasName()`: the type is a defined (named) type. -/
def hasName (t : GoType) : Bool := t.typeName != ""

/-- `haveIdenticalType(T, V, cmpTags)` given the answer `under` of
`haveIdenticalUnderlyingType` on the same pair. -/
def identicalTypeWith (cmpTags : Bool) (t v : GoType) (under : Bool) : Bool :=
  if cmpTags then GoType.beq t v
  else t.typeName == v.typeName && decide (t.kind = v.kind) && t.pkgPath == v.pkgPath && under

mutual
/-- `haveIdenticalUnderlyingType(T, V, cmpTags)`. -/
def haveIdenticalUnderlyingType (cmpTags : Bool) : GoType → GoType → Bool
  | .basic p n k, v => GoType.beq (.basic p n k) v || decide (k = v.kind)
  | .array l e, .array l2 e2 =>
    l == l2 && identicalTypeWith cmpTags e e2 (haveIdenticalUnderlyingType cmpTags e e2)
  | .chan e, .chan e2 => identicalTypeWith cmpTags e e2 (haveIdenticalUnderlyingType cmpTags e e2)
  | .func s, .func s2 => s == s2
  | .iface _ _, .iface _ _ => true
  | .map k e, .map k2 e2 =>
    identicalTypeWith cmpTags k k2 (haveIdenticalUnderlyingType cmpTags k k2)
      && identicalTypeWith cmpTags e e2 (haveIdenticalUnderlyingType cmpTags e e2)
  | .ptr e, .ptr e2 => identicalTypeWith cmpTags e e2 (haveIdenticalUnderlyingType cmpTags e e2)
  | .slice e, .slice e2 => identicalTypeWith cmpTags e e2 (haveIdenticalUnderlyingType cmpTags e e2)
  | .struct _ _ fs, .struct _ _ fs2 => identicalFields cmpTags fs fs2
  | _, _ => false
/-- Field-wise comparison of two struct types: names, types and (with `cmpTags`) tags. -/
def identicalFields (cmpTags : Bool) :
    List (FieldInfo × GoType) → List (FieldInfo × GoType) → Bool
  | [], [] => true
  | (i, t) :: r, (i2, t2) :: r2 =>
    i.name == i2.name
      && identicalTypeWith cmpTags t t2 (haveIdenticalUnderlyingType cmpTags t t2)
      && (!cmpTags || i.tag == i2.tag)
      && identicalFields cmpTags r r2
  | _, _ => false
end

/-- `directlyAssignable(T, V)`. -/
def directlyAssignable (t v : GoType) : Bool :=
  GoType.beq t v ||
    (!(hasName t && hasName v) && decide (t.kind = v.kind) && haveIdenticalUnderlyingType true t v)

/-- `implements(T, V)`: every type implements an interface with no methods. -/
def implements (t _v : GoType) : Bool := decide (t.kind = .Interface)

/-- `Value.assignTo(dst)`: the value as a value of type `dst`; `none` is the panic
"value of type V is not assignable to type T". -/
def assignTo (dst src : GoType) (v : GoValue) : Option GoValue :=
  if directlyAssignable dst src then some v
  else if implements dst src then some (interfaceOf src v)
  else none

/-- The conversion routines `convertOp` selects. -/
inductive ConvOp
  | cvtInt | cvtUint | cvtDirect | cvtT2I | cvtI2I | cvtOther
  deriving DecidableEq

/-- The integer kinds of `convertOp`: signed, unsigned and `Uintptr`. -/
def isConvInt (k : Kind) : Bool := isSignedInt k || isUnsignedInt k || decide (k = .Uintptr)

/-- The kind-directed first part of `convertOp(dst, src)`. -/
def convertOpKind (dst src : GoType) : Option ConvOp :=
  if isSignedInt src.kind then
    if isConvInt dst.kind then some .cvtInt
    else if isFloatKind dst.kind || decide (dst.kind = .String) then some .cvtOther
    else none
  else if isUnsignedInt src.kind || decide (src.kind = .Uintptr) then
    if isConvInt dst.kind then some .cvtUint
    else if isFloatKind dst.kind || decide (dst.kind = .String) then some .cvtOther
    else none
  else if isFloatKind src.kind then
    if isConvInt dst.kind || isFloatKind dst.kind then some .cvtOther else none
  else if decide (src.kind = .Complex64) || decide (src.kind = .Complex128) then
    if decide (dst.kind = .Complex64) || decide (dst.kind = .Complex128) then some .cvtOther
    else none
  else
    match src, dst with
    | .basic _ _ .String, .slice e =>
      if e.pkgPath == "" && (decide (e.kind = .Uint8) || decide (e.kind = .Int32))
      then some .cvtOther else none
    | .slice e, .basic _ _ .String =>
      if e.pkgPath == "" && (decide (e.kind = .Uint8) || decide (e.kind = .Int32))
      then some .cvtOther else none
    | .slice e, .ptr (.array _ e2) => if GoType.beq e e2 then some .cvtOther else none
    | .slice e, .array _ e2 => if GoType.beq e e2 then some .cvtOther else none
    | _, _ => none

/-- `convertOp(dst, src)`; `none` when `src` is not convertible to `dst`. -/
def convertOp (dst src : GoType) : Option ConvOp :=
  match convertOpKind dst src with
  | some op => some op
  | none =>
    if haveIdenticalUnderlyingType false dst src then some .cvtDirect
    else
      match dst, src with
      | .ptr e, .ptr e2 =>
        if haveIdenticalUnderlyingType false e e2 then some .cvtDirect
        else none
      | _, _ =>
        if implements dst src then
          (if src.kind = .Interface then some .cvtI2I else some .cvtT2I)
        else none

/-- `Value.CanConvert(dst)` on a valid Value. -/
def canConvert (src : GoType) (v : GoValue) (dst : GoType) : Bool :=
  match convertOp dst src with
  | none => false
  | some _ =>
    match src, dst with
    | .slice _, .array n _ => decide (n ≤ (elemsOf v).length)
    | .slice _, .ptr (.array n _) => decide (n ≤ (elemsOf v).length)
    | _, _ => true

/-- `Value.Convert(dst)` on a valid Value; `none` is the panic on an impossible
conversion. -/
def convert (rt : Runtime) (src : GoType) (v : GoValue) (dst : GoType) : Option GoValue :=
  if canConvert src v dst then
    match convertOp dst src, v with
    | some .cvtInt, .int n => some (.int (wrapInt dst.kind n))
    | some .cvtUint, .int n => some (.int (wrapInt dst.kind n))
    | some .cvtDirect, x => some x
    | some .cvtT2I, x => some (.iface src x)
    | some .cvtI2I, x => some x
    | _, x => some (rt.convertOther src x dst)
  else none


/-! ## `marshal.go` -/

/-- The integer a Value of integer kind holds (`Value.Int()`, `Value.Uint()`). -/
def GoValue.toInt : GoValue → Int
  | .int n => n
  | _ => 0

/-- The error of the `default` branches: `"type %s is not supported: %w"`. -/
def unsupportedKind (k : Kind) : GoError :=
  .wrapf "type %s is not supported: %w" [.str (kindString k)] .errInputType

/-- Source `getMapKey`: signed keys widen to `int64`, unsigned keys to `uint64`,
strings pass, every other kind is an error. -/
def getMapKey (t : GoType) (val : GoValue) : Res GoValue :=
  match t.kind with
  | .Int | .Int8 | .Int16 | .Int32 | .Int64 =>
    .ok (.iface (predeclared .Int64) (.int val.toInt))
  | .Uint | .Uint8 | .Uint16 | .Uint32 | .Uint64 =>
    .ok (.iface (predeclared .Uint64) (.int val.toInt))
  | .String => .ok (.iface (predeclared .String) val)
  | k => .err (unsupportedKind k)

/-- The panic of `Value.Interface()` on a Value reached through an unexported field. -/
def panicInterfaceRO : String :=
  "reflect.Value.Interface: cannot return value obtained from unexported field or method"

/-- The `time.Time` held by the result of `v.Interface()`, if its dynamic type is
`time.Time` (the type assertion `realValue.(time.Time)`). -/
def asTime (realValue : GoValue) : Option GoValue :=
  match realValue with
  | .iface t v => if GoType.beq t timeType then some v else none
  | _ => none

/-- Boxes the entries `marshalMap` returns as the `any` holding a `map[any]any`. -/
def boxMap : Res (List (GoValue × GoValue)) → Res GoValue
  | .ok out => .ok (.iface mapAnyAny (.map out))
  | .err e => .err e
  | .panics m => .panics m

/-- Boxes the elements `marshalSlice` returns as the `any` holding a `[]any`. -/
def boxSlice : Res (List GoValue) → Res GoValue
  | .ok out => .ok (.iface sliceAny (.slice out))
  | .err e => .err e
  | .panics m => .panics m

/-- Boxes the entries `marshalStruct` returns as the `any` holding a `map[string]any`. -/
def boxStruct : Res (List (GoValue × GoValue)) → Res GoValue
  | .ok out => .ok (.iface mapStringAny (.map out))
  | .err e => .err e
  | .panics m => .panics m

mutual
/-- Source `convertValue`; `ro` is the read-only flag a Value inherits from an
unexported struct field, on which `v.Interface()` panics. A nil map or slice is
converted to an empty container. -/
def convertValue (ro : Bool) (t : GoType) (v : GoValue) : Res GoValue :=
  if ro then .panics panicInterfaceRO
  else
    match asTime (interfaceOf t v) with
    | some timeVal => .ok (.iface (predeclared .Int64) (.int (timeUnix timeVal)))
    | none =>
      match t.kind with
      | .Bool => .ok (.iface (predeclared .Bool) v)
      | .Int | .Int8 | .Int16 | .Int32 | .Int64 =>
        .ok (.iface (predeclared .Int64) (.int v.toInt))
      | .Uint | .Uint8 | .Uint16 | .Uint32 | .Uint64 =>
        .ok (.iface (predeclared .Int64) (.int (wrapInt .Int64 v.toInt)))
      | .Float32 | .Float64 => .ok (.iface (predeclared .Float64) v)
      | .String => .ok (.iface (predeclared .String) v)
      | .Map =>
        match v with
        | .map es => boxMap (marshalMap t.key t.elem es [])
        | _ => .ok (.iface mapAnyAny (.map []))
      | .Slice =>
        match v with
        | .slice xs => boxSlice (marshalSlice t.elem xs)
        | _ => .ok (.iface sliceAny (.slice []))
      | .Struct =>
        match v with
        | .struct vals => boxStruct (marshalStruct t.fields.length t.fields vals [])
        | _ => .panics "reflect: Field index out of range"
      | k => .err (unsupportedKind k)
/-- Source `marshalSlice`: the loop over the elements, in order. -/
def marshalSlice (e : GoType) : List GoValue → Res (List GoValue)
  | [] => .ok []
  | x :: xs =>
    match convertValue false e x with
    | .ok y =>
      match marshalSlice e xs with
      | .ok ys => .ok (y :: ys)
      | .err err => .err err
      | .panics m => .panics m
    | .err err => .err (.wrapf "failed to unmarshal slice: %w" [] err)
    | .panics m => .panics m
/-- Source `marshalMap`: the loop over the entries, writing into `out`. -/
def marshalMap (kt et : GoType) :
    List (GoValue × GoValue) → List (GoValue × GoValue) → Res (List (GoValue × GoValue))
  | [], out => .ok out
  | (k, v) :: rest, out =>
    match getMapKey kt k with
    | .ok iterKey =>
      match convertValue false et v with
      | .ok iterVal => marshalMap kt et rest (mapInsert out iterKey iterVal)
      | .err err =>
        .err (.wrapf "failed to marshal map value in key %s %v: %w"
          [.val (interfaceOf kt k), .val (interfaceOf et v)] err)
      | .panics m => .panics m
    | .err err => .err (.wrapf "failed to marshal map key %v: %w" [.val (interfaceOf kt k)] err)
    | .panics m => .panics m
/-- Source `marshalStruct`: the loop over the fields of a struct, writing into `out`;
`numField` is `v.Type().NumField()`, the operand of the error message. The leading
`if v.Kind() == reflect.Pointer` of the source never fires: both callers pass a Value
of kind Struct. -/
def marshalStruct (numField : Nat) :
    List (FieldInfo × GoType) → List GoValue → List (GoValue × GoValue) →
      Res (List (GoValue × GoValue))
  | [], _, out => .ok out
  | _ :: _, [], _ => .panics "reflect: Field index out of range"
  | (info, ft) :: fs, field :: vals, out =>
    if info.tag == "" then marshalStruct numField fs vals out
    else if field.isZero then marshalStruct numField fs vals out
    else
      match (match field with
             | .ptr p =>
               if ft.kind = Kind.Pointer then convertValue (!info.exported) ft.elem p
               else convertValue (!info.exported) ft (.ptr p)
             | x => convertValue (!info.exported) ft x) with
      | .ok x => marshalStruct numField fs vals (mapInsert out (.str info.tag) x)
      | .err err => .err (.wrapf "failed to convert field %v: %w" [.int numField] err)
      | .panics m => .panics m
end

/-- The step of the loop of source `marshalStruct` on a tagged, non-zero field: one
level of pointer indirection is removed (`reflect.Indirect`), then the value is
converted. A field that is not exported yields a read-only Value. -/
def convertField (info : FieldInfo) (ft : GoType) (field : GoValue) : Res GoValue :=
  match field with
  | .ptr p =>
    if ft.kind = Kind.Pointer then convertValue (!info.exported) ft.elem p
    else convertValue (!info.exported) ft (.ptr p)
  | x => convertValue (!info.exported) ft x

/-- `Value.Kind()`; the zero Value has kind `Invalid`. -/
def rkind : RValue → Kind
  | none => .Invalid
  | some (t, _) => t.kind

/-- `reflect.Indirect(v)`: the pointee of a pointer (the zero Value for a nil
pointer), any other Value unchanged. -/
def reflectIndirect : RValue → RValue
  | some (.ptr e, .ptr p) => some (e, p)
  | some (.ptr _, _) => none
  | rv => rv

/-- `Value.IsNil()` on a Value of pointer kind. -/
def rvIsNil : RValue → Bool
  | some (_, .nil) => true
  | _ => false

/-- The error of the input check of `Marshal`. -/
def errMarshalInput : GoError :=
  .wrapf "the provided variable must be a non-nil pointer to a struct: %w" [] .errInputType

/-- Source `Marshal`: the returned bin map (`GoValue.nil` is the nil map) and error. -/
def Marshal (v : GoValue) : Outcome GoValue :=
  match v with
  | .nil => .returns (.map []) none
  | _ =>
    let rv := valueOf v
    let indirect := reflectIndirect rv
    if rkind rv ≠ .Pointer ∨ rkind indirect ≠ .Struct ∨ rvIsNil rv = true then
      .returns (.map []) (some errMarshalInput)
    else
      match indirect with
      | some (.struct _ _ fs, .struct vals) =>
        match marshalStruct fs.length fs vals [] with
        | .ok binMap => .returns (.map binMap) none
        | .err e => .returns .nil (some e)
        | .panics m => .panics m
      | _ => .panics "reflect: NumField of non-struct type"

/-! ## `unmarshal.go` -/

/-- The type assertion `value.(int)`. -/
def asInt (value : GoValue) : Option Int :=
  match value with
  | .iface t (.int n) => if GoType.beq t (predeclared .Int) then some n else none
  | _ => none

/-- The type assertion `value.(float64)`. -/
def asFloat64 (value : GoValue) : Option Nat :=
  match value with
  | .iface t (.float b) => if GoType.beq t (predeclared .Float64) then some b else none
  | _ => none

/-- Source `toIntVal[T]`, `T` the predeclared integer type of kind `k`: a value
that is not a Go `int` reads as 0. -/
def toIntVal (k : Kind) (value : GoValue) : GoValue :=
  let intVal := (asInt value).getD 0
  .int (wrapInt k intVal)

/-- Source `toFloatVal[T]`, `T` the predeclared float type of kind `k`: a value
that is not a `float64` reads as 0. -/
def toFloatVal (rt : Runtime) (k : Kind) (value : GoValue) : GoValue :=
  let floatVal := (asFloat64 value).getD 0
  if k = .Float32 then .float (rt.float32Of floatVal) else .float floatVal

/-- Source `unmarshalScalarToKind`. -/
def unmarshalScalarToKind (rt : Runtime) (kind : Kind) (value : GoValue) : Res GoValue :=
  match kind with
  | .String => .ok value
  | .Uint64 => .ok (.iface (predeclared .Uint64) (toIntVal .Uint64 value))
  | .Int64 => .ok (.iface (predeclared .Int64) (toIntVal .Int64 value))
  | .Int32 => .ok (.iface (predeclared .Int32) (toIntVal .Int32 value))
  | .Uint32 => .ok (.iface (predeclared .Uint32) (toIntVal .Uint32 value))
  | .Int16 => .ok (.iface (predeclared .Int16) (toIntVal .Int16 value))
  | .Uint16 => .ok (.iface (predeclared .Uint16) (toIntVal .Uint16 value))
  | .Int8 => .ok (.iface (predeclared .Int8) (toIntVal .Int8 value))
  | .Uint8 => .ok (.iface (predeclared .Uint8) (toIntVal .Uint8 value))
  | .Int => .ok (.iface (predeclared .Int) (toIntVal .Int value))
  | .Uint => .ok (.iface (predeclared .Uint) (toIntVal .Uint value))
  | .Float32 => .ok (.iface (predeclared .Float32) (toFloatVal rt .Float32 value))
  | .Float64 => .ok (.iface (predeclared .Float64) (toFloatVal rt .Float64 value))
  | k => .err (.wrapf "unsupported scalar value type: %s: %w" [.str (kindString k)] .errInputType)

/-- Source `parseTime`: the `time.Time` value. -/
def parseTime (v : GoValue) : Res GoValue :=
  match v with
  | .nil => .ok (zeroValue timeType)
  | _ =>
    match asInt v with
    | some timestamp => .ok (timeOfUnix timestamp)
    | none => .err (.wrapf "time must be an int: %w" [] .errInputType)

/-- The loop of source `unmarshalSlice` over the elements of the stored sequence,
whose static element type is `srcElem`. -/
def unmarshalSliceLoop (rt : Runtime) (srcElem dstElem : GoType) :
    List GoValue → Res (List GoValue)
  | [] => .ok []
  | x :: xs =>
    match reflectElem srcElem x with
    | none => .panics "reflect: call of reflect.Value.Elem on a Value that is no interface or pointer"
    | some none => .panics "reflect: call of reflect.Value.Type on zero Value"
    | some (some (dt, dv)) =>
      if canConvert dt dv dstElem then
        match convert rt dt dv dstElem with
        | none => .panics "reflect.Value.Convert: value cannot be converted"
        | some y =>
          match unmarshalSliceLoop rt srcElem dstElem xs with
          | .ok ys => .ok (y :: ys)
          | .err e => .err e
          | .panics m => .panics m
      else
        .err (.wrapf "cannot convert %v to %v: %w" [.typ srcElem, .typ dstElem] .errInputType)

/-- Source `unmarshalSlice`; `ft` is `field.Type()`. -/
def unmarshalSlice (rt : Runtime) (ft : GoType) (v : GoValue) : Res GoValue :=
  match valueOf v with
  | none => .ok .nil
  | some (vt, vv) =>
    match reflectLen vt vv, reflectCap vt vv with
    | none, _ => .panics "reflect: call of reflect.Value.Len on a Value without length"
    | some _, none => .panics "reflect: call of reflect.Value.Cap on a Value without capacity"
    | some len, some cap =>
      if cap < len then .panics "reflect.MakeSlice: len > cap"
      else
        match ft, vt with
        | .slice dstElem, .slice srcElem | .slice dstElem, .array _ srcElem =>
          match unmarshalSliceLoop rt srcElem dstElem (elemsOf vv) with
          | .ok out => .ok (.iface ft (.slice out))
          | .err e => .err e
          | .panics m => .panics m
        | .slice _, _ =>
          if len = 0 then .ok (.iface ft (.slice []))
          else .panics "reflect: call of reflect.Value.Index on a Value that is no sequence"
        | _, _ => .panics "reflect.MakeSlice of non-slice type"

/-- `Value.SetMapIndex(reflect.ValueOf(key), reflect.ValueOf(val))` on a map of
type `map[kt]et`: `none` is a panic (zero key, or a key or value that is not
assignable); a zero `val` deletes the key. -/
def setMapIndex (kt et : GoType) (out : List (GoValue × GoValue)) (key val : GoValue) :
    Option (List (GoValue × GoValue)) :=
  match valueOf key with
  | none => none
  | some (kst, kv) =>
    match assignTo kt kst kv with
    | none => none
    | some k =>
      match valueOf val with
      | none => some (mapDelete out k)
      | some (vst, vv) =>
        match assignTo et vst vv with
        | none => none
        | some x => some (mapInsert out k x)

/-- The panic of `Value.Interface()` and `Value.Type()` on the zero Value and of
`Value.Elem()` on a Value that is neither an interface nor a pointer. -/
def panicElem : String := "reflect: call of reflect.Value.Elem or Interface on an unfit Value"

/-- One round of the loop of source `unmarshalMap` on the entry `k, e` of the stored
map of type `map[srcK]srcE`: both are coerced by `unmarshalScalarToKind` and written
into `out` of type `map[dstK]dstE`. -/
def unmarshalMapEntry (rt : Runtime) (srcK srcE dstK dstE : GoType)
    (out : List (GoValue × GoValue)) (k e : GoValue) : Res (List (GoValue × GoValue)) :=
  match reflectElem srcK k with
  | some (some (kdt, kdv)) =>
    match unmarshalScalarToKind rt dstK.kind (interfaceOf kdt kdv) with
    | .ok key =>
      match reflectElem srcE e with
      | some (some (vdt, vdv)) =>
        match unmarshalScalarToKind rt dstE.kind (interfaceOf vdt vdv) with
        | .ok val =>
          match setMapIndex dstK dstE out key val with
          | some out2 => .ok out2
          | none => .panics "reflect.Value.SetMapIndex: zero key or value not assignable"
        | .err err => .err err
        | .panics m => .panics m
      | _ => .panics panicElem
    | .err err => .err err
    | .panics m => .panics m
  | _ => .panics panicElem

/-- The loop of source `unmarshalMap` over the entries of the stored map of type
`map[srcK]srcE`, writing into `out` of type `map[dstK]dstE`. -/
def unmarshalMapLoop (rt : Runtime) (srcK srcE dstK dstE : GoType) :
    List (GoValue × GoValue) → List (GoValue × GoValue) → Res (List (GoValue × GoValue))
  | [], out => .ok out
  | (k, e) :: rest, out =>
    match unmarshalMapEntry rt srcK srcE dstK dstE out k e with
    | .ok out2 => unmarshalMapLoop rt srcK srcE dstK dstE rest out2
    | .err err => .err err
    | .panics m => .panics m

/-- The panic of `Value.Set` on a Value reached through an unexported field. -/
def panicSetRO : String :=
  "reflect: reflect.Value.Set using value obtained using unexported field"

/-- Source `unmarshalMap`; `ft` is `field.Type()` and `ro` the read-only flag of
`field`, on which `field.Set(out)` panics. On success the caller stores the
returned map into the field, which is the value `field.Set(out)` gave it. -/
def unmarshalMap (rt : Runtime) (ro : Bool) (ft : GoType) (v : GoValue) : Res GoValue :=
  match valueOf v with
  | none => .ok .nil
  | some (vt, vv) =>
    match reflectLen vt vv with
    | none => .panics "reflect: call of reflect.Value.Len on a Value without length"
    | some _ =>
      match ft, vt with
      | .map dstK dstE, .map srcK srcE =>
        match unmarshalMapLoop rt srcK srcE dstK dstE (entriesOf vv) [] with
        | .ok out => if ro then .panics panicSetRO else .ok (.iface ft (.map out))
        | .err e => .err e
        | .panics m => .panics m
      | .map _ _, _ => .panics "reflect: call of reflect.Value.MapRange on a Value that is no map"
      | _, _ => .panics "reflect.MakeMapWithSize of non-map type"

/-- `mapVal.MapIndex(reflect.ValueOf(tag))` followed by `rawVal.Interface()` on a
map of type `map[kt]et`: outer `none` is the panic when a string cannot be a key,
inner `none` an absent key. -/
def mapIndex (kt et : GoType) (entries : List (GoValue × GoValue)) (tag : String) :
    Option (Option GoValue) :=
  match assignTo kt (predeclared .String) (.str tag) with
  | none => none
  | some key => some ((mapLookup entries key).map (interfaceOf et))

/-- The guard `mapVal.Kind() != reflect.Map` of source `unmarshalStruct`: the key
type, element type and entries of `v` when it holds a map. -/
def structGuard (v : GoValue) : Option (GoType × GoType × List (GoValue × GoValue)) :=
  match valueOf v with
  | some (.map kt et, mv) => some (kt, et, entriesOf mv)
  | _ => none

/-- The test `indirect.Type().PkgPath() == "time" && indirect.Type().Name() == "Time"`. -/
def isTimeType (t : GoType) : Bool := t.pkgPath == "time" && t.typeName == "Time"

/-- Boxes the `time.Time` that `parseTime` returns as the `any` assigned to `marshaled`. -/
def boxTime : Res GoValue → Res GoValue
  | .ok t => .ok (.iface timeType t)
  | .err e => .err e
  | .panics m => .panics m

/-- The branches of the `switch` of source `unmarshalStruct` that do not recurse:
time, map, slice and scalar. `ro` is the read-only flag of `indirect`. -/
def unmarshalLeaf (rt : Runtime) (ro : Bool) (it : GoType) (val : GoValue) : Res GoValue :=
  if isTimeType it then boxTime (parseTime val)
  else
    match it.kind with
    | .Map => unmarshalMap rt ro it val
    | .Slice => unmarshalSlice rt it val
    | k => unmarshalScalarToKind rt k val

/-- The error wrapper `"error while parsing field %s: %w"`. -/
def errParsingField (name : String) (e : GoError) : GoError :=
  .wrapf "error while parsing field %s: %w" [.str name] e

/-- The statements of source `unmarshalStruct` after the `switch`, for a field of
type `ft` currently holding `fieldVal`: the new field value and the error returned,
if any. `roField` is the read-only flag of the field. -/
def storeField (rt : Runtime) (roField : Bool) (ft : GoType) (fieldVal : GoValue)
    (name : String) (switched : Res GoValue) : Outcome GoValue :=
  match switched with
  | .panics m => .panics m
  | .err e => .returns fieldVal (some (errParsingField name e))
  | .ok marshaled =>
    match valueOf marshaled with
    | none => .returns fieldVal none
    | some (mt, mv) =>
      match ft with
      | .ptr e =>
        if roField then .panics panicSetRO
        else
          match convert rt mt mv e with
          | none => .panics "reflect.Value.Convert: value cannot be converted"
          | some x => .returns (.ptr x) none
      | _ =>
        if canConvert mt mv ft then
          if roField then .panics panicSetRO
          else
            match convert rt mt mv ft with
            | none => .panics "reflect.Value.Convert: value cannot be converted"
            | some x => .returns x none
        else
          .returns fieldVal
            (some (.wrapf "cannot convert %v to %v: %w" [.val marshaled, .typ ft] .errInputType))

/-- Prepends a field value to the state an outcome leaves. -/
def consOutcome (fv : GoValue) : Outcome (List GoValue) → Outcome (List GoValue)
  | .returns vs e => .returns (fv :: vs) e
  | .panics m => .panics m

mutual
/-- The body of the loop of source `unmarshalStruct` for one field whose tag is a
key of the map: the `switch` on the type of `indirect` and the statements after it.
`ft` is the field type, `fieldVal` its current value, `val` the stored value and
`roField` the read-only flag of the field. For a pointer field `indirect` is a
fresh zero value, which is not read-only. Returns the new field value. -/
def unmarshalField (rt : Runtime) (roField : Bool) (ft : GoType) (fieldVal val : GoValue)
    (name : String) : Outcome GoValue :=
  match ft with
  | .ptr (.struct p n sfs) =>
    if isTimeType (.struct p n sfs) then
      storeField rt roField (.ptr (.struct p n sfs)) fieldVal name
        (unmarshalLeaf rt false (.struct p n sfs) val)
    else
      match structGuard val with
      | none => .returns fieldVal (some (errParsingField name .errInputType))
      | some (kt2, et2, es2) =>
        match unmarshalFields rt false kt2 et2 es2 sfs (zeroFields sfs) with
        | .returns _ none => .returns fieldVal none
        | .returns _ (some e) => .returns fieldVal (some (errParsingField name e))
        | .panics m => .panics m
  | .struct p n sfs =>
    if isTimeType (.struct p n sfs) then
      storeField rt roField (.struct p n sfs) fieldVal name
        (unmarshalLeaf rt roField (.struct p n sfs) val)
    else
      match structGuard val with
      | none => .returns fieldVal (some (errParsingField name .errInputType))
      | some (kt2, et2, es2) =>
        match unmarshalFields rt roField kt2 et2 es2 sfs (fieldsOf fieldVal) with
        | .returns vs none => .returns (.struct vs) none
        | .returns vs (some e) => .returns (.struct vs) (some (errParsingField name e))
        | .panics m => .panics m
  | .ptr e => storeField rt roField (.ptr e) fieldVal name (unmarshalLeaf rt false e val)
  | t => storeField rt roField t fieldVal name (unmarshalLeaf rt roField t val)
/-- The loop of source `unmarshalStruct` over the fields of `field`, reading the map
`mapVal` of type `map[kt]et`; `vals` are the current field values and `ro` the
read-only flag of `field`. Returns the field values after the call. -/
def unmarshalFields (rt : Runtime) (ro : Bool) (kt et : GoType)
    (entries : List (GoValue × GoValue)) :
    List (FieldInfo × GoType) → List GoValue → Outcome (List GoValue)
  | [], vals => .returns vals none
  | _ :: _, [] => .panics "reflect: Field index out of range"
  | (info, ft) :: fs, fieldVal :: vals =>
    if info.tag == "" then consOutcome fieldVal (unmarshalFields rt ro kt et entries fs vals)
    else
      match mapIndex kt et entries info.tag with
      | none => .panics "reflect.Value.MapIndex: value of type string is not assignable"
      | some none => consOutcome fieldVal (unmarshalFields rt ro kt et entries fs vals)
      | some (some val) =>
        match unmarshalField rt (ro || !info.exported) ft fieldVal val info.name with
        | .returns fv none => consOutcome fv (unmarshalFields rt ro kt et entries fs vals)
        | .returns fv (some e) => .returns (fv :: vals) (some e)
        | .panics m => .panics m
end

/-- Source `unmarshalStruct`: the guard on `v`, then the loop over the fields. -/
def unmarshalStruct (rt : Runtime) (ro : Bool) (fields : List (FieldInfo × GoType))
    (vals : List GoValue) (v : GoValue) : Outcome (List GoValue) :=
  match structGuard v with
  | none => .returns vals (some .errInputType)
  | some (kt, et, entries) => unmarshalFields rt ro kt et entries fields vals

/-- An `aerospike.Record`, reduced to its `Bins` (`GoValue.nil` is the nil map). -/
structure Record where
  Bins : GoValue

/-- Source `Unmarshal`: the target `v` after the call and the returned error. -/
def Unmarshal (rt : Runtime) (record : Option Record) (v : GoValue) : Outcome GoValue :=
  match record with
  | none => .returns v none
  | some rec =>
    let rv := valueOf v
    let indirect := reflectIndirect rv
    if rkind rv ≠ .Pointer ∨ rkind indirect ≠ .Struct ∨ rvIsNil rv = true then
      .returns v (some .errInputType)
    else
      match v with
      | .iface (.ptr (.struct p n fs)) (.ptr (.struct vals)) =>
        match unmarshalStruct rt false fs vals (.iface mapStringAny rec.Bins) with
        | .returns vs e => .returns (.iface (.ptr (.struct p n fs)) (.ptr (.struct vs))) e
        | .panics m => .panics m
      | _ => .panics "reflect: NumField of non-struct type"


/-! ## Notions used in the statements -/

/-- The tagged fields of a struct carry pairwise distinct tags. -/
def DistinctTags (fs : List (FieldInfo × GoType)) : Prop :=
  ((fs.map (fun f => f.1.tag)).filter (fun t => t != "")).Nodup

mutual
/-- The record as the storage client hands it back and as the repository's tests of
`Unmarshal` supply it: every `int64` value is re-typed as a Go `int` holding the same
number, at the top level and inside nested maps and sequences. -/
def retypeInts : GoValue → GoValue
  | .iface t v =>
    if GoType.beq t (predeclared .Int64) then .iface (predeclared .Int) v
    else .iface t (retypeInts v)
  | .map es => .map (retypeEntries es)
  | .slice xs => .slice (retypeList xs)
  | v => v
/-- `retypeInts` on the elements of a sequence. -/
def retypeList : List GoValue → List GoValue
  | [] => []
  | x :: r => retypeInts x :: retypeList r
/-- `retypeInts` on the keys and values of a map. -/
def retypeEntries : List (GoValue × GoValue) → List (GoValue × GoValue)
  | [] => []
  | (k, v) :: r => (retypeInts k, retypeInts v) :: retypeEntries r
end

/-- The `int64` the encoder writes for the integer `m` held by a field of kind `k`:
`m` itself for a signed kind, `int64(m)` for an unsigned kind. -/
def encodeInt (k : Kind) (m : Int) : Int :=
  if isUnsignedInt k then wrapInt .Int64 m else m

/-- An exported, tagged field of a signed or unsigned integer type (predeclared or
named) holding the non-zero value `v` in the range of its type. -/
def IntField (f : FieldInfo × GoType) (v : GoValue) : Prop :=
  f.1.exported = true ∧ f.1.tag ≠ "" ∧ isTimeType f.2 = false ∧
    ∃ pkg name k m, f.2 = .basic pkg name k ∧
      (isSignedInt k = true ∨ isUnsignedInt k = true) ∧
      v = .int m ∧ inRange k m ∧ m ≠ 0

/-- A field that is an `IntField`, or is untagged and holds the zero value of its type. -/
def IntOrUntagged (f : FieldInfo × GoType) (v : GoValue) : Prop :=
  IntField f v ∨ (f.1.tag = "" ∧ v = zeroValue f.2)

/-- The keys of a list of entries are pairwise different as map keys. -/
def FreshKeys (es : List (GoValue × GoValue)) : Prop :=
  (es.map Prod.fst).Pairwise (fun a b => keyEq a b = false)

/-- The entries of the `map[string]string` holding the pairs `m`. -/
def strEntries (m : List (String × String)) : List (GoValue × GoValue) :=
  m.map (fun e => (.str e.1, .str e.2))

/-- The entries of a `map[any]any` holding the pairs `m` as strings. -/
def boxedStrEntries (m : List (String × String)) : List (GoValue × GoValue) :=
  m.map (fun e => (.iface (predeclared .String) (.str e.1), .iface (predeclared .String) (.str e.2)))

/-- The entries of the `map[int]int` holding the pairs `m`. -/
def intEntries (m : List (Int × Int)) : List (GoValue × GoValue) :=
  m.map (fun e => (.int e.1, .int e.2))

/-- The entries of a `map[any]any` holding the pairs `m` as integers of type `t`. -/
def boxedIntEntries (t : GoType) (m : List (Int × Int)) : List (GoValue × GoValue) :=
  m.map (fun e => (.iface t (.int e.1), .iface t (.int e.2)))

/-- The kinds `convertValue` has a case for. -/
def isSupportedKind : Kind → Bool
  | .Bool | .Int | .Int8 | .Int16 | .Int32 | .Int64
  | .Uint | .Uint8 | .Uint16 | .Uint32 | .Uint64
  | .Float32 | .Float64 | .String | .Map | .Slice | .Struct => true
  | _ => false

/-- A value whose kind `convertValue` has no case for and that is not an interface
holding a `time.Time`. -/
def UnsupportedLeaf (t : GoType) (v : GoValue) : Prop :=
  isSupportedKind t.kind = false ∧ asTime (interfaceOf t v) = none

/-- The Value the loop of `marshalStruct` converts for a field: the field with one
level of pointer indirection removed. -/
def derefField (ft : GoType) (field : GoValue) : GoType × GoValue :=
  match field with
  | .ptr p => if ft.kind = .Pointer then (ft.elem, p) else (ft, .ptr p)
  | x => (ft, x)

/-- The innermost `fmt.Errorf` of an error chain, the one that wraps `errInputType`. -/
def GoError.innermost : GoError → GoError
  | .errInputType => .errInputType
  | .wrapf f a .errInputType => .wrapf f a .errInputType
  | .wrapf _ _ inner => inner.innermost

/-- A value that contains, at a place the encoder reaches, a non-zero value of an
unsupported kind. -/
inductive Offending : GoType → GoValue → Prop
  | leaf (t : GoType) (v : GoValue) : UnsupportedLeaf t v → Offending t v
  | slice (e : GoType) (xs : List GoValue) (x : GoValue) :
      x ∈ xs → Offending e x → Offending (.slice e) (.slice xs)
  | map (kt et : GoType) (es : List (GoValue × GoValue)) (k x : GoValue) :
      (k, x) ∈ es → Offending et x → Offending (.map kt et) (.map es)
  | struct (p n : String) (fs : List (FieldInfo × GoType)) (vals : List GoValue)
      (info : FieldInfo) (ft : GoType) (fv : GoValue) :
      GoType.beq (.struct p n fs) timeType = false →
      ((info, ft), fv) ∈ fs.zip vals → info.tag ≠ "" → fv.isZero = false →
      Offending (derefField ft fv).1 (derefField ft fv).2 →
      Offending (.struct p n fs) (.struct vals)

/-- The encoder reaches a value of the unsupported kind `k` before anything else
fails: everything converted before it converts. -/
inductive Rejects (k : Kind) : GoType → GoValue → Prop
  | leaf (t : GoType) (v : GoValue) : UnsupportedLeaf t v → t.kind = k → Rejects k t v
  | slice (e : GoType) (pre : List GoValue) (x : GoValue) (suf : List GoValue) :
      (∀ y ∈ pre, ∃ z, convertValue false e y = .ok z) → Rejects k e x →
      Rejects k (.slice e) (.slice (pre ++ x :: suf))
  | map (kt et : GoType) (pre : List (GoValue × GoValue)) (key x : GoValue)
      (suf : List (GoValue × GoValue)) :
      (∀ y ∈ pre, (∃ z, getMapKey kt y.1 = .ok z) ∧ ∃ z, convertValue false et y.2 = .ok z) →
      (∃ z, getMapKey kt key = .ok z) → Rejects k et x →
      Rejects k (.map kt et) (.map (pre ++ (key, x) :: suf))
  | struct (p n : String) (pre : List (FieldInfo × GoType)) (info : FieldInfo) (ft : GoType)
      (suf : List (FieldInfo × GoType)) (preVals : List GoValue) (fv : GoValue)
      (sufVals : List GoValue) (out : List (GoValue × GoValue)) :
      GoType.beq (.struct p n (pre ++ (info, ft) :: suf)) timeType = false →
      pre.length = preVals.length →
      marshalStruct (pre ++ (info, ft) :: suf).length pre preVals [] = .ok out →
      info.tag ≠ "" → info.exported = true → fv.isZero = false →
      Rejects k (derefField ft fv).1 (derefField ft fv).2 →
      Rejects k (.struct p n (pre ++ (info, ft) :: suf)) (.struct (preVals ++ fv :: sufVals))

/-- The kinds of stored values that are no sequence: integers, floats, booleans,
strings and maps. -/
def isNonSequenceKind (k : Kind) : Bool :=
  isSignedInt k || isUnsignedInt k || isFloatKind k || k == .Bool || k == .String || k == .Map

/-- The entries of a string-keyed map holding the pairs `m`. -/
def strKeyed (m : List (String × GoValue)) : List (GoValue × GoValue) :=
  m.map (fun e => (.str e.1, e.2))

/-- The entries of the `map[any]any` whose keys are the boxed strings of `m` and
whose values are the values of `m` under `enc`. -/
def boxedStrKeyed (enc : GoValue → GoValue) (m : List (String × GoValue)) :
    List (GoValue × GoValue) :=
  m.map (fun e => (.iface (predeclared .String) (.str e.1), enc e.2))

/-- The elements of the `[]any` that encodes the integers `s` of kind `k`. -/
def boxedInts (k : Kind) (s : List Int) : List GoValue :=
  s.map (fun m => .iface (predeclared .Int64) (.int (encodeInt k m)))

/-! ## Sample inputs -/

/-- A runtime whose unspecified conversions return their operand. -/
def idRuntime : Runtime := ⟨fun b => b, fun _ v _ => v⟩

/-- The struct type `struct { A int "as:a"; B string "as:b" }`. -/
def pairType : GoType :=
  .struct "" "" [(⟨"A", true, "a"⟩, predeclared .Int), (⟨"B", true, "b"⟩, predeclared .String)]

/-- The struct type `struct { Int int "as:int"; UInt64 uint64 "as:uint64" }`. -/
def intsType : GoType :=
  .struct "" "" [(⟨"Int", true, "int"⟩, predeclared .Int),
    (⟨"UInt64", true, "uint64"⟩, predeclared .Uint64)]

/-- The struct type `struct { Time time.Time "as:time" }`. -/
def timeFieldType : GoType := .struct "" "" [(⟨"Time", true, "time"⟩, timeType)]

/-- The struct type `struct { MapInt map[int]int "as:map_int" }`. -/
def intMapType : GoType :=
  .struct "" "" [(⟨"MapInt", true, "map_int"⟩, .map (predeclared .Int) (predeclared .Int))]

/-- The struct type `struct { V any "as:v" }`. -/
def anyFieldType : GoType := .struct "" "" [(⟨"V", true, "v"⟩, anyType)]

/-- The fields `A int "as:a"; B string "as:b"; C int (untagged); D struct { X int "as:x" } "as:d"`. -/
def sparseFields : List (FieldInfo × GoType) :=
  [(⟨"A", true, "a"⟩, predeclared .Int), (⟨"B", true, "b"⟩, predeclared .String),
   (⟨"C", true, ""⟩, predeclared .Int),
   (⟨"D", true, "d"⟩, .struct "" "" [(⟨"X", true, "x"⟩, predeclared .Int)])]

/-- Values of `sparseFields`: `A = 5`, `B = ""`, `C = 9`, `D = {X: 3}`. -/
def sparseVals : List GoValue := [.int 5, .str "", .int 9, .struct [.int 3]]

/-- The struct type `struct { M map[string][]int "as:m" }`. -/
def sliceMapType : GoType :=
  .struct "" "" [(⟨"M", true, "m"⟩, .map (predeclared .String) (.slice (predeclared .Int)))]

/-- The struct type `struct { M map[float64]string "as:m" }`. -/
def floatMapType : GoType :=
  .struct "" "" [(⟨"M", true, "m"⟩, .map (predeclared .Float64) (predeclared .String))]

/-! ## Input shape of `Marshal` and `Unmarshal` (C4, C5, C6) -/

/-- On a non-nil pointer to a struct the input check of `Marshal` passes and the
result is that of `marshalStruct` on the pointee. -/
theorem marshal_ptr_struct (p n : String) (fs : List (FieldInfo × GoType))
    (vals : List GoValue) :
    Marshal (.iface (.ptr (.struct p n fs)) (.ptr (.struct vals))) =
      match marshalStruct fs.length fs vals [] with
      | .ok binMap => .returns (.map binMap) none
      | .err e => .returns .nil (some e)
      | .panics m => .panics m := by
  simp only [Marshal, valueOf, rkind, reflectIndirect, rvIsNil, GoType.kind]
  cases marshalStruct fs.length fs vals [] <;> simp


/-- The input check shared by `Marshal` and `Unmarshal` fails on every boxed value
that is not a non-nil pointer to a struct. -/
theorem shape_check_fails (t : GoType) (x : GoValue)
    (h : t.kind ≠ .Pointer ∨ x = .nil ∨ ∃ e, t = .ptr e ∧ e.kind ≠ .Struct) :
    rkind (valueOf (.iface t x)) ≠ .Pointer
      ∨ rkind (reflectIndirect (valueOf (.iface t x))) ≠ .Struct
      ∨ rvIsNil (valueOf (.iface t x)) = true := by
  rcases h with h | h | ⟨e, rfl, h⟩
  · exact Or.inl (by simpa [valueOf, rkind] using h)
  · subst h
    exact Or.inr (Or.inr (by simp [valueOf, rvIsNil]))
  · refine Or.inr (Or.inl ?_)
    cases x <;> simp [valueOf, reflectIndirect, rkind, h]

/-- C4. Marshal input shape: on a value of non-pointer type, on a nil pointer and on
a pointer whose pointee type is not a struct, `Marshal` returns the empty record
together with an error that wraps `errInputType`; on a non-nil pointer to a struct
the input check passes and the result is that of `marshalStruct` on the pointee. -/
theorem C4_marshal_input_shape :
    (∀ (t : GoType) (x : GoValue),
      (t.kind ≠ .Pointer ∨ x = .nil ∨ ∃ e, t = .ptr e ∧ e.kind ≠ .Struct) →
        Marshal (.iface t x) = .returns (.map []) (some errMarshalInput)
          ∧ errMarshalInput.isInputType = true) ∧
    (∀ (p n : String) (fs : List (FieldInfo × GoType)) (vals : List GoValue),
      Marshal (.iface (.ptr (.struct p n fs)) (.ptr (.struct vals))) =
        match marshalStruct fs.length fs vals [] with
        | .ok binMap => .returns (.map binMap) none
        | .err e => .returns .nil (some e)
        | .panics m => .panics m) := by
  refine ⟨?_, ?_⟩
  · intro t x h
    refine ⟨?_, rfl⟩
    simp only [Marshal]
    exact if_pos (shape_check_fails t x h)
  · intro p n fs vals
    exact marshal_ptr_struct p n fs vals

/-- Witness of C4: a struct passed by value is rejected. -/
theorem C4_marshal_input_shape_witness :
    pairType.kind ≠ .Pointer ∧
      Marshal (.iface pairType (.struct [.int 1, .str "x"]))
        = .returns (.map []) (some errMarshalInput) :=
  ⟨by decide, (C4_marshal_input_shape.1 pairType (.struct [.int 1, .str "x"])
    (Or.inl (by decide))).1⟩

/-- C5. `Marshal` called with the untyped nil returns an empty, non-nil record and a
nil error. -/
theorem C5_marshal_untyped_nil : Marshal .nil = .returns (.map []) none := rfl

/-- C6. Unmarshal target shape: with a non-nil record, on the untyped nil, on a value
of non-pointer type, on a nil pointer and on a pointer whose pointee type is not a
struct, `Unmarshal` returns exactly `errInputType` and leaves the target as it was. -/
theorem C6_unmarshal_target_shape (rt : Runtime) (rec : Record) (v : GoValue)
    (h : v = .nil ∨ ∃ t x, v = .iface t x ∧
      (t.kind ≠ .Pointer ∨ x = .nil ∨ ∃ e, t = .ptr e ∧ e.kind ≠ .Struct)) :
    Unmarshal rt (some rec) v = .returns v (some .errInputType) := by
  rcases h with rfl | ⟨t, x, rfl, h⟩
  · simp [Unmarshal, valueOf, rkind]
  · simp only [Unmarshal]
    exact if_pos (shape_check_fails t x h)

/-- Witness of C6: a nil pointer to a struct is rejected and stays nil. -/
theorem C6_unmarshal_target_shape_witness :
    Unmarshal idRuntime (some ⟨.map [(.str "a", .iface (predeclared .Int) (.int 7))]⟩)
        (.iface (.ptr pairType) .nil)
      = .returns (.iface (.ptr pairType) .nil) (some .errInputType) :=
  C6_unmarshal_target_shape idRuntime _ _ (Or.inr ⟨_, _, rfl, Or.inr (Or.inl rfl)⟩)

/-! ## Decode is a merge (C3) -/

/-- An outcome built by `consOutcome` that returns comes from one that returns. -/
theorem consOutcome_returns {fv : GoValue} {o : Outcome (List GoValue)} {vs : List GoValue}
    {e : Option GoError} (h : consOutcome fv o = .returns vs e) :
    ∃ vs0, o = .returns vs0 e ∧ vs = fv :: vs0 := by
  cases o with
  | returns s err =>
    simp only [consOutcome, Outcome.returns.injEq] at h
    exact ⟨s, by rw [h.2], h.1.symm⟩
  | panics m => simp [consOutcome] at h

/-- The loop of `unmarshalStruct` keeps the number of field values and leaves every
field that is untagged, or whose tag is absent from the map, as it was. -/
theorem unmarshalFields_frame (rt : Runtime) (kt et : GoType)
    (entries : List (GoValue × GoValue)) :
    ∀ (fs : List (FieldInfo × GoType)) (ro : Bool) (vals vals' : List GoValue)
      (e : Option GoError),
      unmarshalFields rt ro kt et entries fs vals = .returns vals' e →
        vals'.length = vals.length ∧
        ∀ (i : Nat) (info : FieldInfo) (ft : GoType), fs[i]? = some (info, ft) →
          (info.tag = "" ∨ mapIndex kt et entries info.tag = some none) →
            vals'[i]? = vals[i]? := by
  intro fs
  induction fs with
  | nil =>
    intro ro vals vals' e h
    rw [unmarshalFields] at h
    simp only [Outcome.returns.injEq] at h
    obtain ⟨rfl, rfl⟩ := h
    simp
  | cons f fs ih =>
    intro ro vals vals' e h
    obtain ⟨info, ft⟩ := f
    cases vals with
    | nil => rw [unmarshalFields] at h; simp at h
    | cons fieldVal vals =>
      rw [unmarshalFields] at h
      have key : ∃ fv vs0, vals' = fv :: vs0 ∧ vs0.length = vals.length ∧
          (∀ (i : Nat) (info2 : FieldInfo) (ft2 : GoType), fs[i]? = some (info2, ft2) →
            (info2.tag = "" ∨ mapIndex kt et entries info2.tag = some none) →
              vs0[i]? = vals[i]?) ∧
          ((info.tag = "" ∨ mapIndex kt et entries info.tag = some none) → fv = fieldVal) := by
        by_cases ht : info.tag = ""
        · simp only [ht, beq_self_eq_true, if_true] at h
          obtain ⟨vs0, h0, rfl⟩ := consOutcome_returns h
          obtain ⟨hl, hf⟩ := ih ro vals vs0 e h0
          exact ⟨fieldVal, vs0, rfl, hl, hf, fun _ => rfl⟩
        · have ht' : (info.tag == "") = false := by simpa using ht
          simp only [ht', Bool.false_eq_true, if_false] at h
          cases hm : mapIndex kt et entries info.tag with
          | none => rw [hm] at h; simp at h
          | some o =>
            cases o with
            | none =>
              rw [hm] at h
              simp only at h
              obtain ⟨vs0, h0, rfl⟩ := consOutcome_returns h
              obtain ⟨hl, hf⟩ := ih ro vals vs0 e h0
              exact ⟨fieldVal, vs0, rfl, hl, hf, fun _ => rfl⟩
            | some val =>
              rw [hm] at h
              simp only at h
              split at h
              · rename_i fv hstep
                obtain ⟨vs0, h0, rfl⟩ := consOutcome_returns h
                obtain ⟨hl, hf⟩ := ih ro vals vs0 e h0
                refine ⟨fv, vs0, rfl, hl, hf, ?_⟩
                intro hc
                rcases hc with hc | hc
                · exact absurd hc ht
                · simp at hc
              · rename_i fv e2 hstep
                simp only [Outcome.returns.injEq] at h
                obtain ⟨rfl, rfl⟩ := h
                refine ⟨fv, vals, rfl, rfl, fun _ _ _ _ _ => rfl, ?_⟩
                intro hc
                rcases hc with hc | hc
                · exact absurd hc ht
                · simp at hc
              · simp at h
      obtain ⟨fv, vs0, rfl, hl, hf, hh⟩ := key
      refine ⟨by simp [hl], ?_⟩
      intro i info2 ft2 hi hc
      cases i with
      | zero =>
        simp only [List.getElem?_cons_zero, Option.some.injEq, Prod.mk.injEq] at hi
        obtain ⟨rfl, rfl⟩ := hi
        simp [hh hc]
      | succ j =>
        simp only [List.getElem?_cons_succ] at hi ⊢
        exact hf j info2 ft2 hi hc

/-- Reading a tag from a `map[string]any` is a lookup of the string key. -/
theorem mapIndex_string_any (entries : List (GoValue × GoValue)) (tag : String) :
    mapIndex (predeclared .String) anyType entries tag =
      some ((mapLookup entries (.str tag)).map (interfaceOf anyType)) := by
  simp [mapIndex, assignTo, directlyAssignable, predeclared, GoType.beq]

/-- The guard of `unmarshalStruct` accepts the bins of a record. -/
theorem structGuard_bins (bins : GoValue) :
    structGuard (.iface mapStringAny bins) =
      some (predeclared .String, anyType, entriesOf bins) := rfl

/-- C3. Decode is a merge: whenever `Unmarshal` returns on a non-nil pointer to a
struct, with or without an error, the target is still a pointer to a struct with the
same number of fields, and every field that is untagged or whose tag is not a key
of the record holds the value it held before; with a nil record `Unmarshal` returns
no error and the target unchanged, for every target. -/
theorem C3_decode_is_merge (rt : Runtime) :
    (∀ (rec : Record) (p n : String) (fs : List (FieldInfo × GoType)) (vals : List GoValue)
        (out : GoValue) (e : Option GoError),
      Unmarshal rt (some rec) (.iface (.ptr (.struct p n fs)) (.ptr (.struct vals)))
          = .returns out e →
        ∃ vals', out = .iface (.ptr (.struct p n fs)) (.ptr (.struct vals')) ∧
          vals'.length = vals.length ∧
          ∀ (i : Nat) (info : FieldInfo) (ft : GoType), fs[i]? = some (info, ft) →
            (info.tag = "" ∨ mapLookup (entriesOf rec.Bins) (.str info.tag) = none) →
              vals'[i]? = vals[i]?) ∧
    (∀ v : GoValue, Unmarshal rt none v = .returns v none) := by
  refine ⟨?_, fun v => rfl⟩
  intro rec p n fs vals out e h
  simp only [Unmarshal, valueOf, rkind, reflectIndirect, rvIsNil, GoType.kind, unmarshalStruct,
    structGuard_bins] at h
  simp only [ne_eq, not_true_eq_false, Bool.false_eq_true, or_self, if_false] at h
  cases hu : unmarshalFields rt false (predeclared .String) anyType (entriesOf rec.Bins) fs vals with
  | panics m => rw [hu] at h; simp at h
  | returns vs e2 =>
    rw [hu] at h
    simp only [Outcome.returns.injEq] at h
    obtain ⟨rfl, rfl⟩ := h
    obtain ⟨hl, hf⟩ := unmarshalFields_frame rt _ _ _ fs false vals vs e2 hu
    refine ⟨vs, rfl, hl, ?_⟩
    intro i info ft hi hc
    refine hf i info ft hi ?_
    rcases hc with hc | hc
    · exact Or.inl hc
    · right
      rw [mapIndex_string_any, hc]
      rfl

/-- Witness of C3: a record with the key `a` only, decoded into a struct whose field
`B` holds `"keep"`, returns and leaves `B` as it was. -/
theorem C3_decode_is_merge_witness :
    Unmarshal idRuntime (some ⟨.map [(.str "a", .iface (predeclared .Int) (.int 7))]⟩)
        (.iface (.ptr pairType) (.ptr (.struct [.int 1, .str "keep"])))
      = .returns (.iface (.ptr pairType) (.ptr (.struct [.int 7, .str "keep"]))) none ∧
    ∃ vals', (.iface (.ptr pairType) (.ptr (.struct [.int 7, .str "keep"])) : GoValue)
        = .iface (.ptr pairType) (.ptr (.struct vals')) ∧
      vals'.length = [GoValue.int 1, GoValue.str "keep"].length ∧
      ∀ (i : Nat) (info : FieldInfo) (ft : GoType),
        [((⟨"A", true, "a"⟩ : FieldInfo), predeclared .Int),
          (⟨"B", true, "b"⟩, predeclared .String)][i]? = some (info, ft) →
        (info.tag = "" ∨
          mapLookup (entriesOf (Record.mk (.map [(.str "a", .iface (predeclared .Int) (.int 7))])).Bins)
            (.str info.tag) = none) →
          vals'[i]? = [GoValue.int 1, GoValue.str "keep"][i]? :=
  ⟨rfl, (C3_decode_is_merge idRuntime).1 _ "" "" _ _ _ none rfl⟩


/-! ## Sparse output (C2) -/

/-- One round of the loop of `marshalStruct`. -/
theorem marshalStruct_cons (numField : Nat) (info : FieldInfo) (ft : GoType)
    (fs : List (FieldInfo × GoType)) (field : GoValue) (vals : List GoValue)
    (out : List (GoValue × GoValue)) :
    marshalStruct numField ((info, ft) :: fs) (field :: vals) out =
      if info.tag == "" then marshalStruct numField fs vals out
      else if field.isZero then marshalStruct numField fs vals out
      else
        match convertField info ft field with
        | .ok x => marshalStruct numField fs vals (mapInsert out (.str info.tag) x)
        | .err err => .err (.wrapf "failed to convert field %v: %w" [.int numField] err)
        | .panics m => .panics m := by
  cases field <;> simp only [marshalStruct, convertField]

/-- A key equal to a string key is that string key. -/
theorem keyEq_str (x : GoValue) (a : String) : keyEq x (.str a) = true ↔ x = .str a := by
  cases x <;> simp [keyEq, GoValue.beq]

/-- Reading a string key after writing a string key. -/
theorem mapLookup_insert_str (m : List (GoValue × GoValue)) (a b : String) (v : GoValue) :
    mapLookup (mapInsert m (.str a) v) (.str b) =
      if a = b then some v else mapLookup m (.str b) := by
  induction m with
  | nil =>
    simp only [mapInsert, mapLookup]
    by_cases h : a = b
    · subst h; simp [keyEq, GoValue.beq]
    · simp [keyEq, GoValue.beq, h]
  | cons kv r ih =>
    obtain ⟨k, w⟩ := kv
    simp only [mapInsert]
    by_cases hk : keyEq k (.str a) = true
    · have hk' := (keyEq_str k a).1 hk
      subst hk'
      simp only [hk, if_true, mapLookup]
      by_cases h : a = b
      · subst h; simp [keyEq, GoValue.beq]
      · simp [keyEq, GoValue.beq, h]
    · simp only [hk, Bool.false_eq_true, if_false, mapLookup]
      by_cases hb : keyEq k (.str b) = true
      · have hb' := (keyEq_str k b).1 hb
        subst hb'
        have hne : ¬ a = b := by
          intro h; subst h; exact hk hb
        simp [hb, hne]
      · simp only [hb, Bool.false_eq_true, if_false]
        exact ih


/-- Keys written by the loop of `marshalStruct`: the keys already in `out` and the
tags of the tagged, non-zero fields. -/
theorem marshalStruct_keys (numField : Nat) :
    ∀ (fs : List (FieldInfo × GoType)) (vals : List GoValue)
      (out res : List (GoValue × GoValue)),
      marshalStruct numField fs vals out = .ok res →
        ∀ k : String, (mapLookup res (.str k)).isSome = true ↔
          ((mapLookup out (.str k)).isSome = true ∨
            ∃ f ∈ fs.zip vals, f.1.1.tag = k ∧ k ≠ "" ∧ f.2.isZero = false) := by
  intro fs
  induction fs with
  | nil =>
    intro vals out res h k
    rw [marshalStruct] at h
    simp only [Res.ok.injEq] at h
    subst h
    simp
  | cons f fs ih =>
    intro vals out res h k
    obtain ⟨info, ft⟩ := f
    cases vals with
    | nil => rw [marshalStruct] at h; simp at h
    | cons field vals =>
      rw [marshalStruct_cons] at h
      simp only [List.zip_cons_cons, List.mem_cons, exists_eq_or_imp]
      by_cases ht : info.tag = ""
      · simp only [ht, beq_self_eq_true, if_true] at h
        rw [ih vals out res h k]
        constructor
        · rintro (h1 | h1)
          · exact Or.inl h1
          · exact Or.inr (Or.inr h1)
        · rintro (h1 | ⟨h2, h3, _⟩ | h1)
          · exact Or.inl h1
          · exact absurd (ht ▸ h2).symm h3
          · exact Or.inr h1
      · have ht' : (info.tag == "") = false := by simpa using ht
        simp only [ht', Bool.false_eq_true, if_false] at h
        by_cases hz : field.isZero = true
        · simp only [hz, if_true] at h
          rw [ih vals out res h k]
          constructor
          · rintro (h1 | h1)
            · exact Or.inl h1
            · exact Or.inr (Or.inr h1)
          · rintro (h1 | ⟨_, _, h4⟩ | h1)
            · exact Or.inl h1
            · rw [hz] at h4; simp at h4
            · exact Or.inr h1
        · simp only [hz, Bool.false_eq_true, if_false] at h
          cases hc : convertField info ft field with
          | err e => rw [hc] at h; simp at h
          | panics m => rw [hc] at h; simp at h
          | ok x =>
            rw [hc] at h
            simp only at h
            rw [ih vals _ res h k, mapLookup_insert_str]
            have hz' : field.isZero = false := by simpa using hz
            by_cases hk : info.tag = k
            · subst hk
              simp [ht, hz']
            · simp only [hk, if_false, false_and, false_or]

/-- The loop of `marshalStruct` does not touch a key that is no field's tag. -/
theorem marshalStruct_other_key (numField : Nat) :
    ∀ (fs : List (FieldInfo × GoType)) (vals : List GoValue)
      (out res : List (GoValue × GoValue)),
      marshalStruct numField fs vals out = .ok res →
        ∀ k : String, (∀ f ∈ fs, f.1.tag ≠ k) →
          mapLookup res (.str k) = mapLookup out (.str k) := by
  intro fs
  induction fs with
  | nil =>
    intro vals out res h k _
    rw [marshalStruct] at h
    simp only [Res.ok.injEq] at h
    subst h
    rfl
  | cons f fs ih =>
    intro vals out res h k hk
    obtain ⟨info, ft⟩ := f
    have hk0 : info.tag ≠ k := hk (info, ft) (List.mem_cons_self _ _)
    have hk1 : ∀ f ∈ fs, f.1.tag ≠ k := fun f hf => hk f (List.mem_cons_of_mem _ hf)
    cases vals with
    | nil => rw [marshalStruct] at h; simp at h
    | cons field vals =>
      rw [marshalStruct_cons] at h
      split at h
      · exact ih vals out res h k hk1
      · split at h
        · exact ih vals out res h k hk1
        · split at h
          · rw [ih vals _ res h k hk1, mapLookup_insert_str]
            simp [hk0]
          · simp at h
          · simp at h

/-- With pairwise distinct tags, the value the loop of `marshalStruct` leaves under
the tag of a tagged, non-zero field is the conversion of that field. -/
theorem marshalStruct_value (numField : Nat) :
    ∀ (fs : List (FieldInfo × GoType)) (vals : List GoValue)
      (out res : List (GoValue × GoValue)),
      marshalStruct numField fs vals out = .ok res → DistinctTags fs →
        ∀ f ∈ fs.zip vals, f.1.1.tag ≠ "" → f.2.isZero = false →
          ∃ x, convertField f.1.1 f.1.2 f.2 = .ok x ∧
            mapLookup res (.str f.1.1.tag) = some x := by
  intro fs
  induction fs with
  | nil => intro vals out res _ _ f hf; simp at hf
  | cons f0 fs ih =>
    intro vals out res h hd f hf ht hz
    obtain ⟨info0, ft0⟩ := f0
    cases vals with
    | nil => rw [marshalStruct] at h; simp at h
    | cons field vals =>
      rw [marshalStruct_cons] at h
      have hd1 : DistinctTags fs := by
        unfold DistinctTags at hd ⊢
        simp only [List.map_cons, List.filter_cons] at hd
        split at hd
        · exact (List.nodup_cons.1 hd).2
        · exact hd
      simp only [List.zip_cons_cons, List.mem_cons] at hf
      rcases hf with rfl | hf
      · have ht' : (info0.tag == "") = false := by simpa using ht
        simp only at hz
        simp only [ht', Bool.false_eq_true, if_false, hz] at h
        have hnot : ∀ g ∈ fs, g.1.tag ≠ info0.tag := by
          intro g hg heq
          unfold DistinctTags at hd
          have ht2 : info0.tag ≠ "" := ht
          simp only [List.map_cons, List.filter_cons, ht2, bne_iff_ne, ne_eq, not_false_eq_true,
            decide_True, if_true] at hd
          have hmem : info0.tag ∈ (fs.map (fun f => f.1.tag)).filter (fun t => t != "") := by
            rw [List.mem_filter]
            refine ⟨List.mem_map.2 ⟨g, hg, heq⟩, by simpa using ht2⟩
          exact (List.nodup_cons.1 hd).1 hmem
        cases hc : convertField info0 ft0 field with
        | err e => rw [hc] at h; simp at h
        | panics m => rw [hc] at h; simp at h
        | ok x =>
          rw [hc] at h
          simp only at h
          refine ⟨x, rfl, ?_⟩
          rw [marshalStruct_other_key numField fs vals _ res h info0.tag hnot,
            mapLookup_insert_str]
          simp
      · split at h
        · exact ih vals out res h hd1 f hf ht hz
        · split at h
          · exact ih vals out res h hd1 f hf ht hz
          · split at h
            · exact ih vals _ res h hd1 f hf ht hz
            · simp at h
            · simp at h

/-- A struct that is not `time.Time` is converted by `marshalStruct`. -/
theorem convertValue_struct (p n : String) (fs : List (FieldInfo × GoType))
    (vals : List GoValue) (h : GoType.beq (.struct p n fs) timeType = false) :
    convertValue false (.struct p n fs) (.struct vals) =
      boxStruct (marshalStruct fs.length fs vals []) := by
  rw [convertValue]
  simp [asTime, interfaceOf, GoType.kind, h, GoType.fields]

/-- C2. Sparse output: when `Marshal` succeeds on a pointer to a struct, a key `k` is
present in the returned record exactly when some field carries the non-empty tag `k`
and holds a value that is not zero (`reflect.Value.IsZero`), so untagged and
zero-valued fields produce no key; with pairwise distinct tags the value under a tag
is the conversion of its field; and the record a nested struct (any struct that is
not `time.Time`, wherever `convertValue` meets it) is converted to has its keys
determined in the same way. -/
theorem C2_sparse_output :
    (∀ (p n : String) (fs : List (FieldInfo × GoType)) (vals : List GoValue) (out : GoValue),
      Marshal (.iface (.ptr (.struct p n fs)) (.ptr (.struct vals))) = .returns out none →
        ∃ bins, out = .map bins ∧
          (∀ k : String, (mapLookup bins (.str k)).isSome = true ↔
            ∃ f ∈ fs.zip vals, f.1.1.tag = k ∧ k ≠ "" ∧ f.2.isZero = false) ∧
          (DistinctTags fs →
            ∀ f ∈ fs.zip vals, f.1.1.tag ≠ "" → f.2.isZero = false →
              ∃ x, convertField f.1.1 f.1.2 f.2 = .ok x ∧
                mapLookup bins (.str f.1.1.tag) = some x)) ∧
    (∀ (p n : String) (fs : List (FieldInfo × GoType)) (vals : List GoValue) (x : GoValue),
      GoType.beq (.struct p n fs) timeType = false →
        convertValue false (.struct p n fs) (.struct vals) = .ok x →
          ∃ inner, x = .iface mapStringAny (.map inner) ∧
            ∀ k : String, (mapLookup inner (.str k)).isSome = true ↔
              ∃ f ∈ fs.zip vals, f.1.1.tag = k ∧ k ≠ "" ∧ f.2.isZero = false) := by
  refine ⟨?_, ?_⟩
  · intro p n fs vals out h
    rw [marshal_ptr_struct] at h
    cases hm : marshalStruct fs.length fs vals [] with
    | err e => rw [hm] at h; simp at h
    | panics m => rw [hm] at h; simp at h
    | ok bins =>
      rw [hm] at h
      simp only [Outcome.returns.injEq, and_true] at h
      refine ⟨bins, h.symm, ?_, ?_⟩
      · intro k
        rw [marshalStruct_keys _ fs vals [] bins hm k]
        simp [mapLookup]
      · intro hd
        exact marshalStruct_value _ fs vals [] bins hm hd
  · intro p n fs vals x ht h
    rw [convertValue_struct p n fs vals ht] at h
    cases hm : marshalStruct fs.length fs vals [] with
    | err e => rw [hm] at h; simp [boxStruct] at h
    | panics m => rw [hm] at h; simp [boxStruct] at h
    | ok inner =>
      rw [hm] at h
      simp only [boxStruct, Res.ok.injEq] at h
      refine ⟨inner, h.symm, ?_⟩
      intro k
      rw [marshalStruct_keys _ fs vals [] inner hm k]
      simp [mapLookup]


/-- Witness of C2: of the fields `A = 5`, `B = ""`, untagged `C = 9` and nested
`D = {X: 3}`, the record holds exactly the keys `a` and `d`. -/
theorem C2_sparse_output_witness :
    Marshal (.iface (.ptr (.struct "" "" sparseFields)) (.ptr (.struct sparseVals)))
      = .returns (.map [(.str "a", .iface (predeclared .Int64) (.int 5)),
          (.str "d", .iface mapStringAny
            (.map [(.str "x", .iface (predeclared .Int64) (.int 3))]))]) none ∧
    ∃ bins, GoValue.map [(.str "a", .iface (predeclared .Int64) (.int 5)),
          (.str "d", .iface mapStringAny
            (.map [(.str "x", .iface (predeclared .Int64) (.int 3))]))] = .map bins ∧
      (∀ k : String, (mapLookup bins (.str k)).isSome = true ↔
        ∃ f ∈ sparseFields.zip sparseVals, f.1.1.tag = k ∧ k ≠ "" ∧ f.2.isZero = false) ∧
      (DistinctTags sparseFields →
        ∀ f ∈ sparseFields.zip sparseVals, f.1.1.tag ≠ "" → f.2.isZero = false →
          ∃ x, convertField f.1.1 f.1.2 f.2 = .ok x ∧
            mapLookup bins (.str f.1.1.tag) = some x) :=
  ⟨rfl, C2_sparse_output.1 "" "" sparseFields sparseVals _ rfl⟩



/-! ## Integer round trip (C1) -/

/-- Narrowing the encoded integer back to its kind, twice, gives the value back. -/
theorem wrapInt_roundtrip (k : Kind) (m : Int)
    (hk : isSignedInt k = true ∨ isUnsignedInt k = true) (hr : inRange k m) :
    wrapInt k (wrapInt k (encodeInt k m)) = m := by
  cases k <;> simp [isSignedInt, isUnsignedInt] at hk <;>
    simp [wrapInt, encodeInt, inRange, isSignedInt, isUnsignedInt, kindBits] at hr ⊢ <;> omega

/-- The encoder writes an integer field as an `int64`. -/
theorem convertField_int (info : FieldInfo) (pkg name : String) (k : Kind) (m : Int)
    (he : info.exported = true) (hk : isSignedInt k = true ∨ isUnsignedInt k = true) :
    convertField info (.basic pkg name k) (.int m) =
      .ok (.iface (predeclared .Int64) (.int (encodeInt k m))) := by
  cases k <;> simp [isSignedInt, isUnsignedInt] at hk <;>
    simp [convertField, he, convertValue, asTime, interfaceOf, GoType.kind, GoType.beq, timeType,
      encodeInt, isUnsignedInt, GoValue.toInt]

/-- The decoder stores a Go `int` holding the encoded integer as the original value. -/
theorem unmarshalField_int (rt : Runtime) (pkg name : String) (k : Kind)
    (m : Int) (fieldVal : GoValue) (nm : String)
    (hk : isSignedInt k = true ∨ isUnsignedInt k = true) (hr : inRange k m)
    (ht : isTimeType (.basic pkg name k) = false) :
    unmarshalField rt false (.basic pkg name k) fieldVal
        (.iface (predeclared .Int) (.int (encodeInt k m))) nm = .returns (.int m) none := by
  have hw := wrapInt_roundtrip k m hk hr
  cases k <;> simp [isSignedInt, isUnsignedInt] at hk <;>
    simp [unmarshalField, unmarshalLeaf, ht, GoType.kind, unmarshalScalarToKind, toIntVal, asInt,
      GoType.beq, predeclared, storeField, valueOf, canConvert, convertOp, convertOpKind, convert,
      isSignedInt, isUnsignedInt, isConvInt, kindString, isFloatKind] <;> exact hw


/-- The loop of `marshalStruct` succeeds on integer and untagged fields. -/
theorem marshalStruct_ints_ok (numField : Nat) :
    ∀ (fs : List (FieldInfo × GoType)) (vals : List GoValue),
      List.Forall₂ IntOrUntagged fs vals → ∀ out : List (GoValue × GoValue),
        ∃ res, marshalStruct numField fs vals out = .ok res := by
  intro fs vals h
  induction h with
  | nil => intro out; exact ⟨out, by rw [marshalStruct]⟩
  | @cons f v fs vals hf _ ih =>
    intro out
    obtain ⟨info, ft⟩ := f
    rw [marshalStruct_cons]
    rcases hf with ⟨he, ht, _, pkg, name, k, m, hft, hk, rfl, _, hm⟩ | ⟨ht, _⟩
    · simp only at he ht hft
      subst hft
      have ht' : (info.tag == "") = false := by simpa using ht
      have hz : (GoValue.int m).isZero = false := by simp [GoValue.isZero, hm]
      simp only [ht', Bool.false_eq_true, if_false, hz, convertField_int info pkg name k m he hk]
      exact ih _
    · simp only at ht
      simp only [ht, beq_self_eq_true, if_true]
      exact ih _

/-- Re-typing never turns another value into a string key. -/
theorem retypeInts_eq_str (x : GoValue) (a : String) : retypeInts x = .str a ↔ x = .str a := by
  cases x <;> simp [retypeInts]
  split <;> simp

/-- Re-typing a record commutes with reading a string key. -/
theorem mapLookup_retype_str (es : List (GoValue × GoValue)) (a : String) :
    mapLookup (retypeEntries es) (.str a) = (mapLookup es (.str a)).map retypeInts := by
  induction es with
  | nil => simp [retypeEntries, mapLookup]
  | cons kv r ih =>
    obtain ⟨k, v⟩ := kv
    simp only [retypeEntries, mapLookup]
    by_cases hk : keyEq k (.str a) = true
    · have hk' := (keyEq_str k a).1 hk
      subst hk'
      simp [retypeInts, keyEq, GoValue.beq]
    · have hk2 : ¬ keyEq (retypeInts k) (.str a) = true := by
        intro h
        exact hk ((keyEq_str k a).2 ((retypeInts_eq_str k a).1 ((keyEq_str _ a).1 h)))
      simp only [hk, hk2, Bool.false_eq_true, if_false]
      exact ih

/-- `Interface()` on a Value of type `any` yields the interface it holds. -/
theorem interfaceOf_any (v : GoValue) : interfaceOf anyType v = v := rfl

/-- The loop of `unmarshalStruct` restores integer fields from the re-typed record. -/
theorem unmarshalFields_ints (rt : Runtime) (entries : List (GoValue × GoValue)) :
    ∀ (fs : List (FieldInfo × GoType)) (vals : List GoValue),
      List.Forall₂ IntOrUntagged fs vals →
      (∀ f ∈ fs.zip vals, f.1.1.tag ≠ "" →
        ∃ x, convertField f.1.1 f.1.2 f.2 = .ok x ∧
          mapLookup entries (.str f.1.1.tag) = some (retypeInts x)) →
      unmarshalFields rt false (predeclared .String) anyType entries fs (zeroFields fs)
        = .returns vals none := by
  intro fs vals h
  induction h with
  | nil => intro _; rw [zeroFields, unmarshalFields]
  | @cons f v fs vals hf _ ih =>
    intro hl
    obtain ⟨info, ft⟩ := f
    have hl1 : ∀ f ∈ fs.zip vals, f.1.1.tag ≠ "" →
        ∃ x, convertField f.1.1 f.1.2 f.2 = .ok x ∧
          mapLookup entries (.str f.1.1.tag) = some (retypeInts x) := by
      intro g hg
      exact hl g (by simp only [List.zip_cons_cons, List.mem_cons]; exact Or.inr hg)
    have ih' := ih hl1
    rw [zeroFields, unmarshalFields]
    rcases hf with ⟨he, ht, htime, pkg, name, k, m, hft, hk, rfl, hr, hm⟩ | ⟨ht, hv⟩
    · simp only at he ht hft htime
      subst hft
      have ht' : (info.tag == "") = false := by simpa using ht
      obtain ⟨x, hx, hlook⟩ := hl ((info, .basic pkg name k), .int m)
        (by simp only [List.zip_cons_cons, List.mem_cons, true_or]) ht
      simp only at hx hlook
      rw [convertField_int info pkg name k m he hk] at hx
      simp only [Res.ok.injEq] at hx
      subst hx
      have hre : retypeInts (.iface (predeclared .Int64) (.int (encodeInt k m)))
          = .iface (predeclared .Int) (.int (encodeInt k m)) := by
        simp [retypeInts, GoType.beq, predeclared]
      rw [hre] at hlook
      simp only [ht', Bool.false_eq_true, if_false]
      rw [mapIndex_string_any, hlook]
      simp only [Option.map_some', interfaceOf_any, he, Bool.not_true, Bool.or_false]
      rw [unmarshalField_int rt pkg name k m _ _ hk hr htime]
      simp only [ih', consOutcome]
    · simp only at ht hv
      subst hv
      simp only [ht, beq_self_eq_true, if_true, ih', consOutcome]


/-- C1 (amended). Integer round trip through re-typed integers: for every struct whose
tagged fields are exported, carry pairwise distinct tags and have a signed or unsigned
integer type (any width, predeclared or named, `uintptr` excluded) holding a non-zero
value, and whose untagged fields are zero, `Marshal` succeeds, and `Unmarshal` on the
returned record with every `int64` re-typed as Go `int`, into a zero-valued target of
the same struct type, returns no error and leaves the target equal to the original. -/
theorem C1_int_roundtrip_retyped (rt : Runtime) (p n : String)
    (fs : List (FieldInfo × GoType)) (vals : List GoValue)
    (h : List.Forall₂ IntOrUntagged fs vals) (hd : DistinctTags fs) :
    ∃ bins, Marshal (.iface (.ptr (.struct p n fs)) (.ptr (.struct vals)))
        = .returns (.map bins) none ∧
      Unmarshal rt (some ⟨retypeInts (.map bins)⟩)
          (.iface (.ptr (.struct p n fs)) (.ptr (zeroValue (.struct p n fs))))
        = .returns (.iface (.ptr (.struct p n fs)) (.ptr (.struct vals))) none := by
  obtain ⟨bins, hb⟩ := marshalStruct_ints_ok fs.length fs vals h []
  refine ⟨bins, ?_, ?_⟩
  · rw [marshal_ptr_struct, hb]
  · have hz : ∀ {a : FieldInfo × GoType} {b : GoValue}, (a, b) ∈ fs.zip vals →
        IntOrUntagged a b := (List.forall₂_iff_zip.1 h).2
    have hl : ∀ f ∈ fs.zip vals, f.1.1.tag ≠ "" →
        ∃ x, convertField f.1.1 f.1.2 f.2 = .ok x ∧
          mapLookup (retypeEntries bins) (.str f.1.1.tag) = some (retypeInts x) := by
      intro f hf ht
      have hnz : f.2.isZero = false := by
        rcases hz (a := f.1) (b := f.2) hf with ⟨_, _, _, _, _, _, m, _, _, hv, _, hm⟩ | ⟨ht0, _⟩
        · rw [hv]; simp [GoValue.isZero, hm]
        · exact absurd ht0 ht
      obtain ⟨x, hx, hlook⟩ := marshalStruct_value _ fs vals [] bins hb hd f hf ht hnz
      exact ⟨x, hx, by rw [mapLookup_retype_str, hlook]; rfl⟩
    have hu := unmarshalFields_ints rt (retypeEntries bins) fs vals h hl
    simp only [Unmarshal, valueOf, rkind, reflectIndirect, rvIsNil, GoType.kind, zeroValue,
      unmarshalStruct, retypeInts, structGuard_bins, entriesOf, hu]
    simp

/-- C1 fails as stated: on the map exactly as `Marshal` returns it for
`{Int: 1, UInt64: 5}`, `Unmarshal` returns no error and leaves both fields 0,
because `toIntVal` reads every value that is not a Go `int` as 0. -/
theorem C1_direct_counterexample :
    Marshal (.iface (.ptr intsType) (.ptr (.struct [.int 1, .int 5])))
      = .returns (.map [(.str "int", .iface (predeclared .Int64) (.int 1)),
          (.str "uint64", .iface (predeclared .Int64) (.int 5))]) none ∧
    Unmarshal idRuntime
        (some ⟨.map [(.str "int", .iface (predeclared .Int64) (.int 1)),
          (.str "uint64", .iface (predeclared .Int64) (.int 5))]⟩)
        (.iface (.ptr intsType) (.ptr (zeroValue intsType)))
      = .returns (.iface (.ptr intsType) (.ptr (.struct [.int 0, .int 0]))) none ∧
    (.iface (.ptr intsType) (.ptr (.struct [.int 0, .int 0])) : GoValue)
      ≠ .iface (.ptr intsType) (.ptr (.struct [.int 1, .int 5])) := by
  refine ⟨rfl, rfl, ?_⟩
  simp


/-- Witness of C1 (amended) on `{Int: 1, UInt64: 5}`. -/
theorem C1_int_roundtrip_retyped_witness :
    ∃ bins, Marshal (.iface (.ptr intsType) (.ptr (.struct [.int 1, .int 5])))
        = .returns (.map bins) none ∧
      Unmarshal idRuntime (some ⟨retypeInts (.map bins)⟩)
          (.iface (.ptr intsType) (.ptr (zeroValue intsType)))
        = .returns (.iface (.ptr intsType) (.ptr (.struct [.int 1, .int 5]))) none :=
  C1_int_roundtrip_retyped idRuntime "" "" _ _
    (List.Forall₂.cons
      (Or.inl ⟨rfl, by decide, rfl, "", "int", .Int, 1, rfl, Or.inl rfl, rfl,
        by simp [inRange, isSignedInt, kindBits], by decide⟩)
      (List.Forall₂.cons
        (Or.inl ⟨rfl, by decide, rfl, "", "uint64", .Uint64, 5, rfl, Or.inr rfl, rfl,
          by simp [inRange, isSignedInt, kindBits], by decide⟩)
        List.Forall₂.nil))
    (by unfold DistinctTags; decide)


/-! ## Time round trip (C8) -/

/-- A `time.Time` converts to `time.Time` directly. -/
theorem convertOp_time : convertOp timeType timeType = some .cvtDirect := by decide

/-- `time.Time` is identical to itself. -/
theorem beq_time : GoType.beq timeType timeType = true := by decide

/-- `Interface()` on a `time.Time` boxes it. -/
theorem interfaceOf_time (v : GoValue) : interfaceOf timeType v = .iface timeType v := rfl

/-- Seconds since the epoch and back, in 64-bit arithmetic. -/
theorem time_arith (ext : Int) (h : inRange .Int64 ext) :
    wrapInt .Int64 (wrapInt .Int64 (ext - unixToInternal) + unixToInternal) = ext := by
  simp [wrapInt, inRange, isSignedInt, kindBits, unixToInternal] at h ⊢
  omega

/-- A field of type `time.Time` takes the `parseTime` branch of the switch. -/
theorem unmarshalField_time (rt : Runtime) (ro : Bool) (fieldVal val : GoValue) (name : String) :
    unmarshalField rt ro timeType fieldVal val name =
      storeField rt ro timeType fieldVal name
        (boxTime (parseTime val)) := by
  simp [timeType, unmarshalField, unmarshalLeaf, isTimeType, GoType.pkgPath, GoType.typeName]

/-- The parsed time is stored into an assignable field of type `time.Time`. -/
theorem storeField_time (rt : Runtime) (fieldVal tv : GoValue) (name : String) :
    storeField rt false timeType fieldVal name (.ok (.iface timeType tv)) = .returns tv none := by
  have h1 : canConvert timeType tv timeType = true := by
    simp only [canConvert, convertOp_time]
    simp [timeType]
  simp only [storeField, valueOf, timeType] at h1 ⊢
  simp only [h1, if_true, Bool.false_eq_true, if_false, convert]
  have h2 := convertOp_time
  simp only [timeType] at h2
  simp [h2]

/-- C8 (amended). Time round trip through re-typed integers: for every non-zero UTC
time `t` (location nil, no monotonic reading, so `wall` is the sub-second part and
`ext` the seconds) in a tagged exported `time.Time` field, `Marshal` succeeds, and
`Unmarshal` on the returned record with its `int64` re-typed as Go `int`, into a
zero-valued target, returns no error and sets the field to `t` truncated to whole
seconds, which equals `t` if and only if the sub-second part of `t` is zero. -/
theorem C8_time_roundtrip_retyped (rt : Runtime) (p n : String) (info : FieldInfo)
    (wall ext : Int) (he : info.exported = true) (ht : info.tag ≠ "")
    (hw0 : 0 ≤ wall) (hw : wall < 2 ^ 63) (hext : inRange .Int64 ext)
    (hnz : ¬ (wall = 0 ∧ ext = 0)) :
    ∃ bins,
      Marshal (.iface (.ptr (.struct p n [(info, timeType)]))
          (.ptr (.struct [.struct [.int wall, .int ext, .nil]])))
        = .returns (.map bins) none ∧
      Unmarshal rt (some ⟨retypeInts (.map bins)⟩)
          (.iface (.ptr (.struct p n [(info, timeType)]))
            (.ptr (zeroValue (.struct p n [(info, timeType)]))))
        = .returns (.iface (.ptr (.struct p n [(info, timeType)]))
            (.ptr (.struct [.struct [.int 0, .int ext, .nil]]))) none ∧
      ((GoValue.struct [.int 0, .int ext, .nil] = .struct [.int wall, .int ext, .nil])
        ↔ wall = 0) := by
  have ht' : (info.tag == "") = false := by simpa using ht
  have hz : (GoValue.struct [.int wall, .int ext, .nil]).isZero = false := by
    simp only [GoValue.isZero, GoValue.allZero, Bool.and_true, Bool.and_eq_false_imp,
      decide_eq_true_eq, decide_eq_false_iff_not]
    intro h1 h2; exact hnz ⟨h1, h2⟩
  have hsec : timeSec wall ext = ext := by
    simp only [timeSec]
    rw [if_neg (by omega)]
  have hconv : convertField info timeType (.struct [.int wall, .int ext, .nil])
      = .ok (.iface (predeclared .Int64) (.int (wrapInt .Int64 (ext - unixToInternal)))) := by
    simp only [convertField, he, Bool.not_true, convertValue, interfaceOf_time, asTime, beq_time,
      timeUnix, hsec, Bool.false_eq_true, if_false, if_true]
  refine ⟨[(.str info.tag, .iface (predeclared .Int64)
    (.int (wrapInt .Int64 (ext - unixToInternal))))], ?_, ?_, ?_⟩
  · rw [marshal_ptr_struct, marshalStruct_cons]
    simp only [ht', Bool.false_eq_true, if_false, hz, hconv, marshalStruct, mapInsert]
  · have hre : retypeInts (.map [(.str info.tag, .iface (predeclared .Int64)
        (.int (wrapInt .Int64 (ext - unixToInternal))))])
        = .map [(.str info.tag, .iface (predeclared .Int)
          (.int (wrapInt .Int64 (ext - unixToInternal))))] := by
      simp [retypeInts, retypeEntries, GoType.beq, predeclared]
    have hlook : mapLookup [(GoValue.str info.tag, GoValue.iface (predeclared .Int)
        (.int (wrapInt .Int64 (ext - unixToInternal))))] (.str info.tag)
        = some (.iface (predeclared .Int) (.int (wrapInt .Int64 (ext - unixToInternal)))) := by
      simp [mapLookup, keyEq, GoValue.beq]
    have hparse : parseTime (.iface (predeclared .Int)
        (.int (wrapInt .Int64 (ext - unixToInternal)))) = .ok (.struct [.int 0, .int ext, .nil]) := by
      simp [parseTime, asInt, GoType.beq, predeclared, timeOfUnix, time_arith ext hext]
    rw [hre]
    simp only [Unmarshal, valueOf, rkind, reflectIndirect, rvIsNil, GoType.kind, zeroValue,
      zeroFields, unmarshalStruct, structGuard_bins, entriesOf, unmarshalFields, ht',
      Bool.false_eq_true, if_false, mapIndex_string_any, hlook, Option.map_some', interfaceOf_any,
      he, Bool.not_true, Bool.or_false, unmarshalField_time, hparse, boxTime, storeField_time,
      consOutcome]
    simp
  · constructor
    · intro h
      simp only [GoValue.struct.injEq, List.cons.injEq, GoValue.int.injEq, and_true, true_and] at h
      omega
    · rintro rfl; rfl


/-- C8 fails as stated: on the map exactly as `Marshal` returns it for the time
2025-10-17 12:51:00 UTC (zero sub-second part), `Unmarshal` returns the error of
`parseTime`, because the stored `int64` is not a Go `int`, and the field stays zero. -/
theorem C8_direct_counterexample :
    Marshal (.iface (.ptr timeFieldType)
        (.ptr (.struct [.struct [.int 0, .int 63896302260, .nil]])))
      = .returns (.map [(.str "time", .iface (predeclared .Int64) (.int 1760705460))]) none ∧
    Unmarshal idRuntime
        (some ⟨.map [(.str "time", .iface (predeclared .Int64) (.int 1760705460))]⟩)
        (.iface (.ptr timeFieldType) (.ptr (zeroValue timeFieldType)))
      = .returns (.iface (.ptr timeFieldType) (.ptr (zeroValue timeFieldType)))
          (some (errParsingField "Time" (.wrapf "time must be an int: %w" [] .errInputType))) :=
  ⟨rfl, rfl⟩

/-- Witness of C8 (amended): 2025-10-17 12:51:00.000000005 UTC decodes to the whole
second. -/
theorem C8_time_roundtrip_retyped_witness :
    ∃ bins,
      Marshal (.iface (.ptr (.struct "" "" [(⟨"Time", true, "time"⟩, timeType)]))
          (.ptr (.struct [.struct [.int 5, .int 63896302260, .nil]])))
        = .returns (.map bins) none ∧
      Unmarshal idRuntime (some ⟨retypeInts (.map bins)⟩)
          (.iface (.ptr (.struct "" "" [(⟨"Time", true, "time"⟩, timeType)]))
            (.ptr (zeroValue (.struct "" "" [(⟨"Time", true, "time"⟩, timeType)]))))
        = .returns (.iface (.ptr (.struct "" "" [(⟨"Time", true, "time"⟩, timeType)]))
            (.ptr (.struct [.struct [.int 0, .int 63896302260, .nil]]))) none ∧
      ((GoValue.struct [.int 0, .int 63896302260, .nil]
          = .struct [.int 5, .int 63896302260, .nil]) ↔ (5 : Int) = 0) :=
  C8_time_roundtrip_retyped idRuntime "" "" ⟨"Time", true, "time"⟩ 5 63896302260 rfl
    (by decide) (by decide) (by decide) (by simp [inRange, isSignedInt, kindBits])
    (by decide)


/-! ## Map round trips (C9, C10) -/

/-- Writing a key that equals no key of the map adds the entry at the end. -/
theorem mapInsert_fresh (out : List (GoValue × GoValue)) (k v : GoValue)
    (h : ∀ o ∈ out, keyEq o.1 k = false) : mapInsert out k v = out ++ [(k, v)] := by
  induction out with
  | nil => rfl
  | cons o r ih =>
    obtain ⟨ok, ov⟩ := o
    have h0 : keyEq ok k = false := h (ok, ov) (List.mem_cons_self _ _)
    simp only [mapInsert, h0, Bool.false_eq_true, if_false, List.cons_append]
    rw [ih (fun o ho => h o (List.mem_cons_of_mem _ ho))]

/-- The loop of `marshalMap` adds the encoded entries in order when every entry
encodes and the keys written are pairwise different. -/
theorem marshalMap_append (kt et : GoType) (enc : GoValue × GoValue → GoValue × GoValue) :
    ∀ (entries out : List (GoValue × GoValue)),
      (∀ e ∈ entries, getMapKey kt e.1 = .ok (enc e).1 ∧ convertValue false et e.2 = .ok (enc e).2) →
      FreshKeys (out ++ entries.map enc) →
      marshalMap kt et entries out = .ok (out ++ entries.map enc) := by
  intro entries
  induction entries with
  | nil => intro out _ _; rw [marshalMap]; simp
  | cons e rest ih =>
    intro out h hf
    obtain ⟨k, v⟩ := e
    obtain ⟨hk, hv⟩ := h (k, v) (List.mem_cons_self _ _)
    simp only at hk hv
    rw [marshalMap, hk]
    simp only [hv]
    have hfresh : ∀ o ∈ out, keyEq o.1 (enc (k, v)).1 = false := by
      intro o ho
      unfold FreshKeys at hf
      simp only [List.map_append, List.map_cons, List.pairwise_append, List.mem_map,
        List.mem_cons] at hf
      exact hf.2.2 o.1 ⟨o, ho, rfl⟩ _ (Or.inl rfl)
    rw [mapInsert_fresh out _ _ hfresh]
    have := ih (out ++ [enc (k, v)]) (fun e he => h e (List.mem_cons_of_mem _ he))
      (by simpa [FreshKeys] using hf)
    simpa using this

/-- The loop of `unmarshalMap` adds the decoded entries in order when every entry
decodes and the keys written are pairwise different. -/
theorem unmarshalMapLoop_append (rt : Runtime) (srcK srcE dstK dstE : GoType)
    (dec : GoValue × GoValue → GoValue × GoValue) :
    ∀ (entries out : List (GoValue × GoValue)),
      (∀ e ∈ entries, ∀ o, unmarshalMapEntry rt srcK srcE dstK dstE o e.1 e.2
        = .ok (mapInsert o (dec e).1 (dec e).2)) →
      FreshKeys (out ++ entries.map dec) →
      unmarshalMapLoop rt srcK srcE dstK dstE entries out = .ok (out ++ entries.map dec) := by
  intro entries
  induction entries with
  | nil => intro out _ _; rw [unmarshalMapLoop]; simp
  | cons e rest ih =>
    intro out h hf
    obtain ⟨k, v⟩ := e
    have hk := h (k, v) (List.mem_cons_self _ _) out
    simp only at hk
    rw [unmarshalMapLoop, hk]
    simp only
    have hfresh : ∀ o ∈ out, keyEq o.1 (dec (k, v)).1 = false := by
      intro o ho
      unfold FreshKeys at hf
      simp only [List.map_append, List.map_cons, List.pairwise_append, List.mem_map,
        List.mem_cons] at hf
      exact hf.2.2 o.1 ⟨o, ho, rfl⟩ _ (Or.inl rfl)
    rw [mapInsert_fresh out _ _ hfresh]
    have := ih (out ++ [dec (k, v)]) (fun e he => h e (List.mem_cons_of_mem _ he))
      (by simpa [FreshKeys] using hf)
    simpa using this


/-- A value of the predeclared type `string` is encoded as itself. -/
theorem convertValue_string (x : GoValue) :
    convertValue false (predeclared .String) x = .ok (.iface (predeclared .String) x) := by
  cases x <;> simp [convertValue, asTime, interfaceOf, GoType.kind, predeclared, GoType.beq, timeType]

/-- Distinct items give pairwise different keys under an injective key function. -/
theorem freshKeys_of_nodup {α : Type} (l : List α) (f : α → GoValue)
    (hf : ∀ a b, a ≠ b → keyEq (f a) (f b) = false) (h : l.Nodup) :
    (l.map f).Pairwise (fun a b => keyEq a b = false) := by
  rw [List.pairwise_map]
  exact List.Pairwise.imp (fun {a b} hab => hf a b hab) h

/-- `marshalMap` on a `map[string]string`. -/
theorem marshalMap_strings (m : List (String × String)) (hm : (m.map Prod.fst).Nodup) :
    marshalMap (predeclared .String) (predeclared .String) (strEntries m) []
      = .ok (boxedStrEntries m) := by
  have h := marshalMap_append (predeclared .String) (predeclared .String)
    (fun e => (.iface (predeclared .String) e.1, .iface (predeclared .String) e.2))
    (strEntries m) []
    (by
      intro e _
      exact ⟨by simp [getMapKey, predeclared, GoType.kind], convertValue_string e.2⟩)
    (by
      simp only [FreshKeys, List.nil_append, strEntries, List.map_map]
      have := freshKeys_of_nodup (m.map Prod.fst)
        (fun a => GoValue.iface (predeclared .String) (.str a))
        (by intro a b hab; simp [keyEq, GoValue.beq, GoType.beq, predeclared, hab]) hm
      simpa [List.map_map, Function.comp] using this)
  simpa [strEntries, boxedStrEntries, List.map_map, Function.comp] using h

/-- The loop of `unmarshalMap` on the encoding of a `map[string]string`. -/
theorem unmarshalMapLoop_strings (rt : Runtime) (m : List (String × String))
    (hm : (m.map Prod.fst).Nodup) :
    unmarshalMapLoop rt anyType anyType (predeclared .String) (predeclared .String)
      (boxedStrEntries m) [] = .ok (strEntries m) := by
  have h := unmarshalMapLoop_append rt anyType anyType (predeclared .String)
    (predeclared .String)
    (fun e => ((valueOf e.1).elim .nil Prod.snd, (valueOf e.2).elim .nil Prod.snd))
    (boxedStrEntries m) []
    (by
      intro e he o
      simp only [boxedStrEntries, List.mem_map] at he
      obtain ⟨a, _, rfl⟩ := he
      simp [unmarshalMapEntry, reflectElem, anyType, valueOf, interfaceOf, predeclared,
        GoType.kind, unmarshalScalarToKind, setMapIndex, assignTo, directlyAssignable,
        GoType.beq])
    (by
      simp only [FreshKeys, List.nil_append, boxedStrEntries, List.map_map]
      have := freshKeys_of_nodup (m.map Prod.fst) (fun a => GoValue.str a)
        (by intro a b hab; simp [keyEq, GoValue.beq, hab]) hm
      simpa [List.map_map, Function.comp, valueOf] using this)
  simpa [strEntries, boxedStrEntries, List.map_map, Function.comp, valueOf] using h


/-- `Marshal` on a struct with one tagged, non-zero field. -/
theorem marshal_single (p n : String) (info : FieldInfo) (ft : GoType) (fv x : GoValue)
    (ht : info.tag ≠ "") (hz : fv.isZero = false) (hc : convertField info ft fv = .ok x) :
    Marshal (.iface (.ptr (.struct p n [(info, ft)])) (.ptr (.struct [fv])))
      = .returns (.map [(.str info.tag, x)]) none := by
  have ht' : (info.tag == "") = false := by simpa using ht
  rw [marshal_ptr_struct, marshalStruct_cons]
  simp only [ht', Bool.false_eq_true, if_false, hz, hc, marshalStruct, mapInsert]

/-- `Unmarshal` of a one-entry record into a zero-valued struct with one field. -/
theorem unmarshal_single (rt : Runtime) (p n : String) (info : FieldInfo) (ft : GoType)
    (val fv : GoValue) (ht : info.tag ≠ "")
    (hu : unmarshalField rt (!info.exported) ft (zeroValue ft) val info.name = .returns fv none) :
    Unmarshal rt (some ⟨.map [(.str info.tag, val)]⟩)
        (.iface (.ptr (.struct p n [(info, ft)])) (.ptr (zeroValue (.struct p n [(info, ft)]))))
      = .returns (.iface (.ptr (.struct p n [(info, ft)])) (.ptr (.struct [fv]))) none := by
  have ht' : (info.tag == "") = false := by simpa using ht
  have hlook : mapLookup [(GoValue.str info.tag, val)] (.str info.tag) = some val := by
    simp [mapLookup, keyEq, GoValue.beq]
  simp only [Unmarshal, valueOf, rkind, reflectIndirect, rvIsNil, GoType.kind, zeroValue,
    zeroFields, unmarshalStruct, structGuard_bins, entriesOf, unmarshalFields, ht',
    Bool.false_eq_true, if_false, mapIndex_string_any, hlook, Option.map_some', interfaceOf_any,
    Bool.false_or, hu, consOutcome]
  simp

/-- C9. String-keyed map round trip: for every non-nil `map[string]string` (any number
of entries, keys distinct as in every Go map) in a tagged exported field, `Marshal`
returns under the tag a `map[any]any` with exactly the same key/value pairs, and
`Unmarshal` of that output into a zero-valued target of the same type returns no
error and yields a map equal to the original. -/
theorem C9_string_map_roundtrip (rt : Runtime) (p n : String) (info : FieldInfo)
    (m : List (String × String)) (he : info.exported = true) (ht : info.tag ≠ "")
    (hm : (m.map Prod.fst).Nodup) :
    Marshal (.iface
        (.ptr (.struct p n [(info, .map (predeclared .String) (predeclared .String))]))
        (.ptr (.struct [.map (strEntries m)])))
      = .returns (.map [(.str info.tag, .iface mapAnyAny (.map (boxedStrEntries m)))]) none ∧
    Unmarshal rt (some ⟨.map [(.str info.tag, .iface mapAnyAny (.map (boxedStrEntries m)))]⟩)
        (.iface (.ptr (.struct p n [(info, .map (predeclared .String) (predeclared .String))]))
          (.ptr (zeroValue
            (.struct p n [(info, .map (predeclared .String) (predeclared .String))]))))
      = .returns (.iface
          (.ptr (.struct p n [(info, .map (predeclared .String) (predeclared .String))]))
          (.ptr (.struct [.map (strEntries m)]))) none := by
  refine ⟨?_, ?_⟩
  · apply marshal_single _ _ _ _ _ _ ht (by simp [GoValue.isZero])
    simp only [convertField, he, Bool.not_true, convertValue, Bool.false_eq_true, if_false]
    simp [asTime, interfaceOf, GoType.kind, GoType.beq, timeType, GoType.key, GoType.elem,
      marshalMap_strings m hm, boxMap]
  · apply unmarshal_single rt _ _ _ _ _ _ ht
    have hcan : canConvert (.map (predeclared .String) (predeclared .String)) (.map (strEntries m))
        (.map (predeclared .String) (predeclared .String)) = true := by
      have : convertOp (.map (predeclared .String) (predeclared .String))
          (.map (predeclared .String) (predeclared .String)) = some .cvtDirect := by decide
      simp [canConvert, this]
    have hconv : convert rt (.map (predeclared .String) (predeclared .String))
        (.map (strEntries m)) (.map (predeclared .String) (predeclared .String))
        = some (.map (strEntries m)) := by
      have : convertOp (.map (predeclared .String) (predeclared .String))
          (.map (predeclared .String) (predeclared .String)) = some .cvtDirect := by decide
      simp [convert, hcan, this]
    simp only [he, Bool.not_true, unmarshalField, unmarshalLeaf]
    simp [isTimeType, GoType.pkgPath, GoType.kind, unmarshalMap, valueOf, mapAnyAny, reflectLen,
      anyType, entriesOf, storeField, hcan, hconv]
    have := unmarshalMapLoop_strings rt m hm
    simp only [anyType] at this
    simp [this, hcan, hconv]


/-- `marshalMap` on a `map[int]int`: keys and values are written as `int64`. -/
theorem marshalMap_ints (m : List (Int × Int)) (hm : (m.map Prod.fst).Nodup) :
    marshalMap (predeclared .Int) (predeclared .Int) (intEntries m) []
      = .ok (boxedIntEntries (predeclared .Int64) m) := by
  have h := marshalMap_append (predeclared .Int) (predeclared .Int)
    (fun e => (.iface (predeclared .Int64) (.int e.1.toInt),
      .iface (predeclared .Int64) (.int e.2.toInt)))
    (intEntries m) []
    (by
      intro e he
      simp only [intEntries, List.mem_map] at he
      obtain ⟨a, _, rfl⟩ := he
      refine ⟨by simp [getMapKey, predeclared, GoType.kind], ?_⟩
      simp [convertValue, asTime, interfaceOf, GoType.kind, predeclared, GoType.beq, timeType])
    (by
      simp only [FreshKeys, List.nil_append, intEntries, List.map_map]
      have := freshKeys_of_nodup (m.map Prod.fst)
        (fun a => GoValue.iface (predeclared .Int64) (.int a))
        (by intro a b hab; simp [keyEq, GoValue.beq, GoType.beq, predeclared, hab]) hm
      simpa [List.map_map, Function.comp, GoValue.toInt] using this)
  simpa [intEntries, boxedIntEntries, List.map_map, Function.comp, GoValue.toInt] using h

/-- Re-typing the encoding of a `map[int]int`. -/
theorem retypeEntries_boxedInt (m : List (Int × Int)) :
    retypeEntries (boxedIntEntries (predeclared .Int64) m) = boxedIntEntries (predeclared .Int) m := by
  induction m with
  | nil => rfl
  | cons e r ih =>
    simp only [boxedIntEntries, List.map_cons, retypeEntries] at ih ⊢
    rw [ih]
    simp [retypeInts, GoType.beq, predeclared]

/-- A Go `int` converts to `int` unchanged. -/
theorem wrapInt_of_inRange (n : Int) (h : inRange .Int n) : wrapInt .Int n = n := by
  simp [wrapInt, inRange, isSignedInt, kindBits] at h ⊢
  omega

/-- The loop of `unmarshalMap` on the re-typed encoding of a `map[int]int`. -/
theorem unmarshalMapLoop_ints (rt : Runtime) (m : List (Int × Int))
    (hm : (m.map Prod.fst).Nodup) (hr : ∀ e ∈ m, inRange .Int e.1 ∧ inRange .Int e.2) :
    unmarshalMapLoop rt anyType anyType (predeclared .Int) (predeclared .Int)
      (boxedIntEntries (predeclared .Int) m) [] = .ok (intEntries m) := by
  have h := unmarshalMapLoop_append rt anyType anyType (predeclared .Int)
    (predeclared .Int)
    (fun e => ((valueOf e.1).elim .nil Prod.snd, (valueOf e.2).elim .nil Prod.snd))
    (boxedIntEntries (predeclared .Int) m) []
    (by
      intro e he o
      simp only [boxedIntEntries, List.mem_map] at he
      obtain ⟨a, ha, rfl⟩ := he
      obtain ⟨h1, h2⟩ := hr a ha
      simp [unmarshalMapEntry, reflectElem, anyType, valueOf, interfaceOf, predeclared,
        GoType.kind, unmarshalScalarToKind, setMapIndex, assignTo, directlyAssignable,
        GoType.beq, toIntVal, asInt, kindString, wrapInt_of_inRange _ h1,
        wrapInt_of_inRange _ h2])
    (by
      simp only [FreshKeys, List.nil_append, boxedIntEntries, List.map_map]
      have := freshKeys_of_nodup (m.map Prod.fst) (fun a => GoValue.int a)
        (by intro a b hab; simp [keyEq, GoValue.beq, hab]) hm
      simpa [List.map_map, Function.comp, valueOf] using this)
  simpa [intEntries, boxedIntEntries, List.map_map, Function.comp, valueOf] using h

/-- C10 (amended). Integer-keyed map round trip through re-typed integers: for every
non-nil `map[int]int` in a tagged exported field, `Marshal` succeeds, and `Unmarshal`
on the returned record with every `int64` key and value re-typed as Go `int`, into a
zero-valued target of the same type, returns no error and yields a map equal to the
original. -/
theorem C10_int_map_roundtrip_retyped (rt : Runtime) (p n : String) (info : FieldInfo)
    (m : List (Int × Int)) (he : info.exported = true) (ht : info.tag ≠ "")
    (hm : (m.map Prod.fst).Nodup) (hr : ∀ e ∈ m, inRange .Int e.1 ∧ inRange .Int e.2) :
    ∃ bins,
      Marshal (.iface (.ptr (.struct p n [(info, .map (predeclared .Int) (predeclared .Int))]))
          (.ptr (.struct [.map (intEntries m)])))
        = .returns (.map bins) none ∧
      Unmarshal rt (some ⟨retypeInts (.map bins)⟩)
          (.iface (.ptr (.struct p n [(info, .map (predeclared .Int) (predeclared .Int))]))
            (.ptr (zeroValue (.struct p n [(info, .map (predeclared .Int) (predeclared .Int))]))))
        = .returns (.iface
            (.ptr (.struct p n [(info, .map (predeclared .Int) (predeclared .Int))]))
            (.ptr (.struct [.map (intEntries m)]))) none := by
  refine ⟨[(.str info.tag, .iface mapAnyAny (.map (boxedIntEntries (predeclared .Int64) m)))],
    ?_, ?_⟩
  · apply marshal_single _ _ _ _ _ _ ht (by simp [GoValue.isZero])
    simp only [convertField, he, Bool.not_true, convertValue, Bool.false_eq_true, if_false]
    simp [asTime, interfaceOf, GoType.kind, GoType.beq, timeType, GoType.key, GoType.elem,
      marshalMap_ints m hm, boxMap]
  · have hre : retypeInts (.map [(.str info.tag,
        .iface mapAnyAny (.map (boxedIntEntries (predeclared .Int64) m)))])
        = .map [(.str info.tag, .iface mapAnyAny (.map (boxedIntEntries (predeclared .Int) m)))] := by
      have hne : GoType.beq mapAnyAny (predeclared .Int64) = false := by decide
      simp only [retypeInts, retypeEntries, hne, Bool.false_eq_true, if_false,
        retypeEntries_boxedInt]
    rw [hre]
    apply unmarshal_single rt _ _ _ _ _ _ ht
    have hop : convertOp (.map (predeclared .Int) (predeclared .Int))
        (.map (predeclared .Int) (predeclared .Int)) = some .cvtDirect := by decide
    have hcan : canConvert (.map (predeclared .Int) (predeclared .Int)) (.map (intEntries m))
        (.map (predeclared .Int) (predeclared .Int)) = true := by
      simp [canConvert, hop]
    have hconv : convert rt (.map (predeclared .Int) (predeclared .Int))
        (.map (intEntries m)) (.map (predeclared .Int) (predeclared .Int))
        = some (.map (intEntries m)) := by
      simp [convert, hcan, hop]
    simp only [he, Bool.not_true, unmarshalField, unmarshalLeaf]
    simp [isTimeType, GoType.pkgPath, GoType.kind, unmarshalMap, valueOf, mapAnyAny, reflectLen,
      anyType, entriesOf, storeField, hcan, hconv]
    have := unmarshalMapLoop_ints rt m hm hr
    simp only [anyType] at this
    simp [this, hcan, hconv]


/-- Witness of C9 on `{"key": "value"}`. -/
theorem C9_string_map_roundtrip_witness :
    Marshal (.iface
        (.ptr (.struct "" ""
          [(⟨"MapStrStr", true, "map_str_str"⟩, .map (predeclared .String) (predeclared .String))]))
        (.ptr (.struct [.map (strEntries [("key", "value")])])))
      = .returns (.map [(.str "map_str_str",
          .iface mapAnyAny (.map (boxedStrEntries [("key", "value")])))]) none ∧
    Unmarshal idRuntime
        (some ⟨.map [(.str "map_str_str",
          .iface mapAnyAny (.map (boxedStrEntries [("key", "value")])))]⟩)
        (.iface (.ptr (.struct "" ""
          [(⟨"MapStrStr", true, "map_str_str"⟩, .map (predeclared .String) (predeclared .String))]))
          (.ptr (zeroValue (.struct "" ""
            [(⟨"MapStrStr", true, "map_str_str"⟩,
              .map (predeclared .String) (predeclared .String))]))))
      = .returns (.iface (.ptr (.struct "" ""
          [(⟨"MapStrStr", true, "map_str_str"⟩, .map (predeclared .String) (predeclared .String))]))
          (.ptr (.struct [.map (strEntries [("key", "value")])]))) none :=
  C9_string_map_roundtrip idRuntime "" "" ⟨"MapStrStr", true, "map_str_str"⟩ [("key", "value")]
    rfl (by decide) (by decide)

/-- C10 fails as stated: on the map exactly as `Marshal` returns it for `{1: 2}`,
`Unmarshal` returns no error and yields `{0: 0}`, because `toIntVal` reads the
`int64` key and value as 0. -/
theorem C10_direct_counterexample :
    Marshal (.iface (.ptr intMapType) (.ptr (.struct [.map [(.int 1, .int 2)]])))
      = .returns (.map [(.str "map_int", .iface mapAnyAny
          (.map [(.iface (predeclared .Int64) (.int 1),
            .iface (predeclared .Int64) (.int 2))]))]) none ∧
    Unmarshal idRuntime
        (some ⟨.map [(.str "map_int", .iface mapAnyAny
          (.map [(.iface (predeclared .Int64) (.int 1),
            .iface (predeclared .Int64) (.int 2))]))]⟩)
        (.iface (.ptr intMapType) (.ptr (zeroValue intMapType)))
      = .returns (.iface (.ptr intMapType) (.ptr (.struct [.map [(.int 0, .int 0)]]))) none ∧
    (.iface (.ptr intMapType) (.ptr (.struct [.map [(.int 0, .int 0)]])) : GoValue)
      ≠ .iface (.ptr intMapType) (.ptr (.struct [.map [(.int 1, .int 2)]])) := by
  refine ⟨rfl, rfl, ?_⟩
  simp

/-- Witness of C10 (amended) on `{1: 2}`. -/
theorem C10_int_map_roundtrip_retyped_witness :
    ∃ bins,
      Marshal (.iface
          (.ptr (.struct "" ""
            [(⟨"MapInt", true, "map_int"⟩, .map (predeclared .Int) (predeclared .Int))]))
          (.ptr (.struct [.map (intEntries [(1, 2)])])))
        = .returns (.map bins) none ∧
      Unmarshal idRuntime (some ⟨retypeInts (.map bins)⟩)
          (.iface (.ptr (.struct "" ""
            [(⟨"MapInt", true, "map_int"⟩, .map (predeclared .Int) (predeclared .Int))]))
            (.ptr (zeroValue (.struct "" ""
              [(⟨"MapInt", true, "map_int"⟩, .map (predeclared .Int) (predeclared .Int))]))))
        = .returns (.iface
            (.ptr (.struct "" ""
              [(⟨"MapInt", true, "map_int"⟩, .map (predeclared .Int) (predeclared .Int))]))
            (.ptr (.struct [.map (intEntries [(1, 2)])]))) none :=
  C10_int_map_roundtrip_retyped idRuntime "" "" ⟨"MapInt", true, "map_int"⟩ [(1, 2)]
    rfl (by decide) (by decide)
    (by
      intro e he
      simp only [List.mem_singleton] at he
      subst he
      constructor <;> simp [inRange, isSignedInt, kindBits])


/-! ## Unsupported kinds on encode (C7) -/

/-- The step on a field converts the field with one pointer level removed. -/
theorem convertField_deref (info : FieldInfo) (ft : GoType) (fv : GoValue) :
    convertField info ft fv =
      convertValue (!info.exported) (derefField ft fv).1 (derefField ft fv).2 := by
  cases fv <;> simp only [convertField, derefField]
  split <;> rfl

/-- A value of an unsupported kind makes `convertValue` return the error naming the kind. -/
theorem convertValue_unsupported (t : GoType) (v : GoValue) (h : UnsupportedLeaf t v) :
    convertValue false t v = .err (unsupportedKind t.kind) := by
  obtain ⟨hk, ht⟩ := h
  cases v <;> simp only [convertValue, ht, Bool.false_eq_true, if_false] <;>
    cases hkind : t.kind <;> simp_all [isSupportedKind]


/-- Removing a pointer level does not enlarge a value. -/
theorem derefField_size (ft : GoType) (fv : GoValue) :
    sizeOf (derefField ft fv).2 ≤ sizeOf fv := by
  cases fv <;> simp only [derefField, le_refl]
  split <;> simp

/-- Every error of `getMapKey` wraps `errInputType`. -/
theorem getMapKey_err (kt : GoType) (k : GoValue) (e : GoError)
    (h : getMapKey kt k = .err e) : e.isInputType = true := by
  unfold getMapKey at h
  split at h <;> simp at h
  subst h; rfl

/-- An error out of `boxMap` is the error of the loop. -/
theorem boxMap_err {r : Res (List (GoValue × GoValue))} {e : GoError}
    (h : boxMap r = .err e) : r = .err e := by
  cases r <;> simp_all [boxMap]

/-- An error out of `boxSlice` is the error of the loop. -/
theorem boxSlice_err {r : Res (List GoValue)} {e : GoError}
    (h : boxSlice r = .err e) : r = .err e := by
  cases r <;> simp_all [boxSlice]

/-- An error out of `boxStruct` is the error of the loop. -/
theorem boxStruct_err {r : Res (List (GoValue × GoValue))} {e : GoError}
    (h : boxStruct r = .err e) : r = .err e := by
  cases r <;> simp_all [boxStruct]

mutual
/-- Every error of `convertValue` wraps `errInputType`. -/
theorem convertValue_err_isInputType (ro : Bool) (t : GoType) :
    ∀ (v : GoValue) (e : GoError), convertValue ro t v = .err e → e.isInputType = true
  | .map es, e, h => by
    rw [convertValue] at h
    split at h
    · simp at h
    · split at h
      · simp at h
      · split at h <;> first
          | (simp at h; done)
          | exact marshalMap_err_isInputType _ _ es [] e (boxMap_err h)
          | (simp only [Res.err.injEq] at h; subst h; rfl)
  | .slice xs, e, h => by
    rw [convertValue] at h
    split at h
    · simp at h
    · split at h
      · simp at h
      · split at h <;> first
          | (simp at h; done)
          | exact marshalSlice_err_isInputType _ xs e (boxSlice_err h)
          | (simp only [Res.err.injEq] at h; subst h; rfl)
  | .struct vals, e, h => by
    rw [convertValue] at h
    split at h
    · simp at h
    · split at h
      · simp at h
      · split at h <;> first
          | (simp at h; done)
          | exact marshalStruct_err_isInputType _ _ vals [] e (boxStruct_err h)
          | (simp only [Res.err.injEq] at h; subst h; rfl)
  | .bool _, e, h | .int _, e, h | .float _, e, h | .complex _ _, e, h | .str _, e, h
  | .nil, e, h | .ptr _, e, h | .array _, e, h | .chan _ _, e, h | .func _, e, h
  | .iface _ _, e, h => by
    simp only [convertValue] at h
    split at h
    · simp at h
    · split at h
      · simp at h
      · split at h <;> first
          | (simp at h; done)
          | (simp only [Res.err.injEq] at h; subst h; rfl)
termination_by v _ _ => sizeOf v
decreasing_by all_goals (simp_wf; try omega)
/-- Every error of `marshalSlice` wraps `errInputType`. -/
theorem marshalSlice_err_isInputType (et : GoType) :
    ∀ (xs : List GoValue) (e : GoError), marshalSlice et xs = .err e → e.isInputType = true
  | [], e, h => by rw [marshalSlice] at h; simp at h
  | x :: xs, e, h => by
    rw [marshalSlice] at h
    split at h
    · split at h
      · simp at h
      · rename_i h2
        simp only [Res.err.injEq] at h; subst h
        exact marshalSlice_err_isInputType et xs _ h2
      · simp at h
    · rename_i err h1
      simp only [Res.err.injEq] at h; subst h
      exact convertValue_err_isInputType false et x err h1
    · simp at h
termination_by xs _ _ => sizeOf xs
decreasing_by all_goals (simp_wf; try omega)
/-- Every error of `marshalMap` wraps `errInputType`. -/
theorem marshalMap_err_isInputType (kt et : GoType) :
    ∀ (es out : List (GoValue × GoValue)) (e : GoError),
      marshalMap kt et es out = .err e → e.isInputType = true
  | [], out, e, h => by rw [marshalMap] at h; simp at h
  | (k, v) :: rest, out, e, h => by
    rw [marshalMap] at h
    split at h
    · split at h
      · exact marshalMap_err_isInputType kt et rest _ e h
      · rename_i err h1
        simp only [Res.err.injEq] at h; subst h
        exact convertValue_err_isInputType false et v err h1
      · simp at h
    · rename_i err h1
      simp only [Res.err.injEq] at h; subst h
      exact getMapKey_err kt k err h1
    · simp at h
termination_by es _ _ _ => sizeOf es
decreasing_by all_goals (simp_wf; try omega)
/-- Every error of `marshalStruct` wraps `errInputType`. -/
theorem marshalStruct_err_isInputType (numField : Nat) :
    ∀ (fs : List (FieldInfo × GoType)) (vals : List GoValue) (out : List (GoValue × GoValue))
      (e : GoError), marshalStruct numField fs vals out = .err e → e.isInputType = true
  | [], _, out, e, h => by rw [marshalStruct] at h; simp at h
  | _ :: _, [], out, e, h => by rw [marshalStruct] at h; simp at h
  | (info, ft) :: fs, fv :: vals, out, e, h => by
    rw [marshalStruct_cons] at h
    split at h
    · exact marshalStruct_err_isInputType numField fs vals out e h
    · split at h
      · exact marshalStruct_err_isInputType numField fs vals out e h
      · split at h
        · exact marshalStruct_err_isInputType numField fs vals _ e h
        · rename_i err h1
          simp only [Res.err.injEq] at h; subst h
          rw [convertField_deref] at h1
          have : (derefField ft fv).2 = (derefField ft fv).2 := rfl
          exact convertValue_err_isInputType _ _ _ err h1
        · simp at h
termination_by _ vals _ _ _ => sizeOf vals
decreasing_by
  all_goals simp_wf
  have := derefField_size ft fv
  omega
end


/-- A slice with an element that does not convert does not convert. -/
theorem marshalSlice_not_ok (e : GoType) (x : GoValue)
    (hx : ∀ ro z, convertValue ro e x ≠ .ok z) :
    ∀ xs : List GoValue, x ∈ xs → ∀ zs, marshalSlice e xs ≠ .ok zs := by
  intro xs
  induction xs with
  | nil => intro h; simp at h
  | cons y ys ih =>
    intro h zs hz
    rw [marshalSlice] at hz
    split at hz
    · rename_i y' hy
      split at hz
      · rename_i ys' hys
        rcases List.mem_cons.1 h with rfl | h'
        · exact hx false _ hy
        · exact ih h' _ hys
      · simp at hz
      · simp at hz
    · simp at hz
    · simp at hz

/-- A map with a value that does not convert does not convert. -/
theorem marshalMap_not_ok (kt et : GoType) (k x : GoValue)
    (hx : ∀ ro z, convertValue ro et x ≠ .ok z) :
    ∀ es : List (GoValue × GoValue), (k, x) ∈ es → ∀ out zs, marshalMap kt et es out ≠ .ok zs := by
  intro es
  induction es with
  | nil => intro h; simp at h
  | cons y ys ih =>
    intro h out zs hz
    obtain ⟨yk, yv⟩ := y
    rw [marshalMap] at hz
    split at hz
    · split at hz
      · rename_i z hy
        rcases List.mem_cons.1 h with h' | h'
        · simp only [Prod.mk.injEq] at h'
          obtain ⟨rfl, rfl⟩ := h'
          exact hx false _ hy
        · exact ih h' _ _ hz
      · simp at hz
      · simp at hz
    · simp at hz
    · simp at hz

/-- A struct with a tagged, non-zero field that does not convert does not convert. -/
theorem marshalStruct_not_ok (numField : Nat) (info : FieldInfo) (ft : GoType) (fv : GoValue)
    (ht : info.tag ≠ "") (hnz : fv.isZero = false)
    (hx : ∀ z, convertField info ft fv ≠ .ok z) :
    ∀ (fs : List (FieldInfo × GoType)) (vals : List GoValue), ((info, ft), fv) ∈ fs.zip vals →
      ∀ out zs, marshalStruct numField fs vals out ≠ .ok zs := by
  intro fs
  induction fs with
  | nil => intro vals h; simp at h
  | cons f fs ih =>
    intro vals h out zs hz
    obtain ⟨info0, ft0⟩ := f
    cases vals with
    | nil => simp at h
    | cons fv0 vals =>
      rw [marshalStruct_cons] at hz
      simp only [List.zip_cons_cons, List.mem_cons, Prod.mk.injEq] at h
      rcases h with ⟨⟨rfl, rfl⟩, rfl⟩ | h
      · have ht' : (info.tag == "") = false := by simpa using ht
        simp only [ht', Bool.false_eq_true, if_false, hnz] at hz
        split at hz
        · rename_i z hc
          exact hx z hc
        · simp at hz
        · simp at hz
      · split at hz
        · exact ih vals h _ _ hz
        · split at hz
          · exact ih vals h _ _ hz
          · split at hz
            · exact ih vals h _ _ hz
            · simp at hz
            · simp at hz

/-- `convertValue` never succeeds on a read-only Value. -/
theorem convertValue_ro_not_ok (t : GoType) (v z : GoValue) : convertValue true t v ≠ .ok z := by
  cases v <;> simp [convertValue]

/-- A slice is converted by `marshalSlice`. -/
theorem convertValue_slice (e : GoType) (xs : List GoValue) :
    convertValue false (.slice e) (.slice xs) = boxSlice (marshalSlice e xs) := by
  rw [convertValue]
  simp [asTime, interfaceOf, GoType.kind, GoType.beq, timeType, GoType.elem]

/-- A map is converted by `marshalMap`. -/
theorem convertValue_map (kt et : GoType) (es : List (GoValue × GoValue)) :
    convertValue false (.map kt et) (.map es) = boxMap (marshalMap kt et es []) := by
  rw [convertValue]
  simp [asTime, interfaceOf, GoType.kind, GoType.beq, timeType, GoType.elem, GoType.key]

/-- A value containing a reachable value of an unsupported kind is never converted. -/
theorem offending_not_ok (t : GoType) (v : GoValue) (h : Offending t v) :
    ∀ ro z, convertValue ro t v ≠ .ok z := by
  induction h with
  | leaf t v hl =>
    intro ro z
    cases ro
    · rw [convertValue_unsupported t v hl]; simp
    · exact convertValue_ro_not_ok t v z
  | slice e xs x hmem _ ih =>
    intro ro z hz
    cases ro
    · rw [convertValue_slice] at hz
      cases hs : marshalSlice e xs with
      | ok zs => exact marshalSlice_not_ok e x ih xs hmem zs hs
      | err er => rw [hs] at hz; simp [boxSlice] at hz
      | panics m => rw [hs] at hz; simp [boxSlice] at hz
    · exact convertValue_ro_not_ok _ _ z hz
  | map kt et es k x hmem _ ih =>
    intro ro z hz
    cases ro
    · rw [convertValue_map] at hz
      cases hs : marshalMap kt et es [] with
      | ok zs => exact marshalMap_not_ok kt et k x ih es hmem [] zs hs
      | err er => rw [hs] at hz; simp [boxMap] at hz
      | panics m => rw [hs] at hz; simp [boxMap] at hz
    · exact convertValue_ro_not_ok _ _ z hz
  | struct p n fs vals info ft fv hnt hmem ht hnz _ ih =>
    intro ro z hz
    cases ro
    · rw [convertValue_struct p n fs vals hnt] at hz
      cases hs : marshalStruct fs.length fs vals [] with
      | ok zs =>
        refine marshalStruct_not_ok fs.length info ft fv ht hnz ?_ fs vals hmem [] zs hs
        intro z2
        rw [convertField_deref]
        exact ih _ z2
      | err er => rw [hs] at hz; simp [boxStruct] at hz
      | panics m => rw [hs] at hz; simp [boxStruct] at hz
    · exact convertValue_ro_not_ok _ _ z hz


/-- Wrapping keeps the innermost message of an error that names a kind. -/
theorem innermost_wrapf (f : String) (a : List FmtArg) (e : GoError) (k : Kind)
    (h : e.innermost = unsupportedKind k) : (GoError.wrapf f a e).innermost = unsupportedKind k := by
  cases e with
  | errInputType => simp [GoError.innermost, unsupportedKind] at h
  | wrapf f2 a2 e2 => simpa [GoError.innermost] using h

/-- `marshalSlice` returns the wrapped error of the first element that fails. -/
theorem marshalSlice_first_err (e : GoType) (x : GoValue) (err : GoError)
    (hx : convertValue false e x = .err err) (suf : List GoValue) :
    ∀ pre : List GoValue, (∀ y ∈ pre, ∃ z, convertValue false e y = .ok z) →
      marshalSlice e (pre ++ x :: suf) = .err (.wrapf "failed to unmarshal slice: %w" [] err) := by
  intro pre
  induction pre with
  | nil => intro _; simp only [List.nil_append]; rw [marshalSlice, hx]
  | cons y ys ih =>
    intro h
    obtain ⟨z, hz⟩ := h y (List.mem_cons_self _ _)
    simp only [List.cons_append]
    rw [marshalSlice, hz]
    simp only [ih (fun y hy => h y (List.mem_cons_of_mem _ hy))]

/-- `marshalMap` returns the wrapped error of the first value that fails. -/
theorem marshalMap_first_err (kt et : GoType) (key x : GoValue) (err : GoError)
    (hk : ∃ z, getMapKey kt key = .ok z)
    (hx : convertValue false et x = .err err) (suf : List (GoValue × GoValue)) :
    ∀ (pre out : List (GoValue × GoValue)),
      (∀ y ∈ pre, (∃ z, getMapKey kt y.1 = .ok z) ∧ ∃ z, convertValue false et y.2 = .ok z) →
      marshalMap kt et (pre ++ (key, x) :: suf) out =
        .err (.wrapf "failed to marshal map value in key %s %v: %w"
          [.val (interfaceOf kt key), .val (interfaceOf et x)] err) := by
  intro pre
  induction pre with
  | nil =>
    intro out _
    obtain ⟨z, hz⟩ := hk
    simp only [List.nil_append]
    rw [marshalMap, hz]
    simp only [hx]
  | cons y ys ih =>
    intro out h
    obtain ⟨yk, yv⟩ := y
    obtain ⟨⟨z, hz⟩, ⟨w, hw⟩⟩ := h (yk, yv) (List.mem_cons_self _ _)
    simp only at hz hw
    simp only [List.cons_append]
    rw [marshalMap, hz]
    simp only [hw]
    exact ih _ (fun y hy => h y (List.mem_cons_of_mem _ hy))

/-- The loop of `marshalStruct` over a field list split in two. -/
theorem marshalStruct_append (numField : Nat) (rest : List (FieldInfo × GoType))
    (restVals : List GoValue) :
    ∀ (pre : List (FieldInfo × GoType)) (preVals : List GoValue) (out : List (GoValue × GoValue)),
      pre.length = preVals.length →
      marshalStruct numField (pre ++ rest) (preVals ++ restVals) out =
        match marshalStruct numField pre preVals out with
        | .ok o => marshalStruct numField rest restVals o
        | .err e => .err e
        | .panics m => .panics m := by
  intro pre
  induction pre with
  | nil =>
    intro preVals out hl
    cases preVals with
    | nil => simp only [List.nil_append]; rw [marshalStruct.eq_1]
    | cons _ _ => simp at hl
  | cons f fs ih =>
    intro preVals out hl
    obtain ⟨info, ft⟩ := f
    cases preVals with
    | nil => simp at hl
    | cons fv vals =>
      have hl' : fs.length = vals.length := by simpa using hl
      simp only [List.cons_append]
      rw [marshalStruct_cons, marshalStruct_cons]
      split
      · exact ih vals out hl'
      · split
        · exact ih vals out hl'
        · cases convertField info ft fv with
          | ok x => exact ih vals _ hl'
          | err e => rfl
          | panics m => rfl

/-- A value in which the encoder first meets an unsupported kind `k` makes
`convertValue` return an error whose innermost message names `k`. -/
theorem rejects_err (k : Kind) (t : GoType) (v : GoValue) (h : Rejects k t v) :
    ∃ e, convertValue false t v = .err e ∧ e.innermost = unsupportedKind k := by
  induction h with
  | leaf t v hl hk =>
    exact ⟨_, convertValue_unsupported t v hl, by rw [hk]; rfl⟩
  | slice e pre x suf hpre _ ih =>
    obtain ⟨err, he, hin⟩ := ih
    refine ⟨_, ?_, innermost_wrapf "failed to unmarshal slice: %w" [] err k hin⟩
    rw [convertValue_slice, marshalSlice_first_err e x err he suf pre hpre]
    rfl
  | map kt et pre key x suf hpre hkey _ ih =>
    obtain ⟨err, he, hin⟩ := ih
    refine ⟨.wrapf "failed to marshal map value in key %s %v: %w"
      [.val (interfaceOf kt key), .val (interfaceOf et x)] err, ?_, innermost_wrapf _ _ err k hin⟩
    rw [convertValue_map, marshalMap_first_err kt et key x err hkey he suf pre [] hpre]
    rfl
  | struct p n pre info ft suf preVals fv sufVals out hnt hl hpre ht hex hnz _ ih =>
    obtain ⟨err, he, hin⟩ := ih
    refine ⟨.wrapf "failed to convert field %v: %w"
      [.int (pre ++ (info, ft) :: suf).length] err, ?_, innermost_wrapf _ _ err k hin⟩
    have ht' : (info.tag == "") = false := by simpa using ht
    rw [convertValue_struct _ _ _ _ hnt, marshalStruct_append _ _ _ pre preVals [] hl, hpre]
    simp only
    rw [marshalStruct_cons, convertField_deref, hex]
    simp only [ht', Bool.false_eq_true, if_false, hnz, Bool.not_true, he]
    rfl


/-- C7 (amended). Unsupported kind on encode. First part: when the encoder, converting
tagged exported non-zero fields in declaration order and, inside them, slice
elements, map values and nested structs, reaches a value of an unsupported kind `k`
(function, channel, array, complex, uintptr, unsafe pointer, pointer-to-pointer, or
an interface that holds no `time.Time`) before anything else fails, `Marshal` returns
the nil record and an error that wraps `errInputType` and whose innermost message is
`type k is not supported`. Second part: whatever the other fields hold, a struct
that contains such a value in a tagged non-zero field (directly or through pointers,
slices, maps and nested structs) is never encoded: `Marshal` does not return without
an error, and every error it returns comes with the nil record and wraps
`errInputType`. -/
theorem C7_unsupported_kind :
    (∀ (k : Kind) (p n : String) (fs : List (FieldInfo × GoType)) (vals : List GoValue),
      Rejects k (.struct p n fs) (.struct vals) →
        ∃ e, Marshal (.iface (.ptr (.struct p n fs)) (.ptr (.struct vals)))
            = .returns .nil (some e) ∧
          e.isInputType = true ∧ e.innermost = unsupportedKind k) ∧
    (∀ (p n : String) (fs : List (FieldInfo × GoType)) (vals : List GoValue),
      Offending (.struct p n fs) (.struct vals) →
        (∀ out, Marshal (.iface (.ptr (.struct p n fs)) (.ptr (.struct vals)))
          ≠ .returns out none) ∧
        (∀ out e, Marshal (.iface (.ptr (.struct p n fs)) (.ptr (.struct vals)))
          = .returns out (some e) → out = .nil ∧ e.isInputType = true)) := by
  refine ⟨?_, ?_⟩
  · intro k p n fs vals hr
    have hnt : GoType.beq (.struct p n fs) timeType = false := by
      cases hr with
      | leaf _ _ hl _ => exact absurd hl.1 (by simp [GoType.kind, isSupportedKind])
      | struct _ _ _ _ _ _ _ _ _ _ h => exact h
    obtain ⟨e, he, hin⟩ := rejects_err k _ _ hr
    rw [convertValue_struct p n fs vals hnt] at he
    have hm := boxStruct_err he
    refine ⟨e, ?_, marshalStruct_err_isInputType _ fs vals [] e hm, hin⟩
    rw [marshal_ptr_struct, hm]
  · intro p n fs vals ho
    have hnt : GoType.beq (.struct p n fs) timeType = false := by
      cases ho with
      | leaf _ _ hl => exact absurd hl.1 (by simp [GoType.kind, isSupportedKind])
      | struct _ _ _ _ _ _ _ h => exact h
    have hno := offending_not_ok _ _ ho false
    rw [convertValue_struct p n fs vals hnt] at hno
    refine ⟨?_, ?_⟩
    · intro out h
      rw [marshal_ptr_struct] at h
      cases hm : marshalStruct fs.length fs vals [] with
      | ok bins => exact hno (.iface mapStringAny (.map bins)) (by rw [hm]; rfl)
      | err e => rw [hm] at h; simp at h
      | panics m => rw [hm] at h; simp at h
    · intro out e h
      rw [marshal_ptr_struct] at h
      cases hm : marshalStruct fs.length fs vals [] with
      | ok bins => rw [hm] at h; simp at h
      | err e2 =>
        rw [hm] at h
        simp only [Outcome.returns.injEq, Option.some.injEq] at h
        obtain ⟨rfl, rfl⟩ := h
        exact ⟨rfl, marshalStruct_err_isInputType _ fs vals [] _ hm⟩
      | panics m => rw [hm] at h; simp at h

/-- C7 fails as stated: a tagged field of interface kind holding a non-zero value, here
a `time.Time`, is encoded without error, because `convertValue` tests the dynamic type
for `time.Time` before it switches on the kind. -/
theorem C7_interface_time_counterexample :
    Marshal (.iface (.ptr anyFieldType)
        (.ptr (.struct [.iface timeType (.struct [.int 0, .int 63896302260, .nil])])))
      = .returns (.map [(.str "v", .iface (predeclared .Int64) (.int 1760705460))]) none := rfl

/-- Witness of C7 (amended): `struct { A int; F func() }` with `A = 1` and a non-nil
`F` is rejected with an error naming `func`, and `struct { S []chan int }` holding a
non-nil channel in a slice is never encoded. -/
theorem C7_unsupported_kind_witness :
    (∃ e, Marshal (.iface
          (.ptr (.struct "" "" ([(⟨"A", true, "a"⟩, predeclared .Int)]
            ++ (⟨"F", true, "f"⟩, GoType.func "func()") :: [])))
          (.ptr (.struct ([.int 1] ++ GoValue.func 1 :: []))))
        = .returns .nil (some e) ∧
      e.isInputType = true ∧ e.innermost = unsupportedKind .Func) ∧
    (∀ out, Marshal (.iface
        (.ptr (.struct "" "" [(⟨"S", true, "s"⟩, .slice (.chan (predeclared .Int)))]))
        (.ptr (.struct [.slice [.chan 0 0]])))
      ≠ .returns out none) :=
  ⟨C7_unsupported_kind.1 .Func "" "" _ _
    (Rejects.struct "" "" [(⟨"A", true, "a"⟩, predeclared .Int)] ⟨"F", true, "f"⟩
      (.func "func()") [] [.int 1] (.func 1) []
      [(.str "a", .iface (predeclared .Int64) (.int 1))] rfl rfl rfl (by decide) rfl rfl
      (Rejects.leaf _ _ ⟨rfl, rfl⟩ rfl)),
   (C7_unsupported_kind.2 "" "" _ _
    (Offending.struct "" "" _ _ ⟨"S", true, "s"⟩ (.slice (.chan (predeclared .Int)))
      (.slice [.chan 0 0]) rfl (by simp) (by decide) rfl
      (Offending.slice _ _ (.chan 0 0) (by simp)
        (Offending.leaf _ _ ⟨rfl, rfl⟩)))).1⟩


/-! ## Slice round trip (C11) -/

/-- Narrowing the encoded integer back to its kind gives the value back. -/
theorem wrapInt_encodeInt (k : Kind) (m : Int)
    (hk : isSignedInt k = true ∨ isUnsignedInt k = true) (hr : inRange k m) :
    wrapInt k (encodeInt k m) = m := by
  cases k <;> simp [isSignedInt, isUnsignedInt] at hk <;>
    simp [wrapInt, encodeInt, inRange, isSignedInt, isUnsignedInt, kindBits] at hr ⊢ <;> omega

/-- The encoder writes an integer as an `int64`. -/
theorem convertValue_int (pkg name : String) (k : Kind) (m : Int)
    (hk : isSignedInt k = true ∨ isUnsignedInt k = true) :
    convertValue false (.basic pkg name k) (.int m) =
      .ok (.iface (predeclared .Int64) (.int (encodeInt k m))) := by
  cases k <;> simp [isSignedInt, isUnsignedInt] at hk <;>
    simp [convertValue, asTime, interfaceOf, GoType.kind, GoType.beq, timeType,
      encodeInt, isUnsignedInt, GoValue.toInt]

/-- The loop of `marshalSlice` maps the conversion over the elements when every
element converts. -/
theorem marshalSlice_map (e : GoType) (f : GoValue → GoValue) (xs : List GoValue)
    (h : ∀ x ∈ xs, convertValue false e x = .ok (f x)) :
    marshalSlice e xs = .ok (xs.map f) := by
  induction xs with
  | nil => simp [marshalSlice]
  | cons x xs ih =>
    have hx := h x (by simp)
    have ih2 := ih (fun y hy => h y (by simp [hy]))
    simp [marshalSlice, hx, ih2]

/-- The loop of `unmarshalSlice` converts the `int64` elements the encoder wrote
back to the element kind. -/
theorem unmarshalSliceLoop_ints (rt : Runtime) (pkg name : String) (k : Kind) (s : List Int)
    (hk : isSignedInt k = true ∨ isUnsignedInt k = true) (hr : ∀ m ∈ s, inRange k m) :
    unmarshalSliceLoop rt anyType (.basic pkg name k) (boxedInts k s)
      = .ok (s.map GoValue.int) := by
  induction s with
  | nil => simp [boxedInts, unmarshalSliceLoop]
  | cons m s ih =>
    have hw := wrapInt_encodeInt k m hk (hr m (by simp))
    have ih2 := ih (fun y hy => hr y (by simp [hy]))
    simp only [boxedInts] at ih2
    simp only [boxedInts, List.map_cons, unmarshalSliceLoop, ih2]
    cases k <;> simp [isSignedInt, isUnsignedInt] at hk <;>
      simp [reflectElem, anyType, GoType.kind, valueOf, predeclared, canConvert, convertOp,
        convertOpKind, convert, isSignedInt, isUnsignedInt, isConvInt, kindString, isFloatKind]
        <;> exact hw

/-- `Unmarshal` of a one-entry record into a struct with one field, when the field
step returns. -/
theorem unmarshal_single_from (rt : Runtime) (p n : String) (info : FieldInfo) (ft : GoType)
    (val fv0 fv : GoValue) (e : Option GoError) (ht : info.tag ≠ "")
    (hu : unmarshalField rt (!info.exported) ft fv0 val info.name = .returns fv e) :
    Unmarshal rt (some ⟨.map [(.str info.tag, val)]⟩)
        (.iface (.ptr (.struct p n [(info, ft)])) (.ptr (.struct [fv0])))
      = .returns (.iface (.ptr (.struct p n [(info, ft)])) (.ptr (.struct [fv]))) e := by
  have ht' : (info.tag == "") = false := by simpa using ht
  have hlook : mapLookup [(GoValue.str info.tag, val)] (.str info.tag) = some val := by
    simp [mapLookup, keyEq, GoValue.beq]
  simp only [Unmarshal, valueOf, rkind, reflectIndirect, rvIsNil, GoType.kind,
    unmarshalStruct, structGuard_bins, entriesOf, unmarshalFields, ht',
    Bool.false_eq_true, if_false, mapIndex_string_any, hlook, Option.map_some', interfaceOf_any,
    Bool.false_or, consOutcome, hu, fieldsOf]
  cases e <;> simp [consOutcome]

/-- `Unmarshal` of a one-entry record into a struct with one field, when the field
step panics. -/
theorem unmarshal_single_panics (rt : Runtime) (p n : String) (info : FieldInfo) (ft : GoType)
    (val fv0 : GoValue) (msg : String) (ht : info.tag ≠ "")
    (hu : unmarshalField rt (!info.exported) ft fv0 val info.name = .panics msg) :
    Unmarshal rt (some ⟨.map [(.str info.tag, val)]⟩)
        (.iface (.ptr (.struct p n [(info, ft)])) (.ptr (.struct [fv0])))
      = .panics msg := by
  have ht' : (info.tag == "") = false := by simpa using ht
  have hlook : mapLookup [(GoValue.str info.tag, val)] (.str info.tag) = some val := by
    simp [mapLookup, keyEq, GoValue.beq]
  simp only [Unmarshal, valueOf, rkind, reflectIndirect, rvIsNil, GoType.kind,
    unmarshalStruct, structGuard_bins, entriesOf, unmarshalFields, ht',
    Bool.false_eq_true, if_false, mapIndex_string_any, hlook, Option.map_some', interfaceOf_any,
    Bool.false_or, consOutcome, hu, fieldsOf]
  simp

/-- The decoder stores the `[]any` the encoder wrote for a slice of integers as the
original slice. -/
theorem unmarshalField_intSlice (rt : Runtime) (pkg name : String) (k : Kind) (s : List Int)
    (fv0 : GoValue) (nm : String)
    (hk : isSignedInt k = true ∨ isUnsignedInt k = true) (hr : ∀ m ∈ s, inRange k m) :
    unmarshalField rt false (.slice (.basic pkg name k)) fv0
        (.iface sliceAny (.slice (boxedInts k s))) nm
      = .returns (.slice (s.map GoValue.int)) none := by
  have hl := unmarshalSliceLoop_ints rt pkg name k s hk hr
  simp [unmarshalField, unmarshalLeaf, isTimeType, GoType.pkgPath, GoType.kind, unmarshalSlice,
    valueOf, sliceAny, reflectLen, reflectCap, elemsOf, hl, storeField, canConvert, convertOp,
    convertOpKind, convert, haveIdenticalUnderlyingType, identicalTypeWith, isSignedInt,
    isUnsignedInt, isFloatKind, isConvInt]

/-- C11. Slice round trip: for every non-nil slice `s` of integers of a signed or
unsigned kind `k` (any length, the empty slice included, elements may be zero) in a
tagged exported field, `Marshal` returns under the tag a `[]any` of the same length
whose i-th element is the `int64` conversion of `s[i]`, and `Unmarshal` of that output
into a zero-valued target of the same struct type returns no error and yields the
slice `s`, same length and same elements in order. -/
theorem C11_slice_roundtrip (rt : Runtime) (p n pkg name : String) (info : FieldInfo)
    (k : Kind) (s : List Int)
    (ht : info.tag ≠ "") (he : info.exported = true)
    (hk : isSignedInt k = true ∨ isUnsignedInt k = true) (hr : ∀ m ∈ s, inRange k m) :
    (boxedInts k s).length = s.length
    ∧ (∀ i (h : i < s.length), (boxedInts k s)[i]? =
        some (.iface (predeclared .Int64) (.int (encodeInt k (s.get ⟨i, h⟩)))))
    ∧ Marshal (.iface (.ptr (.struct p n [(info, .slice (.basic pkg name k))]))
        (.ptr (.struct [.slice (s.map GoValue.int)])))
      = .returns (.map [(.str info.tag, .iface sliceAny (.slice (boxedInts k s)))]) none
    ∧ Unmarshal rt (some ⟨.map [(.str info.tag, .iface sliceAny (.slice (boxedInts k s)))]⟩)
        (.iface (.ptr (.struct p n [(info, .slice (.basic pkg name k))]))
          (.ptr (zeroValue (.struct p n [(info, .slice (.basic pkg name k))]))))
      = .returns (.iface (.ptr (.struct p n [(info, .slice (.basic pkg name k))]))
          (.ptr (.struct [.slice (s.map GoValue.int)]))) none := by
  refine ⟨by simp [boxedInts], ?_, ?_, ?_⟩
  · intro i h
    simp [boxedInts, List.getElem?_eq_getElem h]
  · refine marshal_single p n info _ _ _ ht (by simp [GoValue.isZero]) ?_
    have hs : marshalSlice (.basic pkg name k) (s.map GoValue.int)
        = .ok ((s.map GoValue.int).map (fun x =>
            GoValue.iface (predeclared .Int64) (.int (encodeInt k x.toInt)))) :=
      marshalSlice_map _ _ _ (by
        intro x hx
        obtain ⟨m, -, rfl⟩ := List.mem_map.1 hx
        simpa [GoValue.toInt] using convertValue_int pkg name k m hk)
    simp only [convertField, he, Bool.not_true]
    rw [convertValue_slice]
    simp [hs, boxSlice, boxedInts, List.map_map, Function.comp_def, GoValue.toInt]
  · have hu := unmarshalField_intSlice rt pkg name k s
      (zeroValue (.slice (.basic pkg name k))) info.name hk hr
    exact unmarshal_single rt p n info _ _ _ ht (by rw [he]; exact hu)

/-- Witness of C11 on `Slice []int "as:slice"` holding `[1, 0, 3]`. -/
theorem C11_slice_roundtrip_witness :
    Marshal (.iface (.ptr (.struct "" "" [(⟨"Slice", true, "slice"⟩, .slice (predeclared .Int))]))
        (.ptr (.struct [.slice ([1, 0, 3].map GoValue.int)])))
      = .returns (.map [(.str "slice", .iface sliceAny (.slice (boxedInts .Int [1, 0, 3])))]) none
    ∧ Unmarshal idRuntime
        (some ⟨.map [(.str "slice", .iface sliceAny (.slice (boxedInts .Int [1, 0, 3])))]⟩)
        (.iface (.ptr (.struct "" "" [(⟨"Slice", true, "slice"⟩, .slice (predeclared .Int))]))
          (.ptr (zeroValue
            (.struct "" "" [(⟨"Slice", true, "slice"⟩, .slice (predeclared .Int))]))))
      = .returns
          (.iface (.ptr (.struct "" "" [(⟨"Slice", true, "slice"⟩, .slice (predeclared .Int))]))
          (.ptr (.struct [.slice ([1, 0, 3].map GoValue.int)]))) none :=
  (C11_slice_roundtrip idRuntime "" "" "" "int" ⟨"Slice", true, "slice"⟩ .Int [1, 0, 3]
    (by decide) rfl (by decide)
    (by intro m hm; simp at hm; rcases hm with rfl | rfl | rfl <;>
      simp [inRange, isSignedInt, kindBits])).2.2


/-! ## Pointer fields (C12, C13) -/

/-- C12. Pointer field on encode: for every string `s` (the empty string included), a
tagged exported field of type `*string` holding a non-nil pointer to `s` makes
`Marshal` return the record with the one entry tag -> `s`, with no error; holding the
nil pointer it makes `Marshal` return the empty record, with no key for the tag. -/
theorem C12_pointer_encode (p n : String) (info : FieldInfo) (s : String)
    (ht : info.tag ≠ "") (he : info.exported = true) :
    Marshal (.iface (.ptr (.struct p n [(info, .ptr (predeclared .String))]))
        (.ptr (.struct [.ptr (.str s)])))
      = .returns (.map [(.str info.tag, .iface (predeclared .String) (.str s))]) none
    ∧ Marshal (.iface (.ptr (.struct p n [(info, .ptr (predeclared .String))]))
        (.ptr (.struct [.nil])))
      = .returns (.map []) none := by
  constructor
  · refine marshal_single p n info _ _ _ ht (by simp [GoValue.isZero]) ?_
    simp only [convertField, he, GoType.kind, GoType.elem, Bool.not_true, if_true]
    exact convertValue_string _
  · have ht' : (info.tag == "") = false := by simpa using ht
    rw [marshal_ptr_struct]
    simp [marshalStruct_cons, ht', GoValue.isZero, marshalStruct, boxStruct]

/-- Witness of C12 on `Text *string "as:text"` pointing to `"string"`, and nil. -/
theorem C12_pointer_encode_witness :
    Marshal (.iface (.ptr (.struct "" "" [(⟨"Text", true, "text"⟩, .ptr (predeclared .String))]))
        (.ptr (.struct [.ptr (.str "string")])))
      = .returns (.map [(.str "text", .iface (predeclared .String) (.str "string"))]) none
    ∧ Marshal (.iface (.ptr (.struct "" "" [(⟨"Text", true, "text"⟩, .ptr (predeclared .String))]))
        (.ptr (.struct [.nil])))
      = .returns (.map []) none :=
  C12_pointer_encode "" "" ⟨"Text", true, "text"⟩ "string" (by decide) rfl

/-- C13. Pointer field on decode: for every string `s` stored under the tag of an
exported field of type `*string`, `Unmarshal` returns no error and leaves the field a
non-nil pointer to `s`, whatever the field held before (`prev`: nil or a pointer to
any string); on a record without the tag, `Unmarshal` returns no error and the field
keeps its previous value. -/
theorem C13_pointer_decode (rt : Runtime) (p n : String) (info : FieldInfo) (s : String)
    (prev : GoValue) (bins : List (GoValue × GoValue))
    (ht : info.tag ≠ "") (he : info.exported = true) :
    Unmarshal rt (some ⟨.map [(.str info.tag, .iface (predeclared .String) (.str s))]⟩)
        (.iface (.ptr (.struct p n [(info, .ptr (predeclared .String))])) (.ptr (.struct [prev])))
      = .returns (.iface (.ptr (.struct p n [(info, .ptr (predeclared .String))]))
          (.ptr (.struct [.ptr (.str s)]))) none
    ∧ (mapLookup bins (.str info.tag) = none →
        Unmarshal rt (some ⟨.map bins⟩)
          (.iface (.ptr (.struct p n [(info, .ptr (predeclared .String))])) (.ptr (.struct [prev])))
        = .returns (.iface (.ptr (.struct p n [(info, .ptr (predeclared .String))]))
            (.ptr (.struct [prev]))) none) := by
  constructor
  · refine unmarshal_single_from rt p n info _ _ _ _ none ht ?_
    simp [he, unmarshalField, predeclared, unmarshalLeaf, isTimeType, GoType.pkgPath,
      GoType.kind, unmarshalScalarToKind, storeField, valueOf, convert, canConvert, convertOp,
      convertOpKind, haveIdenticalUnderlyingType, GoType.beq, isSignedInt, isUnsignedInt,
      isFloatKind, isConvInt, kindString]
  · intro hl
    have ht' : (info.tag == "") = false := by simpa using ht
    simp [Unmarshal, valueOf, rkind, reflectIndirect, rvIsNil, GoType.kind,
      unmarshalStruct, structGuard_bins, entriesOf, unmarshalFields, ht',
      mapIndex_string_any, hl, consOutcome, fieldsOf]

/-- Witness of C13 on `Text *string "as:text"`: the stored `"string"` replaces a
pointer to `"old"`, and the record `{"other": "x"}` leaves that pointer in place. -/
theorem C13_pointer_decode_witness :
    Unmarshal idRuntime (some ⟨.map [(.str "text", .iface (predeclared .String) (.str "string"))]⟩)
        (.iface (.ptr (.struct "" "" [(⟨"Text", true, "text"⟩, .ptr (predeclared .String))]))
          (.ptr (.struct [.ptr (.str "old")])))
      = .returns (.iface (.ptr (.struct "" "" [(⟨"Text", true, "text"⟩, .ptr (predeclared .String))]))
          (.ptr (.struct [.ptr (.str "string")]))) none
    ∧ Unmarshal idRuntime
          (some ⟨.map [(.str "other", .iface (predeclared .String) (.str "x"))]⟩)
          (.iface (.ptr (.struct "" "" [(⟨"Text", true, "text"⟩, .ptr (predeclared .String))]))
            (.ptr (.struct [.ptr (.str "old")])))
        = .returns (.iface (.ptr (.struct "" "" [(⟨"Text", true, "text"⟩, .ptr (predeclared .String))]))
            (.ptr (.struct [.ptr (.str "old")]))) none :=
  ⟨(C13_pointer_decode idRuntime "" "" ⟨"Text", true, "text"⟩ "string" (.ptr (.str "old"))
      [(.str "other", .iface (predeclared .String) (.str "x"))] (by decide) rfl).1,
   (C13_pointer_decode idRuntime "" "" ⟨"Text", true, "text"⟩ "string" (.ptr (.str "old"))
      [(.str "other", .iface (predeclared .String) (.str "x"))] (by decide) rfl).2 rfl⟩

/-! ## Boolean decode and slice shape mismatch (C14, C15) -/

/-- C14 fails on the code. For every boolean `b` stored under the tag of a `bool`
field, `Unmarshal` returns the error "error while parsing field ...: unsupported
scalar value type: bool" wrapping the input-type error and leaves the field as it
was: `unmarshalScalarToKind` has no case for `reflect.Bool`. -/
theorem C14_bool_decode_fails (rt : Runtime) (p n : String) (info : FieldInfo) (b prev : Bool)
    (ht : info.tag ≠ "") :
    Unmarshal rt (some ⟨.map [(.str info.tag, .iface (predeclared .Bool) (.bool b))]⟩)
        (.iface (.ptr (.struct p n [(info, predeclared .Bool)])) (.ptr (.struct [.bool prev])))
      = .returns (.iface (.ptr (.struct p n [(info, predeclared .Bool)]))
          (.ptr (.struct [.bool prev])))
          (some (errParsingField info.name
            (.wrapf "unsupported scalar value type: %s: %w" [.str "bool"] .errInputType))) := by
  refine unmarshal_single_from rt p n info _ _ _ _ _ ht ?_
  simp [unmarshalField, predeclared, unmarshalLeaf, isTimeType, GoType.pkgPath,
    GoType.kind, unmarshalScalarToKind, storeField, kindString]

/-- Witness of C14: the record `{"bool": true}` decoded into
`struct { Bool bool "as:bool" }` returns the error and leaves `Bool` false. -/
theorem C14_bool_decode_fails_witness :
    Unmarshal idRuntime (some ⟨.map [(.str "bool", .iface (predeclared .Bool) (.bool true))]⟩)
        (.iface (.ptr (.struct "" "" [(⟨"Bool", true, "bool"⟩, predeclared .Bool)]))
          (.ptr (.struct [.bool false])))
      = .returns (.iface (.ptr (.struct "" "" [(⟨"Bool", true, "bool"⟩, predeclared .Bool)]))
          (.ptr (.struct [.bool false])))
          (some (errParsingField "Bool"
            (.wrapf "unsupported scalar value type: %s: %w" [.str "bool"] .errInputType))) :=
  C14_bool_decode_fails idRuntime "" "" ⟨"Bool", true, "bool"⟩ true false (by decide)

/-- C15 fails on the code. For every stored value whose dynamic type is an integer,
float, boolean, string or map, under the tag of a slice field, `Unmarshal` does not
return: `unmarshalSlice` calls `Len` and `Cap` on the stored value, and `reflect`
panics in one of them. -/
theorem C15_slice_mismatch_panics (rt : Runtime) (p n : String) (info : FieldInfo)
    (e t : GoType) (x prev : GoValue) (ht : info.tag ≠ "")
    (hk : isNonSequenceKind t.kind = true) :
    ∃ msg, Unmarshal rt (some ⟨.map [(.str info.tag, .iface t x)]⟩)
        (.iface (.ptr (.struct p n [(info, .slice e)])) (.ptr (.struct [prev])))
      = .panics msg := by
  have h : ∃ msg, unmarshalSlice rt (.slice e) (.iface t x) = .panics msg := by
    cases t with
    | basic pk nm k =>
      cases k <;>
        simp [isNonSequenceKind, isSignedInt, isUnsignedInt, isFloatKind, GoType.kind] at hk <;>
        cases x <;> simp [unmarshalSlice, valueOf, reflectLen, reflectCap]
    | map kt et => simp [unmarshalSlice, valueOf, reflectLen, reflectCap]
    | _ => simp [isNonSequenceKind, isSignedInt, isUnsignedInt, isFloatKind, GoType.kind] at hk
  obtain ⟨msg, hm⟩ := h
  refine ⟨msg, unmarshal_single_panics rt p n info _ _ _ msg ht ?_⟩
  simp [unmarshalField, unmarshalLeaf, isTimeType, GoType.pkgPath, GoType.kind, hm, storeField]

/-- Witness of C15: the record `{"slice": 5}` (a Go `int`) decoded into
`struct { Slice []int "as:slice" }` panics. -/
theorem C15_slice_mismatch_panics_witness :
    ∃ msg, Unmarshal idRuntime (some ⟨.map [(.str "slice", .iface (predeclared .Int) (.int 5))]⟩)
        (.iface (.ptr (.struct "" "" [(⟨"Slice", true, "slice"⟩, .slice (predeclared .Int))]))
          (.ptr (.struct [.nil])))
      = .panics msg :=
  C15_slice_mismatch_panics idRuntime "" "" ⟨"Slice", true, "slice"⟩ (predeclared .Int)
    (predeclared .Int) (.int 5) .nil (by decide) rfl


/-! ## Integer widening and narrowing (C16, C17) -/

/-- The `int64` the encoder writes: a signed value as it is, an unsigned value below
`2^63` as it is and from `2^63` on minus `2^64`. -/
theorem encodeInt_widened (k : Kind) (m : Int)
    (hk : isSignedInt k = true ∨ isUnsignedInt k = true) (hr : inRange k m) :
    encodeInt k m = if isUnsignedInt k = true ∧ 2 ^ 63 ≤ m then m - 2 ^ 64 else m := by
  cases k <;> simp [isSignedInt, isUnsignedInt] at hk <;>
    simp [wrapInt, encodeInt, inRange, isSignedInt, isUnsignedInt, kindBits] at hr ⊢ <;>
    (try split) <;> omega

/-- C16. Integer widening on encode: for every tagged exported field of a signed or
unsigned integer kind (any width, named types such as a duration included) holding
`m`, `Marshal` returns no error; for `m ≠ 0` the record has the one entry tag ->
the `int64` that is `m` itself for a signed field and for an unsigned field below
`2^63`, and `m - 2^64` for an unsigned field from `2^63` on; for `m = 0` the record
is empty. -/
theorem C16_integer_widening (p n pkg name : String) (info : FieldInfo) (k : Kind) (m : Int)
    (ht : info.tag ≠ "") (he : info.exported = true)
    (hk : isSignedInt k = true ∨ isUnsignedInt k = true) (hr : inRange k m) :
    Marshal (.iface (.ptr (.struct p n [(info, .basic pkg name k)])) (.ptr (.struct [.int m])))
      = .returns (.map (if m = 0 then []
          else [(.str info.tag, .iface (predeclared .Int64)
            (.int (if isUnsignedInt k = true ∧ 2 ^ 63 ≤ m then m - 2 ^ 64 else m)))])) none := by
  have ht' : (info.tag == "") = false := by simpa using ht
  by_cases hm : m = 0
  · subst hm
    rw [marshal_ptr_struct]
    simp [marshalStruct_cons, ht', GoValue.isZero, marshalStruct]
  · have h := marshal_single p n info (.basic pkg name k) (.int m) _ ht
      (by simp [GoValue.isZero, hm]) (convertField_int info pkg name k m he hk)
    rw [h, encodeInt_widened k m hk hr]
    simp [hm]

/-- Witness of C16: `UInt64 uint64 "as:uint64"` holding `2^64 - 1` is written as the
`int64` `-1`. -/
theorem C16_integer_widening_witness :
    Marshal (.iface (.ptr (.struct "" "" [(⟨"UInt64", true, "uint64"⟩, predeclared .Uint64)]))
        (.ptr (.struct [.int 18446744073709551615])))
      = .returns (.map [(.str "uint64", .iface (predeclared .Int64) (.int (-1)))]) none := by
  have h := C16_integer_widening "" "" "" "uint64" ⟨"UInt64", true, "uint64"⟩ .Uint64
    18446744073709551615 (by decide) rfl (by decide)
    (by simp [inRange, isSignedInt, kindBits])
  simpa [isUnsignedInt, predeclared, kindString] using h

/-- C17. Integer narrowing on decode: for every Go `int` `nv` stored under the tag of
an exported field of a signed or unsigned integer kind `k` of width `w` (8, 16, 32 or
64 bits), `Unmarshal` returns no error and sets the field to the integer `r` in the
range of `k` that differs from `nv` by a multiple of `2^w`; `r` is `nv` when `nv` is
in the range of `k`. -/
theorem C17_integer_narrowing (rt : Runtime) (p n pkg name : String) (info : FieldInfo)
    (k : Kind) (nv : Int) (prev : GoValue)
    (ht : info.tag ≠ "") (he : info.exported = true)
    (hk : isSignedInt k = true ∨ isUnsignedInt k = true)
    (htime : isTimeType (.basic pkg name k) = false) :
    ∃ r : Int,
      Unmarshal rt (some ⟨.map [(.str info.tag, .iface (predeclared .Int) (.int nv))]⟩)
          (.iface (.ptr (.struct p n [(info, .basic pkg name k)])) (.ptr (.struct [prev])))
        = .returns (.iface (.ptr (.struct p n [(info, .basic pkg name k)]))
            (.ptr (.struct [.int r]))) none
      ∧ inRange k r ∧ (r - nv) % 2 ^ kindBits k = 0 ∧ (inRange k nv → r = nv) := by
  refine ⟨wrapInt k nv, ?_, ?_, ?_, ?_⟩
  · refine unmarshal_single_from rt p n info _ _ _ _ none ht ?_
    have hw : wrapInt k (wrapInt k nv) = wrapInt k nv := by
      cases k <;> simp [isSignedInt, isUnsignedInt] at hk <;>
        simp [wrapInt, isSignedInt, isUnsignedInt, kindBits]
    cases k <;> simp [isSignedInt, isUnsignedInt] at hk <;>
      simp [he, unmarshalField, unmarshalLeaf, htime, GoType.kind, unmarshalScalarToKind,
        toIntVal, asInt, GoType.beq, predeclared, storeField, valueOf, canConvert, convertOp,
        convertOpKind, convert, isSignedInt, isUnsignedInt, isConvInt, kindString, isFloatKind]
        <;> exact hw
  · cases k <;> simp [isSignedInt, isUnsignedInt] at hk <;>
      simp [wrapInt, inRange, isSignedInt, isUnsignedInt, kindBits] <;> omega
  · cases k <;> simp [isSignedInt, isUnsignedInt] at hk <;>
      simp [wrapInt, isSignedInt, isUnsignedInt, kindBits] <;> omega
  · intro hr
    cases k <;> simp [isSignedInt, isUnsignedInt] at hk <;>
      simp [wrapInt, inRange, isSignedInt, isUnsignedInt, kindBits] at hr ⊢ <;> omega

/-- Witness of C17: the stored `int` 300 decoded into `Int8 int8 "as:int8"`. -/
theorem C17_integer_narrowing_witness :
    ∃ r : Int,
      Unmarshal idRuntime (some ⟨.map [(.str "int8", .iface (predeclared .Int) (.int 300))]⟩)
          (.iface (.ptr (.struct "" "" [(⟨"Int8", true, "int8"⟩, .basic "" "int8" .Int8)]))
            (.ptr (.struct [.int 0])))
        = .returns (.iface (.ptr (.struct "" "" [(⟨"Int8", true, "int8"⟩, .basic "" "int8" .Int8)]))
            (.ptr (.struct [.int r]))) none
      ∧ inRange .Int8 r ∧ (r - 300) % 2 ^ kindBits .Int8 = 0 ∧ (inRange .Int8 300 → r = 300) :=
  C17_integer_narrowing idRuntime "" "" "" "int8" ⟨"Int8", true, "int8"⟩ .Int8 300 (.int 0)
    (by decide) rfl (by decide) (by decide)

/-! ## Time encoding (C18) -/

/-- A `time.Time` is converted to its Unix seconds. -/
theorem convertValue_time (v : GoValue) :
    convertValue false timeType v = .ok (.iface (predeclared .Int64) (.int (timeUnix v))) := by
  have hb : GoType.beq timeType timeType = true := beq_time
  cases v <;> simp [convertValue, asTime, interfaceOf_time, hb]

/-- C18. Time encoding: for every non-zero `time.Time` (fields `wall`, `ext`, `loc`)
in a tagged exported field, `Marshal` returns no error and the one entry tag ->
`t.Unix()` as an `int64`: a value in the signed 64-bit range that is the count of
whole seconds from the Unix epoch to `t`, namely `ext - unixToInternal` for a time
without monotonic reading (`wall < 2^63`) whose seconds fit, and
`wallToInternal + (wall - 2^63) / 2^30 - unixToInternal`, read from the seconds field
of `wall`, for a time with monotonic reading (`2^63 ≤ wall < 2^64`). The value is the
same for every other time that differs from `t` only in the nanoseconds (the low 30
bits of `wall`) and the location and, for a time with monotonic reading, in the
monotonic clock reading `ext`. -/
theorem C18_time_encoding (p n : String) (info : FieldInfo) (wall ext : Int) (loc : GoValue)
    (ht : info.tag ≠ "") (he : info.exported = true)
    (hz : (GoValue.struct [.int wall, .int ext, loc]).isZero = false) :
    Marshal (.iface (.ptr (.struct p n [(info, timeType)]))
        (.ptr (.struct [.struct [.int wall, .int ext, loc]])))
      = .returns (.map [(.str info.tag, .iface (predeclared .Int64)
          (.int (timeUnix (.struct [.int wall, .int ext, loc]))))]) none
    ∧ inRange .Int64 (timeUnix (.struct [.int wall, .int ext, loc]))
    ∧ (wall < 2 ^ 63 → inRange .Int64 (ext - unixToInternal) →
        timeUnix (.struct [.int wall, .int ext, loc]) = ext - unixToInternal)
    ∧ (2 ^ 63 ≤ wall → wall < 2 ^ 64 →
        timeUnix (.struct [.int wall, .int ext, loc])
          = wallToInternal + (wall - 2 ^ 63) / 2 ^ 30 - unixToInternal)
    ∧ (∀ (wall2 : Int) (loc2 : GoValue), wall2 / 2 ^ 30 = wall / 2 ^ 30 →
        timeUnix (.struct [.int wall2, .int ext, loc2])
          = timeUnix (.struct [.int wall, .int ext, loc]))
    ∧ (2 ^ 63 ≤ wall → ∀ (wall2 ext2 : Int) (loc2 : GoValue), wall2 / 2 ^ 30 = wall / 2 ^ 30 →
        timeUnix (.struct [.int wall2, .int ext2, loc2])
          = timeUnix (.struct [.int wall, .int ext, loc])) := by
  refine ⟨?_, ?_, ?_, ?_, ?_, ?_⟩
  · refine marshal_single p n info _ _ _ ht hz ?_
    simp only [convertField, he, Bool.not_true]
    exact convertValue_time _
  · simp [timeUnix, wrapInt, inRange, isSignedInt, kindBits]; omega
  · intro hw hr
    have : ¬ (2 : Int) ^ 63 ≤ wall := by omega
    simp [timeUnix, timeSec, this, wrapInt, inRange, isSignedInt, kindBits] at hr ⊢; omega
  · intro h1 h2
    simp [timeUnix, timeSec, h1, wrapInt, isSignedInt, kindBits, wallToInternal, unixToInternal]
    omega
  · intro wall2 loc2 h
    simp only [timeUnix, timeSec]
    have h1 : ((2 : Int) ^ 63 ≤ wall2) ↔ ((2 : Int) ^ 63 ≤ wall) := by omega
    have h2 : (wall2 * 2 % 2 ^ 64) / 2 ^ 31 = (wall * 2 % 2 ^ 64) / 2 ^ 31 := by omega
    simp only [h1, h2]
  · intro hw wall2 ext2 loc2 h
    have h1 : (2 : Int) ^ 63 ≤ wall2 := by omega
    have h2 : (wall2 * 2 % 2 ^ 64) / 2 ^ 31 = (wall * 2 % 2 ^ 64) / 2 ^ 31 := by omega
    simp only [timeUnix, timeSec, h1, hw, if_true, h2]

/-- Witness of C18: 2025-10-17 12:51:00.000000500 UTC without monotonic reading
encodes as 1760705460, the same as 2025-10-17 12:51:00 UTC; the same instant with
a monotonic reading (`wall = 2^63 + 4442993460 * 2^30 + 500`, `ext` the monotonic
clock) encodes as 1760705460 too, the same as a time in that second with another
nanosecond count and another monotonic clock reading. -/
theorem C18_time_encoding_witness :
    Marshal (.iface (.ptr (.struct "" "" [(⟨"Time", true, "time"⟩, timeType)]))
        (.ptr (.struct [.struct [.int 500, .int 63896302260, .nil]])))
      = .returns (.map [(.str "time", .iface (predeclared .Int64) (.int 1760705460))]) none
    ∧ timeUnix (.struct [.int 0, .int 63896302260, .nil])
        = timeUnix (.struct [.int 500, .int 63896302260, .nil])
    ∧ Marshal (.iface (.ptr (.struct "" "" [(⟨"Time", true, "time"⟩, timeType)]))
        (.ptr (.struct [.struct [.int 13993999938615247348, .int 987654321, .nil]])))
      = .returns (.map [(.str "time", .iface (predeclared .Int64) (.int 1760705460))]) none
    ∧ timeUnix (.struct [.int 13993999938615247348, .int 987654321, .nil]) = 1760705460
    ∧ timeUnix (.struct [.int 13993999938615246849, .int 5, .nil])
        = timeUnix (.struct [.int 13993999938615247348, .int 987654321, .nil]) :=
  ⟨(C18_time_encoding "" "" ⟨"Time", true, "time"⟩ 500 63896302260 .nil (by decide) rfl rfl).1,
   (C18_time_encoding "" "" ⟨"Time", true, "time"⟩ 500 63896302260 .nil (by decide) rfl
      rfl).2.2.2.2.1 0 .nil (by decide),
   (C18_time_encoding "" "" ⟨"Time", true, "time"⟩ 13993999938615247348 987654321 .nil
      (by decide) rfl rfl).1,
   (C18_time_encoding "" "" ⟨"Time", true, "time"⟩ 13993999938615247348 987654321 .nil
      (by decide) rfl rfl).2.2.2.1 (by decide) (by decide),
   (C18_time_encoding "" "" ⟨"Time", true, "time"⟩ 13993999938615247348 987654321 .nil
      (by decide) rfl rfl).2.2.2.2.2 (by decide) 13993999938615246849 5 .nil (by decide)⟩

/-! ## Map keys and map values on encode (C19, C20) -/

/-- Source `getMapKey` rejects every key kind that is neither integer nor string. -/
theorem getMapKey_unsupported (kt : GoType) (key : GoValue)
    (hk : isSignedInt kt.kind = false ∧ isUnsignedInt kt.kind = false ∧ kt.kind ≠ .String) :
    getMapKey kt key = .err (unsupportedKind kt.kind) := by
  obtain ⟨h1, h2, h3⟩ := hk
  unfold getMapKey
  cases h : kt.kind <;> simp [h, isSignedInt, isUnsignedInt] at h1 h2 h3 ⊢

/-- Source `getMapKey` accepts every key of an integer or string kind. -/
theorem getMapKey_supported (kt : GoType) (key : GoValue)
    (hk : isSignedInt kt.kind = true ∨ isUnsignedInt kt.kind = true ∨ kt.kind = .String) :
    ∃ x, getMapKey kt key = .ok x := by
  unfold getMapKey
  cases h : kt.kind <;> simp [h, isSignedInt, isUnsignedInt] at hk ⊢

/-- C19. Map key restriction on encode: for every non-empty map in a tagged exported
field whose key kind is neither a signed or unsigned integer kind nor string (bool,
float, struct, interface keys), `Marshal` returns the nil record and an error that
wraps the input-type error; for the integer and string key kinds `getMapKey`
returns a key for every key value, with no error. -/
theorem C19_map_key_restriction (p n : String) (info : FieldInfo) (kt et : GoType)
    (key val : GoValue) (rest : List (GoValue × GoValue))
    (ht : info.tag ≠ "") (he : info.exported = true) :
    (isSignedInt kt.kind = false ∧ isUnsignedInt kt.kind = false ∧ kt.kind ≠ .String →
      ∃ e, Marshal (.iface (.ptr (.struct p n [(info, .map kt et)]))
            (.ptr (.struct [.map ((key, val) :: rest)])))
          = .returns .nil (some e) ∧ e.isInputType = true)
    ∧ (isSignedInt kt.kind = true ∨ isUnsignedInt kt.kind = true ∨ kt.kind = .String →
      ∃ x, getMapKey kt key = .ok x) := by
  constructor
  · intro hk
    have ht' : (info.tag == "") = false := by simpa using ht
    have hg := getMapKey_unsupported kt key hk
    refine ⟨.wrapf "failed to convert field %v: %w" [.int 1]
      (.wrapf "failed to marshal map key %v: %w" [.val (interfaceOf kt key)]
        (unsupportedKind kt.kind)), ?_, rfl⟩
    rw [marshal_ptr_struct]
    simp [marshalStruct_cons, ht', GoValue.isZero, convertField, he, convertValue_map, marshalMap,
      hg, boxMap]
  · exact getMapKey_supported kt key

/-- Witness of C19: `M map[bool]int "as:m"` holding `{true: 1}` is rejected, and
`getMapKey` accepts the `int` key 7. -/
theorem C19_map_key_restriction_witness :
    (∃ e, Marshal (.iface
          (.ptr (.struct "" "" [(⟨"M", true, "m"⟩, .map (predeclared .Bool) (predeclared .Int))]))
          (.ptr (.struct [.map [(.bool true, .int 1)]])))
        = .returns .nil (some e) ∧ e.isInputType = true)
    ∧ ∃ x, getMapKey (predeclared .Int) (.int 7) = .ok x :=
  ⟨(C19_map_key_restriction "" "" ⟨"M", true, "m"⟩ (predeclared .Bool) (predeclared .Int)
      (.bool true) (.int 1) [] (by decide) rfl).1 (by decide),
   (C19_map_key_restriction "" "" ⟨"M", true, "m"⟩ (predeclared .Int) (predeclared .Int)
      (.int 7) (.int 1) [] (by decide) rfl).2 (by decide)⟩

/-- `marshalMap` on a string-keyed map whose values all convert. -/
theorem marshalMap_strKeyed (et : GoType) (enc : GoValue → GoValue)
    (m : List (String × GoValue)) (hm : (m.map Prod.fst).Nodup)
    (hv : ∀ e ∈ m, convertValue false et e.2 = .ok (enc e.2)) :
    marshalMap (predeclared .String) et (strKeyed m) [] = .ok (boxedStrKeyed enc m) := by
  have h := marshalMap_append (predeclared .String) et
    (fun e => (.iface (predeclared .String) e.1, enc e.2))
    (strKeyed m) []
    (by
      intro e he
      simp only [strKeyed, List.mem_map] at he
      obtain ⟨a, ha, rfl⟩ := he
      exact ⟨by simp [getMapKey, predeclared, GoType.kind], hv a ha⟩)
    (by
      simp only [FreshKeys, List.nil_append, strKeyed, List.map_map]
      have := freshKeys_of_nodup (m.map Prod.fst)
        (fun a => GoValue.iface (predeclared .String) (.str a))
        (by intro a b hab; simp [keyEq, GoValue.beq, GoType.beq, predeclared, hab]) hm
      simpa [List.map_map, Function.comp] using this)
  simpa [strKeyed, boxedStrKeyed, List.map_map, Function.comp] using h

/-- C20 (amended). Map values on encode go through `convertValue`, the conversion of
struct fields: for every string-keyed map (keys distinct as in every Go map) in a
tagged exported field whose values, of any type, structs, maps and slices included,
each convert without error, `Marshal` returns no error and under the tag a
`map[any]any` from each key to the conversion of its value, a nested container for a
struct, map or slice value. -/
theorem C20_map_values_converted (p n : String) (info : FieldInfo) (et : GoType)
    (enc : GoValue → GoValue) (m : List (String × GoValue))
    (ht : info.tag ≠ "") (he : info.exported = true) (hm : (m.map Prod.fst).Nodup)
    (hv : ∀ e ∈ m, convertValue false et e.2 = .ok (enc e.2)) :
    Marshal (.iface (.ptr (.struct p n [(info, .map (predeclared .String) et)]))
        (.ptr (.struct [.map (strKeyed m)])))
      = .returns (.map [(.str info.tag, .iface mapAnyAny (.map (boxedStrKeyed enc m)))]) none := by
  refine marshal_single p n info _ _ _ ht (by simp [GoValue.isZero]) ?_
  simp only [convertField, he, Bool.not_true]
  rw [convertValue_map, marshalMap_strKeyed et enc m hm hv]
  rfl

/-- C20 fails as stated: `Marshal` of `struct { M map[string][]int "as:m" }` holding
`{"a": [1, 2]}` returns no error and the nested container
`{"m": {"a": [int64 1, int64 2]}}`. -/
theorem C20_nested_slice_counterexample :
    Marshal (.iface (.ptr sliceMapType)
        (.ptr (.struct [.map [(.str "a", .slice [.int 1, .int 2])]])))
      = .returns (.map [(.str "m", .iface mapAnyAny (.map
          [(.iface (predeclared .String) (.str "a"),
            .iface sliceAny (.slice [.iface (predeclared .Int64) (.int 1),
              .iface (predeclared .Int64) (.int 2)]))]))]) none := by
  rfl

/-- Witness of C20 (amended) on `M map[string][]int "as:m"` holding `{"a": [1, 2]}`. -/
theorem C20_map_values_converted_witness :
    Marshal (.iface (.ptr (.struct "" ""
        [(⟨"M", true, "m"⟩, .map (predeclared .String) (.slice (predeclared .Int)))]))
        (.ptr (.struct [.map (strKeyed [("a", .slice [.int 1, .int 2])])])))
      = .returns (.map [(.str "m", .iface mapAnyAny (.map (boxedStrKeyed
          (fun _ => .iface sliceAny (.slice [.iface (predeclared .Int64) (.int 1),
              .iface (predeclared .Int64) (.int 2)]))
          [("a", .slice [.int 1, .int 2])])))]) none :=
  C20_map_values_converted "" "" ⟨"M", true, "m"⟩ _ _ _ (by decide) rfl
    (by decide) (by intro e he; simp at he; subst he; rfl)


/-! ## Map keys on decode (C21) -/

/-- Source `unmarshalScalarToKind` rejects every kind that is neither string nor an
integer nor a float kind. -/
theorem unmarshalScalarToKind_unsupported (rt : Runtime) (k : Kind) (v : GoValue)
    (hk : isSignedInt k = false ∧ isUnsignedInt k = false ∧ isFloatKind k = false
      ∧ k ≠ .String) :
    unmarshalScalarToKind rt k v =
      .err (.wrapf "unsupported scalar value type: %s: %w" [.str (kindString k)] .errInputType) := by
  obtain ⟨h1, h2, h3, h4⟩ := hk
  cases k <;> simp [isSignedInt, isUnsignedInt, isFloatKind] at h1 h2 h3 h4 ⊢ <;>
    simp [unmarshalScalarToKind]

/-- C21 fails as stated: `Unmarshal` of the nested record `{1.5: "a"}` into
`struct { M map[float64]string "as:m" }` returns no error and sets `M` to
`{1.5: "a"}`; `unmarshalScalarToKind` coerces a float key like any float scalar. -/
theorem C21_float_key_counterexample :
    Unmarshal idRuntime
        (some ⟨.map [(.str "m", .iface mapAnyAny (.map
          [(.iface (predeclared .Float64) (.float 4609434218613702656),
            .iface (predeclared .String) (.str "a"))]))]⟩)
        (.iface (.ptr floatMapType) (.ptr (.struct [.nil])))
      = .returns (.iface (.ptr floatMapType)
          (.ptr (.struct [.map [(.float 4609434218613702656, .str "a")]]))) none := by
  rfl

/-- C21 (amended). Map key restriction on decode: for every map-typed field whose
declared key kind is neither an integer kind, nor a float kind, nor string (bool,
struct, interface keys) and every non-empty nested record with dynamically typed
keys (a map whose key type is an interface, such as the `map[any]any` the encoder
writes for a map) whose first visited key is not nil, stored under its tag,
`Unmarshal` returns an error that wraps the input-type error and leaves the field as
it was. -/
theorem C21_map_key_decode (rt : Runtime) (p n pk nm : String) (info : FieldInfo)
    (dstK dstE srcE kt : GoType) (kv e prev : GoValue) (rest : List (GoValue × GoValue))
    (ht : info.tag ≠ "")
    (hk : isSignedInt dstK.kind = false ∧ isUnsignedInt dstK.kind = false
      ∧ isFloatKind dstK.kind = false ∧ dstK.kind ≠ .String) :
    ∃ err, Unmarshal rt
        (some ⟨.map [(.str info.tag,
          .iface (.map (.iface pk nm) srcE) (.map ((.iface kt kv, e) :: rest)))]⟩)
        (.iface (.ptr (.struct p n [(info, .map dstK dstE)])) (.ptr (.struct [prev])))
      = .returns (.iface (.ptr (.struct p n [(info, .map dstK dstE)])) (.ptr (.struct [prev])))
          (some err)
      ∧ err.isInputType = true := by
  refine ⟨errParsingField info.name
    (.wrapf "unsupported scalar value type: %s: %w" [.str (kindString dstK.kind)] .errInputType),
    ?_, rfl⟩
  refine unmarshal_single_from rt p n info _ _ _ _ _ ht ?_
  have hu := unmarshalScalarToKind_unsupported rt dstK.kind (interfaceOf kt kv) hk
  have hm : unmarshalMap rt (!info.exported) (.map dstK dstE)
      (.iface (.map (.iface pk nm) srcE) (.map ((.iface kt kv, e) :: rest)))
      = .err (.wrapf "unsupported scalar value type: %s: %w" [.str (kindString dstK.kind)]
          .errInputType) := by
    simp [unmarshalMap, valueOf, reflectLen, entriesOf, unmarshalMapLoop,
      unmarshalMapEntry, reflectElem, hu]
  have hkind : GoType.kind (.map dstK dstE) = .Map := rfl
  have htm : isTimeType (.map dstK dstE) = false := by simp [isTimeType, GoType.pkgPath]
  simp [unmarshalField, unmarshalLeaf, htm, hkind, hm, storeField]

/-- Witness of C21 (amended): the nested record `map[any]any{true: "a"}` decoded
into `M map[bool]string "as:m"` is rejected. -/
theorem C21_map_key_decode_witness :
    ∃ err, Unmarshal idRuntime
        (some ⟨.map [(.str "m", .iface mapAnyAny (.map
          [(.iface (predeclared .Bool) (.bool true), .iface (predeclared .String) (.str "a"))]))]⟩)
        (.iface (.ptr (.struct "" "" [(⟨"M", true, "m"⟩,
            .map (predeclared .Bool) (predeclared .String))]))
          (.ptr (.struct [.nil])))
      = .returns (.iface (.ptr (.struct "" "" [(⟨"M", true, "m"⟩,
            .map (predeclared .Bool) (predeclared .String))]))
          (.ptr (.struct [.nil]))) (some err)
      ∧ err.isInputType = true :=
  C21_map_key_decode idRuntime "" "" "" "" ⟨"M", true, "m"⟩ (predeclared .Bool)
    (predeclared .String) anyType (predeclared .Bool) (.bool true)
    (.iface (predeclared .String) (.str "a")) .nil [] (by decide) (by decide)

/-! ## Pointer to struct on decode (C22) -/

/-- C22 fails on the code. For every field declared as a pointer to a struct other
than `time.Time` and every nested record stored under its tag that decodes into the
pointee type without error, `Unmarshal` returns no error and leaves the field as it
was (nil stays nil): the nested record is decoded into a fresh struct that is never
assigned to the pointer. -/
theorem C22_pointer_struct_dropped (rt : Runtime) (p n sp sn : String) (info : FieldInfo)
    (sfs : List (FieldInfo × GoType)) (kt et : GoType) (es : List (GoValue × GoValue))
    (prev : GoValue) (vs : List GoValue)
    (ht : info.tag ≠ "") (htime : isTimeType (.struct sp sn sfs) = false)
    (hn : unmarshalFields rt false kt et es sfs (zeroFields sfs) = .returns vs none) :
    Unmarshal rt (some ⟨.map [(.str info.tag, .iface (.map kt et) (.map es))]⟩)
        (.iface (.ptr (.struct p n [(info, .ptr (.struct sp sn sfs))])) (.ptr (.struct [prev])))
      = .returns (.iface (.ptr (.struct p n [(info, .ptr (.struct sp sn sfs))]))
          (.ptr (.struct [prev]))) none := by
  refine unmarshal_single_from rt p n info _ _ _ _ none ht ?_
  simp [unmarshalField, htime, structGuard, valueOf, entriesOf, hn]

/-- Witness of C22: the record `{"nested": {"x": 1}}` decoded into
`struct { Nested *inner "as:nested" }` with `inner = struct { X int "as:x" }` and
`Nested` nil: the fresh `inner` is decoded to `{X: 1}`, and `Nested` is still nil. -/
theorem C22_pointer_struct_dropped_witness :
    Unmarshal idRuntime
        (some ⟨.map [(.str "nested", .iface mapAnyAny
          (.map [(.iface (predeclared .String) (.str "x"), .iface (predeclared .Int) (.int 1))]))]⟩)
        (.iface (.ptr (.struct "" "outer" [(⟨"Nested", true, "nested"⟩,
            .ptr (.struct "" "inner" [(⟨"X", true, "x"⟩, predeclared .Int)]))]))
          (.ptr (.struct [.nil])))
      = .returns (.iface (.ptr (.struct "" "outer" [(⟨"Nested", true, "nested"⟩,
            .ptr (.struct "" "inner" [(⟨"X", true, "x"⟩, predeclared .Int)]))]))
          (.ptr (.struct [.nil]))) none :=
  C22_pointer_struct_dropped idRuntime "" "outer" "" "inner" ⟨"Nested", true, "nested"⟩
    [(⟨"X", true, "x"⟩, predeclared .Int)] anyType anyType
    [(.iface (predeclared .String) (.str "x"), .iface (predeclared .Int) (.int 1))]
    .nil [.int 1] (by decide) (by decide) rfl

/-! ## Silent zeroing of values that are no Go `int` (C23) -/

/-- C23. Silent zeroing of non-int values: for every stored value on which the type
assertion `value.(int)` fails (an `int64`, a `float64`, a string, a bool, any value
whose dynamic type is not Go `int`) and every exported field of a signed or unsigned
integer kind, `Unmarshal` returns no error and sets the field to 0, whatever the
field held before the call. -/
theorem C23_non_int_zeroed (rt : Runtime) (p n pkg name : String) (info : FieldInfo)
    (k : Kind) (val prev : GoValue)
    (ht : info.tag ≠ "") (he : info.exported = true)
    (hk : isSignedInt k = true ∨ isUnsignedInt k = true)
    (htime : isTimeType (.basic pkg name k) = false)
    (hv : asInt val = none) :
    Unmarshal rt (some ⟨.map [(.str info.tag, val)]⟩)
        (.iface (.ptr (.struct p n [(info, .basic pkg name k)])) (.ptr (.struct [prev])))
      = .returns (.iface (.ptr (.struct p n [(info, .basic pkg name k)]))
          (.ptr (.struct [.int 0]))) none := by
  refine unmarshal_single_from rt p n info _ _ _ _ none ht ?_
  cases k <;> simp [isSignedInt, isUnsignedInt] at hk <;>
    simp [he, unmarshalField, unmarshalLeaf, htime, GoType.kind, unmarshalScalarToKind,
      toIntVal, hv, GoType.beq, predeclared, storeField, valueOf, canConvert, convertOp,
      convertOpKind, convert, isSignedInt, isUnsignedInt, isConvInt, kindString, isFloatKind,
      wrapInt, kindBits]

/-- Witness of C23: the stored `int64` 7 decoded into `Int32 int32 "as:int32"` that
held 5 leaves 0. -/
theorem C23_non_int_zeroed_witness :
    Unmarshal idRuntime (some ⟨.map [(.str "int32", .iface (predeclared .Int64) (.int 7))]⟩)
        (.iface (.ptr (.struct "" "" [(⟨"Int32", true, "int32"⟩, .basic "" "int32" .Int32)]))
          (.ptr (.struct [.int 5])))
      = .returns (.iface (.ptr (.struct "" "" [(⟨"Int32", true, "int32"⟩, .basic "" "int32" .Int32)]))
          (.ptr (.struct [.int 0]))) none :=
  C23_non_int_zeroed idRuntime "" "" "" "int32" ⟨"Int32", true, "int32"⟩ .Int32
    (.iface (predeclared .Int64) (.int 7)) (.int 5) (by decide) rfl (by decide) (by decide) rfl

end Aerospike
